import Mathlib

/-!
Verification development for the `omnify-plugin-typescript-generator` core
(`src/interface-generator.ts`, `src/enum-generator.ts`, `src/rules-generator.ts`,
`src/zod-generator.ts`, `src/generator.ts`, as bundled in the distributed chunk).

The definitions below are a shallow embedding of that code:
* JavaScript strings are Lean `String`s; the `toUpperCase`/`toLowerCase` calls of
  the source are modelled on the ASCII range (explicit letter tables), matching
  the JavaScript behaviour for ASCII input.
* JavaScript numbers appearing in rule bags and length bounds are modelled as
  `Int` (the generator only interpolates them into strings).
* `undefined`-able fields become `Option`; records and `Map`s whose iteration
  order matters become insertion-ordered association lists.
* `throw` becomes `Except.error`; the error carries the exact data the source
  interpolates into its message.
* `Record<string, unknown>` metadata (`extra`) is modelled by its
  `JSON.stringify` serialisation, which is the only way the generator uses it.
-/

/-- ASCII `toUpperCase` as JavaScript applies it to the generator's inputs:
lower-case ASCII letters map to upper case, every other character is kept. -/
def jsToUpper (c : Char) : Char :=
  if c = 'a' then 'A' else if c = 'b' then 'B' else if c = 'c' then 'C'
  else if c = 'd' then 'D' else if c = 'e' then 'E' else if c = 'f' then 'F'
  else if c = 'g' then 'G' else if c = 'h' then 'H' else if c = 'i' then 'I'
  else if c = 'j' then 'J' else if c = 'k' then 'K' else if c = 'l' then 'L'
  else if c = 'm' then 'M' else if c = 'n' then 'N' else if c = 'o' then 'O'
  else if c = 'p' then 'P' else if c = 'q' then 'Q' else if c = 'r' then 'R'
  else if c = 's' then 'S' else if c = 't' then 'T' else if c = 'u' then 'U'
  else if c = 'v' then 'V' else if c = 'w' then 'W' else if c = 'x' then 'X'
  else if c = 'y' then 'Y' else if c = 'z' then 'Z' else c

/-- ASCII `toLowerCase`, the mirror image of `jsToUpper`. -/
def jsToLower (c : Char) : Char :=
  if c = 'A' then 'a' else if c = 'B' then 'b' else if c = 'C' then 'c'
  else if c = 'D' then 'd' else if c = 'E' then 'e' else if c = 'F' then 'f'
  else if c = 'G' then 'g' else if c = 'H' then 'h' else if c = 'I' then 'i'
  else if c = 'J' then 'j' else if c = 'K' then 'k' else if c = 'L' then 'l'
  else if c = 'M' then 'm' else if c = 'N' then 'n' else if c = 'O' then 'o'
  else if c = 'P' then 'p' else if c = 'Q' then 'q' else if c = 'R' then 'r'
  else if c = 'S' then 's' else if c = 'T' then 't' else if c = 'U' then 'u'
  else if c = 'V' then 'v' else if c = 'W' then 'w' else if c = 'X' then 'x'
  else if c = 'Y' then 'y' else if c = 'Z' then 'z' else c

/-- The separator class of the source's `/[-_\s]+/` splits: dash, underscore and
(ASCII) whitespace. -/
def isSepChar (c : Char) : Bool :=
  c = '-' || c = '_' || c = ' ' || c = '\t' || c = '\n' || c = '\x0d' ||
  c = '\x0b' || c = '\x0c'

/-- Split a character list at every separator character (dropping it).
JavaScript's `split(/[-_\s]+/)` collapses separator runs instead, but the two
results agree after the word-wise `capFirstWord` map and `join`, because the
extra pieces produced here are empty and map to the empty word. -/
def splitSeps : List Char → List (List Char)
  | [] => [[]]
  | c :: rest =>
    if isSepChar c then [] :: splitSeps rest
    else
      match splitSeps rest with
      | w :: ws => (c :: w) :: ws
      | [] => [[c]]

/-- `word.charAt(0).toUpperCase() + word.slice(1).toLowerCase()`. -/
def capFirstWord : List Char → List Char
  | [] => []
  | c :: rest => jsToUpper c :: rest.map jsToLower

/-- The camel-boundary pass of `toPascalCase`:
`value.replace(/([a-z])([A-Z])/g, "$1_$2")` inserts an underscore between a
lower-case letter and the upper-case letter that follows it. -/
def camelBoundaryIns : List Char → List Char
  | [] => []
  | [c] => [c]
  | a :: b :: rest =>
    if a.isLower && b.isUpper then a :: '_' :: camelBoundaryIns (b :: rest)
    else a :: camelBoundaryIns (b :: rest)

/-- `toPascalCase` from `enum-generator.ts`. -/
def toPascalCase (value : String) : String :=
  let normalized := camelBoundaryIns value.toList
  String.mk ((splitSeps normalized).map capFirstWord).flatten

/-- `toEnumMemberName` from `enum-generator.ts`: split on `-`, `_`, whitespace;
capitalise each word's first character and lower-case the rest; strip the
remaining non-alphanumerics (`replace(/[^a-zA-Z0-9]/g, "")`); prefix `_` when
the result starts with a digit (`/^\d/`). -/
def toEnumMemberName (value : String) : String :=
  let joined := ((splitSeps value.toList).map capFirstWord).flatten
  let stripped := joined.filter Char.isAlphanum
  let result :=
    match stripped with
    | c :: _ => if c.isDigit then '_' :: stripped else stripped
    | [] => stripped
  String.mk result

/-- First pass of `toSnakeCase`: `str.replace(/([A-Z])/g, "_$1")`. -/
def underscoreUppers : List Char → List Char
  | [] => []
  | c :: rest =>
    if c.isUpper then '_' :: c :: underscoreUppers rest
    else c :: underscoreUppers rest

/-- Second pass of `toSnakeCase`: `replace(/^_/, "")` removes one leading
underscore only. -/
def dropOneLeadingUnderscore : List Char → List Char
  | '_' :: rest => rest
  | cs => cs

/-- `toSnakeCase` from `interface-generator.ts` (duplicated in
`zod-generator.ts`). -/
def toSnakeCase (str : String) : String :=
  String.mk ((dropOneLeadingUnderscore (underscoreUppers str.toList)).map jsToLower)

/-- `lowerFirst` from `enum-generator.ts`. -/
def lowerFirst (str : String) : String :=
  match str.toList with
  | [] => ""
  | c :: rest => String.mk (jsToLower c :: rest)

/-- `escapeString` from `enum-generator.ts`:
`str.replace(/\\/g, "\\\\").replace(/'/g, "\\'")`. The two sequential global
replaces are equivalent to this single character-wise expansion because the
first pass only doubles backslashes and the second only touches apostrophes. -/
def escapeString (str : String) : String :=
  String.mk (str.toList.flatMap fun c =>
    if c = '\\' then ['\\', '\\']
    else if c = '\'' then ['\\', '\''] else [c])

/-- One character of a JSON string literal, as `JSON.stringify` emits it
(quotation mark, reverse solidus and ASCII control characters escaped). -/
def jsonEscapeChar (c : Char) : List Char :=
  if c = '"' then ['\\', '"']
  else if c = '\\' then ['\\', '\\']
  else if c = '\n' then ['\\', 'n']
  else if c = '\x0d' then ['\\', 'r']
  else if c = '\t' then ['\\', 't']
  else if c = '\x08' then ['\\', 'b']
  else if c = '\x0c' then ['\\', 'f']
  else if c.toNat < 32 then
    let d1 := Nat.digitChar (c.toNat / 16)
    let d2 := Nat.digitChar (c.toNat % 16)
    ['\\', 'u', '0', '0', d1, d2]
  else [c]

/-- A JSON string literal for `s`. -/
def jsonStr (s : String) : String :=
  "\"" ++ String.mk (s.toList.flatMap jsonEscapeChar) ++ "\""

/-- `JSON.stringify` of a flat string-to-string record (compact form), with the
record's insertion order. -/
def jsonFlatObj (m : List (String × String)) : String :=
  "\x7b" ++ String.intercalate "," (m.map fun kv => jsonStr kv.1 ++ ":" ++ jsonStr kv.2) ++ "\x7d"

/-- `JSON.stringify(m, null, 2)` of a flat string-to-string record. -/
def jsonFlatObjPretty (m : List (String × String)) : String :=
  match m with
  | [] => "\x7b\x7d"
  | _ =>
    "\x7b\n" ++
    String.intercalate ",\n" (m.map fun kv => "  " ++ jsonStr kv.1 ++ ": " ++ jsonStr kv.2) ++
    "\n\x7d"

/-- `JSON.stringify(m, null, 2)` of a two-level record of records. -/
def jsonNestedObjPretty (m : List (String × List (String × String))) : String :=
  match m with
  | [] => "\x7b\x7d"
  | _ =>
    "\x7b\n" ++
    String.intercalate ",\n" (m.map fun kv =>
      let inner :=
        match kv.2 with
        | [] => "\x7b\x7d"
        | entries =>
          "\x7b\n" ++
          String.intercalate ",\n" (entries.map fun e => "      " ++ jsonStr e.1 ++ ": " ++ jsonStr e.2) ++
          "\n    \x7d"
      "  " ++ jsonStr kv.1 ++ ": " ++ inner) ++
    "\n\x7d"

/-- Substring test (`String.prototype.includes`). -/
def containsSub (s pat : String) : Bool :=
  decide (pat.toList <:+: s.toList)

/-- Suffix test used to state the nullability-suffix claims. -/
def strEndsWith (s suffix : String) : Bool :=
  List.isSuffixOf suffix.toList s.toList

/-- A string free of `/`, the path separator of the emitted file paths. -/
def noSlashStr (s : String) : Bool :=
  !(s.toList.contains '/')

/-- Insertion-ordered association-list lookup (JavaScript record / `Map.get`). -/
def lookupAssoc {α : Type} : List (String × α) → String → Option α
  | [], _ => none
  | (k, v) :: rest, key => if k == key then some v else lookupAssoc rest key

/-- Replace the value at `k` (keeping its position) or append a new entry:
the update behaviour of assignment into a JavaScript record. -/
def setAssoc {α : Type} : List (String × α) → String → α → List (String × α)
  | [], k, v => [(k, v)]
  | (k', v') :: rest, k, v =>
    if k' == k then (k', v) :: rest else (k', v') :: setAssoc rest k v

/-- A legal TypeScript identifier in the sense of the spec's claim: nonempty,
starting with a letter or underscore, with an alphanumeric body. -/
def isLegalIdentifier (s : String) : Bool :=
  match s.toList with
  | [] => false
  | c :: rest => (c.isAlpha || c = '_') && rest.all Char.isAlphanum

/-- A display value: a plain string or a per-locale map (`LocalizedString` of
the external types package). -/
inductive LocalizedString where
  | plain (s : String)
  | perLocale (m : List (String × String))
  deriving DecidableEq

/-- JavaScript truthiness of an optional display value (`""` is falsy). -/
def lsTruthy : Option LocalizedString → Bool
  | some (.plain s) => s ≠ ""
  | some (.perLocale _) => true
  | none => false

/-- The locale configuration slice the generator reads. -/
structure LocaleConfig where
  locales : Option (List String) := none
  defaultLocale : Option String := none
  fallbackLocale : Option String := none
  messages : Option (List (String × List (String × String))) := none
  deriving DecidableEq

/-- A declared enum value: a bare string or a `{value, label, extra}` record
(`extra` modelled by its `JSON.stringify` serialisation). -/
inductive EnumVal where
  | str (s : String)
  | obj (value : String) (label : Option LocalizedString) (extra : Option String)
  deriving DecidableEq

/-- How JavaScript interpolates an enum value into a template string
(`'${v}'`): strings verbatim, records as `[object Object]`. -/
def jsDisplay : EnumVal → String
  | .str s => s
  | .obj _ _ _ => "[object Object]"

/-- The underlying value (`typeof v === "string" ? v : v.value`). -/
def enumValValue : EnumVal → String
  | .str s => s
  | .obj v _ _ => v

/-- The `enum` field of a property: a named reference or an inline value list. -/
inductive EnumField where
  | name (s : String)
  | values (vs : List EnumVal)
  deriving DecidableEq

/-- The rules bag of a property (`validation-rules`). Numbers are `Int`;
`startsWith`/`endsWith` are normalised to lists (`undefined` and a lone string
become `[]` and a one-element list), which the appended output cannot tell
apart from the source's `string | string[]`. -/
structure RulesBag where
  url : Bool := false
  uuid : Bool := false
  ip : Bool := false
  ipv4 : Bool := false
  ipv6 : Bool := false
  minLength : Option Int := none
  maxLength : Option Int := none
  alpha : Bool := false
  alphaNum : Bool := false
  alphaDash : Bool := false
  numeric : Bool := false
  digits : Option Int := none
  digitsBetween : Option (Int × Int) := none
  startsWith : List String := []
  endsWith : List String := []
  lowercase : Bool := false
  uppercase : Bool := false
  min : Option Int := none
  max : Option Int := none
  between : Option (Int × Int) := none
  gt : Option Int := none
  lt : Option Int := none
  multipleOf : Option Int := none
  deriving DecidableEq

/-- The rule hints a compound-type expansion entry or per-field override may
carry (`minLength`, `maxLength`, `pattern`, `format`). -/
structure RuleHints where
  minLength : Option Int := none
  maxLength : Option Int := none
  pattern : Option String := none
  format : Option String := none
  deriving DecidableEq

/-- A per-schema override for one expanded field of a compound type. -/
structure FieldOverride where
  nullable : Option Bool := none
  length : Option Int := none
  rules : Option RuleHints := none
  displayName : Option LocalizedString := none
  placeholder : Option LocalizedString := none
  deriving DecidableEq

/-- One expansion entry of a compound custom type (`suffix`, `sql` hints,
`typescript.type` hint, optional rules/label/placeholder). -/
structure ExpandField where
  suffix : String
  sqlNullable : Option Bool := none
  sqlLength : Option Int := none
  tsType : Option String := none
  rules : Option RuleHints := none
  label : Option LocalizedString := none
  placeholder : Option LocalizedString := none
  deriving DecidableEq

/-- A computed accessor declared by a compound custom type. -/
structure TypeAccessor where
  name : String
  deriving DecidableEq

/-- A plugin-supplied custom type definition. -/
structure CustomType where
  compound : Bool := false
  expand : Option (List ExpandField) := none
  accessors : Option (List TypeAccessor) := none
  tsType : Option String := none
  sqlType : Option String := none
  sqlLength : Option Int := none
  deriving DecidableEq

/-- A property definition: the duck-typed record of the source, with every
field the generator reads. -/
structure Property where
  type : String
  relation : Option String := none
  target : Option String := none
  targets : Option (List String) := none
  enum : Option EnumField := none
  options : Option (List EnumVal) := none
  multiple : Option Bool := none
  nullable : Option Bool := none
  displayName : Option LocalizedString := none
  placeholder : Option LocalizedString := none
  fields : List (String × FieldOverride) := []
  rules : Option RulesBag := none
  pattern : Option String := none
  minLength : Option Int := none
  maxLength : Option Int := none
  length : Option Int := none
  min : Option Int := none
  max : Option Int := none
  deriving DecidableEq

/-- The options block of a schema. -/
structure SchemaOptions where
  id : Option Bool := none
  idType : Option String := none
  timestamps : Option Bool := none
  softDelete : Option Bool := none
  hidden : Option Bool := none
  deriving DecidableEq

/-- A loaded schema (object or enum kind). -/
structure Schema where
  name : String
  kind : String := "object"
  filePath : Option String := none
  relativePath : Option String := none
  displayName : Option LocalizedString := none
  properties : List (String × Property) := []
  values : Option (List EnumVal) := none
  options : Option SchemaOptions := none
  deriving DecidableEq

/-- One value of a plugin-supplied enum. -/
structure PluginEnumValue where
  value : String
  label : Option LocalizedString := none
  extra : Option String := none
  deriving DecidableEq

/-- A plugin-supplied enum definition. -/
structure PluginEnumDef where
  name : String
  values : List PluginEnumValue := []
  displayName : Option LocalizedString := none
  deriving DecidableEq

/-- The generator options record. The four import-path fields keep the
source's `…ImportPrefix` names with an `ImportPath` spelling. -/
structure GenOptions where
  readonly : Option Bool := none
  strictNullChecks : Option Bool := none
  generateZodSchemas : Option Bool := none
  generateRules : Option Bool := none
  useJsExtension : Option Bool := none
  locale : Option String := none
  multiLocale : Option Bool := none
  localeConfig : Option LocaleConfig := none
  customTypes : Option (List (String × CustomType)) := none
  pluginEnums : Option (List (String × PluginEnumDef)) := none
  enumImportPath : Option String := none
  pluginEnumImportPath : Option String := none
  schemaEnumImportPath : Option String := none
  baseImportPath : Option String := none
  validationTemplates : Option (List (String × List (String × String))) := none
  deriving DecidableEq

/-- One emitted interface property. -/
structure TSProperty where
  name : String
  type : String
  optional : Bool
  readonly : Bool
  comment : Option String := none
  deriving DecidableEq

/-- One emitted interface. -/
structure TSInterface where
  name : String
  properties : List TSProperty
  comment : Option String := none
  extendsList : List String := []
  dependencies : Option (List String) := none
  enumDependencies : Option (List String) := none
  deriving DecidableEq

/-- The parsed label of an enum member: a resolved string or (under
`multiLocale`) the untouched per-locale map. -/
inductive EnumLabel where
  | single (s : String)
  | multi (m : List (String × String))
  deriving DecidableEq

/-- One member of an emitted enum. -/
structure TSEnumValue where
  name : String
  value : String
  label : Option EnumLabel := none
  extra : Option String := none
  deriving DecidableEq

/-- An emitted enum. -/
structure TSEnum where
  name : String
  values : List TSEnumValue
  comment : Option String := none
  deriving DecidableEq

/-- An emitted literal-union type alias. -/
structure TSTypeAlias where
  name : String
  type : String
  comment : Option String := none
  deriving DecidableEq

/-- One entry of `extractInlineEnums`'s result list. -/
inductive InlineEnumResult where
  | enumDef (e : TSEnum)
  | typeAlias (a : TSTypeAlias)
  deriving DecidableEq

/-- One per-field Zod schema of `generateZodSchemas`. -/
structure ZodPropSchema where
  fieldName : String
  schema : String
  inCreate : Bool := true
  inUpdate : Bool := true
  comment : Option String := none
  deriving DecidableEq

/-- A planned output file. -/
structure GeneratedFile where
  filePath : String
  content : String
  types : List String := []
  overwrite : Bool
  category : Option String := none
  deriving DecidableEq

/-- The fatal errors `generateTypeScript` can throw, carrying the data the
source interpolates into the thrown message. -/
inductive GenError where
  | duplicateNames (dups : List (String × List (Option String)))
  | pluginEnumConflict (conflicts : List (String × Option String))
  | interfaceNotFound (schemaName : String)
  deriving DecidableEq

/-- Modelled from the spec: `resolveLocalizedString` of the external
`@famgia/omnify-types` package (not part of this repository), the locale
resolver collaborator. Spec section 6: given a plain string or per-locale map
plus a target locale and fallback locale it returns one resolved string;
section 7: a missing locale entry falls back through the configured fallback
locale, then the fixed default locale `en`, then the raw (first available)
value. -/
def resolveLocalizedString (value : LocalizedString) (locale : Option String)
    (config : Option LocaleConfig) : String :=
  match value with
  | .plain s => s
  | .perLocale m =>
    let target := locale.getD ((config.bind LocaleConfig.defaultLocale).getD "en")
    let fb := (config.bind LocaleConfig.fallbackLocale).getD "en"
    (((lookupAssoc m target).orElse fun _ => lookupAssoc m fb).orElse fun _ =>
      (lookupAssoc m "en").orElse fun _ => (m.head?.map Prod.snd)).getD ""

/-- `resolveDisplayName` from `interface-generator.ts` (and its duplicate in
`enum-generator.ts`): `undefined` stays `undefined`, otherwise the external
resolver is applied with the options' locale and locale config. -/
def resolveDisplayName (value : Option LocalizedString) (options : GenOptions) : Option String :=
  value.map fun v => resolveLocalizedString v options.locale options.localeConfig

/-- `TYPE_MAP` from `interface-generator.ts`. -/
def TYPE_MAP (t : String) : Option String :=
  if t == "String" then some "string"
  else if t == "TinyInt" then some "number"
  else if t == "Int" then some "number"
  else if t == "BigInt" then some "number"
  else if t == "Float" then some "number"
  else if t == "Boolean" then some "boolean"
  else if t == "Text" then some "string"
  else if t == "MediumText" then some "string"
  else if t == "LongText" then some "string"
  else if t == "Date" then some "DateString"
  else if t == "Time" then some "string"
  else if t == "DateTime" then some "DateTimeString"
  else if t == "Timestamp" then some "DateTimeString"
  else if t == "Json" then some "unknown"
  else if t == "Email" then some "string"
  else if t == "Password" then some "string"
  else if t == "Enum" then some "string"
  else if t == "Select" then some "string"
  else if t == "Lookup" then some "number"
  else none

/-- `FILE_INTERFACE_NAME` from `interface-generator.ts`. -/
def FILE_INTERFACE_NAME : String := "File"

/-- `PK_TYPE_MAP` from `interface-generator.ts`. -/
def PK_TYPE_MAP (t : String) : Option String :=
  if t == "Int" then some "number"
  else if t == "BigInt" then some "number"
  else if t == "Uuid" then some "string"
  else if t == "String" then some "string"
  else none

/-- `toPropertyName` (identity in the source). -/
def toPropertyName (name : String) : String := name

/-- `toInterfaceName` (identity in the source). -/
def toInterfaceName (schemaName : String) : String := schemaName

/-- `getPropertyType` from `interface-generator.ts`. -/
def getPropertyType (property : Property) (_allSchemas : List Schema) : String :=
  if property.type == "File" then
    if property.multiple.getD false then FILE_INTERFACE_NAME ++ "[]"
    else FILE_INTERFACE_NAME ++ " | null"
  else if property.type == "Association" then
    let targetName := property.target.getD "unknown"
    match property.relation with
    | some "OneToOne" => targetName
    | some "ManyToOne" => targetName
    | some "OneToMany" => targetName ++ "[]"
    | some "ManyToMany" => targetName ++ "[]"
    | some "MorphTo" =>
      match property.targets with
      | some ts => if ts.length > 0 then String.intercalate " | " ts else "unknown"
      | none => "unknown"
    | some "MorphOne" => targetName
    | some "MorphMany" => targetName ++ "[]"
    | some "MorphToMany" => targetName ++ "[]"
    | some "MorphedByMany" => targetName ++ "[]"
    | _ => "unknown"
  else if property.type == "EnumRef" then
    match property.enum with
    | some (.name s) => s
    | some (.values _) => "unknown"
    | none => "unknown"
  else if property.type == "Enum" then
    match property.enum with
    | some (.name s) => s
    | some (.values vs) => String.intercalate " | " (vs.map fun v => "'" ++ jsDisplay v ++ "'")
    | none => (TYPE_MAP property.type).getD "unknown"
  else if property.type == "Select" then
    match property.options with
    | some vs =>
      if vs.length > 0 then String.intercalate " | " (vs.map fun v => "'" ++ jsDisplay v ++ "'")
      else (TYPE_MAP property.type).getD "unknown"
    | none => (TYPE_MAP property.type).getD "unknown"
  else (TYPE_MAP property.type).getD "unknown"

/-- `propertyToTSProperties` from `interface-generator.ts`: the property
expander. Order of the source's checks: compound custom type, simple custom
type, morph-to association, then the single-field default. -/
def propertyToTSProperties (propertyName : String) (property : Property)
    (allSchemas : List Schema) (options : GenOptions) : List TSProperty :=
  let isReadonly := options.readonly.getD true
  let displayName := resolveDisplayName property.displayName options
  let fallback : List TSProperty :=
    if property.type == "Association" && property.relation == some "MorphTo" &&
        (property.targets.getD []).length > 0 then
      let ts := property.targets.getD []
      let propBaseName := toPropertyName propertyName
      let targetUnion := String.intercalate " | " (ts.map fun t => "'" ++ t ++ "'")
      let relationUnion := String.intercalate " | " ts
      [ { name := propBaseName ++ "Type", type := targetUnion, optional := true,
          readonly := isReadonly, comment := some ("Polymorphic type for " ++ propertyName) },
        { name := propBaseName ++ "Id", type := "number", optional := true,
          readonly := isReadonly, comment := some ("Polymorphic ID for " ++ propertyName) },
        { name := propBaseName, type := relationUnion ++ " | null", optional := true,
          readonly := isReadonly,
          comment := some (displayName.getD
            ("Polymorphic relation to " ++ String.intercalate ", " ts)) } ]
    else
      [ { name := toPropertyName propertyName,
          type := getPropertyType property allSchemas,
          optional := property.nullable.getD false,
          readonly := isReadonly, comment := displayName } ]
  match options.customTypes.bind fun cts => lookupAssoc cts property.type with
  | some customType =>
    match customType.compound, customType.expand with
    | true, some expandFields =>
      let expandedProps := expandFields.map fun field =>
        let fieldName := propertyName ++ "_" ++ toSnakeCase field.suffix
        let fieldOverride := lookupAssoc property.fields field.suffix
        let isNullable := (((fieldOverride.bind FieldOverride.nullable).orElse fun _ =>
          field.sqlNullable).orElse fun _ => property.nullable).getD false
        let tsType := field.tsType.getD "string"
        { name := fieldName, type := tsType, optional := isNullable,
          readonly := isReadonly,
          comment := some (displayName.getD propertyName ++ " (" ++ field.suffix ++ ")") }
      let accessorProps := (customType.accessors.getD []).map fun accessor =>
        { name := propertyName ++ "_" ++ toSnakeCase accessor.name,
          type := "string | null", optional := true, readonly := isReadonly,
          comment := some (displayName.getD propertyName ++ " (computed)") }
      expandedProps ++ accessorProps
    | false, _ =>
      [ { name := toPropertyName propertyName,
          type := customType.tsType.getD "string",
          optional := property.nullable.getD false,
          readonly := isReadonly, comment := displayName } ]
    | true, none => fallback
  | none => fallback

/-- `propertyToTSProperty` (head of the expansion; the source indexes `[0]`,
`undefined` on an empty expansion becomes `none`). -/
def propertyToTSProperty (propertyName : String) (property : Property)
    (allSchemas : List Schema) (options : GenOptions) : Option TSProperty :=
  (propertyToTSProperties propertyName property allSchemas options).head?

/-- The JavaScript-whitespace class of the `\s` in
`extractTypeReferences`'s regexes (ASCII range). -/
def isJsSpace (c : Char) : Bool :=
  c = ' ' || c = '\t' || c = '\n' || c = '\x0d' || c = '\x0b' || c = '\x0c'

/-- `type.replace(/\[\]/g, "")`: drop every `[]` pair, left to right. -/
def stripArraySuffix : List Char → List Char
  | '[' :: ']' :: rest => stripArraySuffix rest
  | c :: rest => c :: stripArraySuffix rest
  | [] => []

/-- Match `\s*\|\s*null` at the head of the list, returning the remainder. -/
def matchBarNull (cs : List Char) : Option (List Char) :=
  match cs.dropWhile isJsSpace with
  | '|' :: r2 =>
    let r3 := r2.dropWhile isJsSpace
    if r3.take 4 = ['n', 'u', 'l', 'l'] then some (r3.drop 4) else none
  | _ => none

/-- The global-replace scan of `replace(/\s*\|\s*null/g, "")`, with a fuel
argument for structural recursion; a successful `matchBarNull` consumes at
least five characters, so fuel `cs.length + 1` never runs out. -/
def replaceBarNullAux : Nat → List Char → List Char
  | 0, cs => cs
  | _ + 1, [] => []
  | fuel + 1, c :: rest =>
    match matchBarNull (c :: rest) with
    | some rest' => replaceBarNullAux fuel rest'
    | none => c :: replaceBarNullAux fuel rest

/-- `type.replace(/\s*\|\s*null/g, "")`. -/
def replaceBarNull (cs : List Char) : List Char :=
  replaceBarNullAux (cs.length + 1) cs

/-- Match `\s*\|\s*` (the split separator of `extractTypeReferences`) at the
head of the list. -/
def matchSplitBar (cs : List Char) : Option (List Char) :=
  match cs.dropWhile isJsSpace with
  | '|' :: r2 => some (r2.dropWhile isJsSpace)
  | _ => none

/-- The split scan of `split(/\s*\|\s*/)`, with a fuel argument for structural
recursion; a successful `matchSplitBar` consumes at least one character, so
fuel `cs.length + 1` never runs out. -/
def splitBarWsAux : Nat → List Char → List (List Char)
  | 0, cs => [cs]
  | _ + 1, [] => [[]]
  | fuel + 1, c :: rest =>
    match matchSplitBar (c :: rest) with
    | some rest' => [] :: splitBarWsAux fuel rest'
    | none =>
      match splitBarWsAux fuel rest with
      | w :: ws => (c :: w) :: ws
      | [] => [[c]]

/-- `cleanType.split(/\s*\|\s*/)`. -/
def splitBarWs (cs : List Char) : List (List Char) :=
  splitBarWsAux (cs.length + 1) cs

/-- `String.prototype.trim` (ASCII whitespace). -/
def jsTrimList (cs : List Char) : List Char :=
  ((cs.dropWhile isJsSpace).reverse.dropWhile isJsSpace).reverse

/-- `replace(/^['"]|['"]$/g, "")`: strip one quote character from each end. -/
def dropEdgeQuotes (cs : List Char) : List Char :=
  let step1 := match cs with
    | '\'' :: rest => rest
    | '"' :: rest => rest
    | other => other
  match step1.reverse with
  | '\'' :: rest => rest.reverse
  | '"' :: rest => rest.reverse
  | _ => step1

/-- `extractTypeReferences` from `interface-generator.ts`. -/
def extractTypeReferences (type : String) (allSchemaNames : List String) : List String :=
  let primitives := ["string", "number", "boolean", "unknown", "null", "undefined",
    "void", "never", "any"]
  let cleanType := replaceBarNull (stripArraySuffix type.toList)
  let parts := splitBarWs cleanType
  parts.filterMap fun part =>
    let trimmed := String.mk (dropEdgeQuotes (jsTrimList part))
    if !(primitives.contains trimmed) && allSchemaNames.contains trimmed then
      some trimmed
    else none

/-- First-occurrence deduplication: the observable order of a JavaScript `Set`
filled by insertion. -/
def dedupFirst (l : List String) : List String :=
  l.foldl (fun acc x => if acc.contains x then acc else acc ++ [x]) []

/-- Lexicographic order on character lists (the comparison of
`Array.prototype.sort` on code units, which agrees with code points on the
identifiers being sorted). -/
def charListLe : List Char → List Char → Bool
  | [], _ => true
  | _ :: _, [] => false
  | a :: as, b :: bs =>
    if a.toNat < b.toNat then true
    else if b.toNat < a.toNat then false
    else charListLe as bs

/-- Insert into a lexicographically sorted list. -/
def insertSorted (x : String) : List String → List String
  | [] => [x]
  | y :: ys => if charListLe x.toList y.toList then x :: y :: ys else y :: insertSorted x ys

/-- `Array.from(set).sort()`: lexicographic sort. The sets are deduplicated, so
the sorted permutation is unique and insertion sort matches `Array.sort`. -/
def sortedStrings (l : List String) : List String :=
  l.foldr insertSorted []

/-- The hidden-schema / enum-schema filter every interface-producing loop of
the source repeats (`kind === "enum"` and `options?.hidden === true` are
skipped with `continue`). -/
def visibleSchemas (schemas : List Schema) : List Schema :=
  schemas.filter fun s =>
    !(s.kind == "enum") && !((s.options.bind SchemaOptions.hidden) == some true)

/-- `schemaToInterface` from `interface-generator.ts`. -/
def schemaToInterface (schema : Schema) (allSchemas : List Schema)
    (options : GenOptions) : TSInterface :=
  let allSchemaNames := (allSchemas.filter fun s => !(s.kind == "enum")).map Schema.name
  let pkProps : List TSProperty :=
    if (schema.options.bind SchemaOptions.id) == some false then []
    else
      let pkType := (schema.options.bind SchemaOptions.idType).getD "BigInt"
      [ { name := "id", type := (PK_TYPE_MAP pkType).getD "number", optional := false,
          readonly := options.readonly.getD true, comment := some "Primary key" } ]
  let declProps := schema.properties.flatMap fun pr =>
    propertyToTSProperties pr.1 pr.2 allSchemas options
  let tsProps : List TSProperty :=
    if (schema.options.bind SchemaOptions.timestamps) == some false then []
    else
      [ { name := "created_at", type := "DateTimeString", optional := true,
          readonly := options.readonly.getD true, comment := some "Creation timestamp" },
        { name := "updated_at", type := "DateTimeString", optional := true,
          readonly := options.readonly.getD true, comment := some "Last update timestamp" } ]
  let sdProps : List TSProperty :=
    if (schema.options.bind SchemaOptions.softDelete) == some true then
      [ { name := "deleted_at", type := "DateTimeString", optional := true,
          readonly := options.readonly.getD true, comment := some "Soft delete timestamp" } ]
    else []
  let properties := pkProps ++ declProps ++ tsProps ++ sdProps
  let refs := (properties.flatMap fun p => extractTypeReferences p.type allSchemaNames).filter
    fun ref => !(ref == schema.name)
  let dependencySet := dedupFirst refs
  let enumRefs := schema.properties.filterMap fun pr =>
    if pr.2.type == "EnumRef" then
      match pr.2.enum with
      | some (.name s) => if s ≠ "" then some s else none
      | _ => none
    else none
  let enumDependencySet := dedupFirst enumRefs
  let schemaDisplayName := resolveDisplayName schema.displayName options
  { name := toInterfaceName schema.name
    properties := properties
    comment := some (schemaDisplayName.getD schema.name)
    dependencies := if dependencySet.length > 0 then some (sortedStrings dependencySet) else none
    enumDependencies :=
      if enumDependencySet.length > 0 then some (sortedStrings enumDependencySet) else none }

/-- `formatProperty` from `interface-generator.ts`. -/
def formatProperty (property : TSProperty) : String :=
  let readonlyStr := if property.readonly then "readonly " else ""
  let optionalStr := if property.optional then "?" else ""
  let commentStr :=
    match property.comment with
    | some c => if c = "" then "" else "  /** " ++ c ++ " */\n"
    | none => ""
  commentStr ++ "  " ++ readonlyStr ++ property.name ++ optionalStr ++ ": " ++
    property.type ++ ";"

/-- `formatInterface` from `interface-generator.ts`. -/
def formatInterface (iface : TSInterface) : String :=
  let commentStr :=
    match iface.comment with
    | some c => if c = "" then "" else "/**\n * " ++ c ++ "\n */\n"
    | none => ""
  let extendsClause :=
    if iface.extendsList.length > 0 then " extends " ++ String.intercalate ", " iface.extendsList
    else ""
  let propertiesStr := String.intercalate "\n" (iface.properties.map formatProperty)
  commentStr ++ "export interface " ++ iface.name ++ extendsClause ++ " \x7b\n" ++
    propertiesStr ++ "\n\x7d"

/-- `generateInterfaces` from `interface-generator.ts`: every non-enum,
non-hidden schema in collection order. -/
def generateInterfaces (schemas : List Schema) (options : GenOptions) : List TSInterface :=
  (visibleSchemas schemas).map fun schema => schemaToInterface schema schemas options

/-- `toEnumName` (identity in the source). -/
def toEnumName (schemaName : String) : String := schemaName

/-- `String(v.label)`: JavaScript string coercion of a parsed label. -/
def enumLabelJsString : EnumLabel → String
  | .single s => s
  | .multi _ => "[object Object]"

/-- `isMultiLocaleLabel` from `enum-generator.ts`:
`label !== undefined && typeof label === "object"`. -/
def isMultiLocaleLabel : Option EnumLabel → Bool
  | some (.multi _) => true
  | _ => false

/-- `parseEnumValue` from `enum-generator.ts`. -/
def parseEnumValue (value : EnumVal) (options : GenOptions) : TSEnumValue :=
  match value with
  | .str s => { name := toEnumMemberName s, value := s }
  | .obj v lbl extra =>
    let label : Option EnumLabel :=
      match lbl with
      | none => none
      | some l =>
        if options.multiLocale.getD false then
          match l with
          | .perLocale m => some (.multi m)
          | .plain s => some (.single (resolveLocalizedString (.plain s) options.locale options.localeConfig))
        else some (.single (resolveLocalizedString l options.locale options.localeConfig))
    { name := toEnumMemberName v, value := v, label := label, extra := extra }

/-- `schemaToEnum` from `enum-generator.ts` (`null` when the schema is not an
enum or declares no value list). -/
def schemaToEnum (schema : Schema) (options : GenOptions) : Option TSEnum :=
  if schema.kind == "enum" then
    match schema.values with
    | some vals =>
      some { name := toEnumName schema.name
             values := vals.map (parseEnumValue · options)
             comment := some ((resolveDisplayName schema.displayName options).getD schema.name) }
    | none => none
  else none

/-- `generateEnums` from `enum-generator.ts`. -/
def generateEnums (schemas : List Schema) (options : GenOptions) : List TSEnum :=
  schemas.filterMap fun schema =>
    if schema.kind == "enum" then schemaToEnum schema options else none

/-- `pluginEnumToTSEnum` from `enum-generator.ts`. -/
def pluginEnumToTSEnum (enumDef : PluginEnumDef) (options : GenOptions) : TSEnum :=
  let values := enumDef.values.map fun v =>
    let label : Option EnumLabel :=
      match v.label with
      | none => none
      | some (.plain s) => some (.single s)
      | some (.perLocale m) =>
        if options.multiLocale.getD false then some (.multi m)
        else some (.single (resolveLocalizedString (.perLocale m) options.locale options.localeConfig))
    { name := toEnumMemberName v.value, value := v.value, label := label, extra := v.extra }
  let comment : Option String :=
    match enumDef.displayName with
    | none => none
    | some (.plain s) => some s
    | some (.perLocale m) =>
      some (resolveLocalizedString (.perLocale m) options.locale options.localeConfig)
  { name := enumDef.name, values := values, comment := some (comment.getD enumDef.name) }

/-- `generatePluginEnums` from `enum-generator.ts` (iteration over
`pluginEnums.values()` in insertion order). -/
def generatePluginEnums (pluginEnums : List (String × PluginEnumDef))
    (options : GenOptions) : List TSEnum :=
  pluginEnums.map fun kv => pluginEnumToTSEnum kv.2 options

/-- `formatEnum` from `enum-generator.ts`. -/
def formatEnum (enumDef : TSEnum) : String :=
  let name := enumDef.name
  let commentPart :=
    match enumDef.comment with
    | some c => if c = "" then "" else "/**\n * " ++ c ++ "\n */\n"
    | none => ""
  let enumValues := String.intercalate "\n"
    (enumDef.values.map fun v => "  " ++ v.name ++ " = '" ++ v.value ++ "',")
  let headPart :=
    "export enum " ++ name ++ " \x7b\n" ++ enumValues ++ "\n\x7d\n\n" ++
    "/** All " ++ name ++ " values */\n" ++
    "export const " ++ name ++ "Values = Object.values(" ++ name ++ ") as " ++ name ++ "[];\n\n" ++
    "/** Type guard for " ++ name ++ " */\n" ++
    "export function is" ++ name ++ "(value: unknown): value is " ++ name ++ " \x7b\n" ++
    "  return " ++ name ++ "Values.includes(value as " ++ name ++ ");\n" ++
    "\x7d\n\n"
  let hasLabels := enumDef.values.any fun v => v.label.isSome
  let hasMultiLocale := enumDef.values.any fun v => isMultiLocaleLabel v.label
  let labelPart :=
    if hasLabels then
      if hasMultiLocale then
        let labelEntries := String.intercalate "\n"
          ((enumDef.values.filter fun v => v.label.isSome).map fun v =>
            match v.label with
            | some (.multi m) =>
              let locales := String.intercalate ", "
                (m.map fun kv => "'" ++ kv.1 ++ "': '" ++ escapeString kv.2 ++ "'")
              "  [" ++ name ++ "." ++ v.name ++ "]: \x7b " ++ locales ++ " \x7d,"
            | some (.single s) =>
              "  [" ++ name ++ "." ++ v.name ++ "]: \x7b default: '" ++ escapeString s ++ "' \x7d,"
            | none => "")
        "const " ++ lowerFirst name ++ "Labels: Partial<Record<" ++ name ++
          ", Record<string, string>>> = \x7b\n" ++ labelEntries ++ "\n\x7d;\n\n" ++
        "/** Get label for " ++ name ++ " value with locale support */\n" ++
        "export function get" ++ name ++ "Label(value: " ++ name ++ ", locale?: string): string \x7b\n" ++
        "  const labels = " ++ lowerFirst name ++ "Labels[value];\n" ++
        "  if (!labels) return value;\n" ++
        "  if (locale && labels[locale]) return labels[locale];\n" ++
        "  // Fallback: ja → en → first available\n" ++
        "  return labels['ja'] ?? labels['en'] ?? Object.values(labels)[0] ?? value;\n" ++
        "\x7d\n\n"
      else
        let labelEntries := String.intercalate "\n"
          ((enumDef.values.filter fun v => v.label.isSome).map fun v =>
            "  [" ++ name ++ "." ++ v.name ++ "]: '" ++
              escapeString (enumLabelJsString ((v.label).getD (.single ""))) ++ "',")
        "const " ++ lowerFirst name ++ "Labels: Partial<Record<" ++ name ++
          ", string>> = \x7b\n" ++ labelEntries ++ "\n\x7d;\n\n" ++
        "/** Get label for " ++ name ++ " value (fallback to value if no label) */\n" ++
        "export function get" ++ name ++ "Label(value: " ++ name ++ "): string \x7b\n" ++
        "  return " ++ lowerFirst name ++ "Labels[value] ?? value;\n" ++
        "\x7d\n\n"
    else
      "/** Get label for " ++ name ++ " value (returns value as-is) */\n" ++
      "export function get" ++ name ++ "Label(value: " ++ name ++ "): string \x7b\n" ++
      "  return value;\n" ++
      "\x7d\n\n"
  let hasExtra := enumDef.values.any fun v => v.extra.isSome
  let extraPart :=
    if hasExtra then
      let extraEntries := String.intercalate "\n"
        ((enumDef.values.filter fun v => v.extra.isSome).map fun v =>
          "  [" ++ name ++ "." ++ v.name ++ "]: " ++ v.extra.getD "" ++ ",")
      "const " ++ lowerFirst name ++ "Extra: Partial<Record<" ++ name ++
        ", Record<string, unknown>>> = \x7b\n" ++ extraEntries ++ "\n\x7d;\n\n" ++
      "/** Get extra metadata for " ++ name ++ " value (undefined if not defined) */\n" ++
      "export function get" ++ name ++ "Extra(value: " ++ name ++
        "): Record<string, unknown> | undefined \x7b\n" ++
      "  return " ++ lowerFirst name ++ "Extra[value];\n" ++
      "\x7d"
    else
      "/** Get extra metadata for " ++ name ++ " value (undefined if not defined) */\n" ++
      "export function get" ++ name ++ "Extra(_value: " ++ name ++
        "): Record<string, unknown> | undefined \x7b\n" ++
      "  return undefined;\n" ++
      "\x7d"
  commentPart ++ headPart ++ labelPart ++ extraPart

/-- `enumToUnionType` from `enum-generator.ts`. -/
def enumToUnionType (enumDef : TSEnum) : TSTypeAlias :=
  { name := enumDef.name
    type := String.intercalate " | " (enumDef.values.map fun v => "'" ++ v.value ++ "'")
    comment := enumDef.comment }

/-- `String.prototype.trim` on a string. -/
def jsTrimStr (s : String) : String :=
  String.mk (jsTrimList s.toList)

/-- `formatTypeAlias` from `enum-generator.ts`. -/
def formatTypeAlias (tsAlias : TSTypeAlias) : String :=
  let name := tsAlias.name
  let commentPart :=
    match tsAlias.comment with
    | some c => if c = "" then "" else "/**\n * " ++ c ++ "\n */\n"
    | none => ""
  let values := (tsAlias.type.splitOn " | ").map jsTrimStr
  commentPart ++
  "export type " ++ name ++ " = " ++ tsAlias.type ++ ";\n\n" ++
  "/** All " ++ name ++ " values */\n" ++
  "export const " ++ name ++ "Values: " ++ name ++ "[] = [" ++
    String.intercalate ", " values ++ "];\n\n" ++
  "/** Type guard for " ++ name ++ " */\n" ++
  "export function is" ++ name ++ "(value: unknown): value is " ++ name ++ " \x7b\n" ++
  "  return " ++ name ++ "Values.includes(value as " ++ name ++ ");\n" ++
  "\x7d\n\n" ++
  "/** Get label for " ++ name ++ " value (returns value as-is) */\n" ++
  "export function get" ++ name ++ "Label(value: " ++ name ++ "): string \x7b\n" ++
  "  return value;\n" ++
  "\x7d\n\n" ++
  "/** Get extra metadata for " ++ name ++ " value (always undefined for type aliases) */\n" ++
  "export function get" ++ name ++ "Extra(_value: " ++ name ++
    "): Record<string, unknown> | undefined \x7b\n" ++
  "  return undefined;\n" ++
  "\x7d"

/-- The inline-enum type name `<SchemaName><PascalCase(propertyName)>`. -/
def inlineEnumTypeName (schemaName propName : String) : String :=
  schemaName ++ toPascalCase propName

/-- `extractInlineEnums` from `enum-generator.ts`: object schemas' `Enum` and
`Select` properties with a literal value list become a labeled enum (when any
value carries a label) or a literal-union type alias. -/
def extractInlineEnums (schemas : List Schema) (options : GenOptions) : List InlineEnumResult :=
  schemas.flatMap fun schema =>
    if schema.kind == "enum" then []
    else schema.properties.flatMap fun pr =>
      let propName := pr.1
      let property := pr.2
      let enumPart : List InlineEnumResult :=
        if property.type == "Enum" then
          match property.enum with
          | some (.values vs) =>
            if vs.length > 0 then
              let typeName := inlineEnumTypeName schema.name propName
              let displayName := resolveDisplayName property.displayName options
              let hasLabels := vs.any fun v =>
                match v with
                | .obj _ (some _) _ => true
                | _ => false
              if hasLabels then
                [.enumDef { name := typeName
                            values := vs.map (parseEnumValue · options)
                            comment := some (displayName.getD
                              (schema.name ++ " " ++ propName ++ " enum")) }]
              else
                [.typeAlias { name := typeName
                              type := String.intercalate " | "
                                (vs.map fun v => "'" ++ enumValValue v ++ "'")
                              comment := some (displayName.getD
                                (schema.name ++ " " ++ propName ++ " enum")) }]
            else []
          | _ => []
        else []
      let selectPart : List InlineEnumResult :=
        if property.type == "Select" then
          match property.options with
          | some vs =>
            if vs.length > 0 then
              let typeName := inlineEnumTypeName schema.name propName
              let displayName := resolveDisplayName property.displayName options
              let hasLabels := vs.any fun v =>
                match v with
                | .obj _ (some _) _ => true
                | _ => false
              if hasLabels then
                [.enumDef { name := typeName
                            values := vs.map (parseEnumValue · options)
                            comment := some (displayName.getD
                              (schema.name ++ " " ++ propName ++ " options")) }]
              else
                [.typeAlias { name := typeName
                              type := String.intercalate " | "
                                (vs.map fun v => "'" ++ enumValValue v ++ "'")
                              comment := some (displayName.getD
                                (schema.name ++ " " ++ propName ++ " options")) }]
            else []
          | none => []
        else []
      enumPart ++ selectPart

/-- `DEFAULT_VALIDATION_TEMPLATES` from the source, transcribed verbatim. -/
def DEFAULT_VALIDATION_TEMPLATES : List (String × List (String × String)) :=
  [
    ("required",
      [("ja", "$\x7bdisplayName\x7d\u306f\u5fc5\u9808\u3067\u3059"),
       ("en", "$\x7bdisplayName\x7d is required"),
       ("vi", "$\x7bdisplayName\x7d l\u00e0 b\u1eaft bu\u1ed9c"),
       ("ko", "$\x7bdisplayName\x7d\uc740(\ub294) \ud544\uc218\uc785\ub2c8\ub2e4"),
       ("zh", "$\x7bdisplayName\x7d\u4e3a\u5fc5\u586b\u9879")]),
    ("minLength",
      [("ja", "$\x7bdisplayName\x7d\u306f$\x7bmin\x7d\u6587\u5b57\u4ee5\u4e0a\u3067\u5165\u529b\u3057\u3066\u304f\u3060\u3055\u3044"),
       ("en", "$\x7bdisplayName\x7d must be at least $\x7bmin\x7d characters"),
       ("vi", "$\x7bdisplayName\x7d ph\u1ea3i c\u00f3 \u00edt nh\u1ea5t $\x7bmin\x7d k\u00fd t\u1ef1"),
       ("ko", "$\x7bdisplayName\x7d\uc740(\ub294) $\x7bmin\x7d\uc790 \uc774\uc0c1\uc774\uc5b4\uc57c \ud569\ub2c8\ub2e4"),
       ("zh", "$\x7bdisplayName\x7d\u81f3\u5c11\u9700\u8981$\x7bmin\x7d\u4e2a\u5b57\u7b26")]),
    ("maxLength",
      [("ja", "$\x7bdisplayName\x7d\u306f$\x7bmax\x7d\u6587\u5b57\u4ee5\u5185\u3067\u5165\u529b\u3057\u3066\u304f\u3060\u3055\u3044"),
       ("en", "$\x7bdisplayName\x7d must be at most $\x7bmax\x7d characters"),
       ("vi", "$\x7bdisplayName\x7d t\u1ed1i \u0111a $\x7bmax\x7d k\u00fd t\u1ef1"),
       ("ko", "$\x7bdisplayName\x7d\uc740(\ub294) $\x7bmax\x7d\uc790 \uc774\ud558\uc5ec\uc57c \ud569\ub2c8\ub2e4"),
       ("zh", "$\x7bdisplayName\x7d\u4e0d\u80fd\u8d85\u8fc7$\x7bmax\x7d\u4e2a\u5b57\u7b26")]),
    ("min",
      [("ja", "$\x7bdisplayName\x7d\u306f$\x7bmin\x7d\u4ee5\u4e0a\u306e\u5024\u3092\u5165\u529b\u3057\u3066\u304f\u3060\u3055\u3044"),
       ("en", "$\x7bdisplayName\x7d must be at least $\x7bmin\x7d"),
       ("vi", "$\x7bdisplayName\x7d ph\u1ea3i l\u1edbn h\u01a1n ho\u1eb7c b\u1eb1ng $\x7bmin\x7d"),
       ("ko", "$\x7bdisplayName\x7d\uc740(\ub294) $\x7bmin\x7d \uc774\uc0c1\uc774\uc5b4\uc57c \ud569\ub2c8\ub2e4"),
       ("zh", "$\x7bdisplayName\x7d\u4e0d\u80fd\u5c0f\u4e8e$\x7bmin\x7d")]),
    ("max",
      [("ja", "$\x7bdisplayName\x7d\u306f$\x7bmax\x7d\u4ee5\u4e0b\u306e\u5024\u3092\u5165\u529b\u3057\u3066\u304f\u3060\u3055\u3044"),
       ("en", "$\x7bdisplayName\x7d must be at most $\x7bmax\x7d"),
       ("vi", "$\x7bdisplayName\x7d ph\u1ea3i nh\u1ecf h\u01a1n ho\u1eb7c b\u1eb1ng $\x7bmax\x7d"),
       ("ko", "$\x7bdisplayName\x7d\uc740(\ub294) $\x7bmax\x7d \uc774\ud558\uc5ec\uc57c \ud569\ub2c8\ub2e4"),
       ("zh", "$\x7bdisplayName\x7d\u4e0d\u80fd\u5927\u4e8e$\x7bmax\x7d")]),
    ("email",
      [("ja", "$\x7bdisplayName\x7d\u306e\u5f62\u5f0f\u304c\u6b63\u3057\u304f\u3042\u308a\u307e\u305b\u3093"),
       ("en", "$\x7bdisplayName\x7d is not a valid email address"),
       ("vi", "$\x7bdisplayName\x7d kh\u00f4ng ph\u1ea3i l\u00e0 \u0111\u1ecba ch\u1ec9 email h\u1ee3p l\u1ec7"),
       ("ko", "$\x7bdisplayName\x7d \ud615\uc2dd\uc774 \uc62c\ubc14\ub974\uc9c0 \uc54a\uc2b5\ub2c8\ub2e4"),
       ("zh", "$\x7bdisplayName\x7d\u4e0d\u662f\u6709\u6548\u7684\u90ae\u7bb1\u5730\u5740")]),
    ("url",
      [("ja", "$\x7bdisplayName\x7d\u306f\u6709\u52b9\u306aURL\u3067\u306f\u3042\u308a\u307e\u305b\u3093"),
       ("en", "$\x7bdisplayName\x7d is not a valid URL"),
       ("vi", "$\x7bdisplayName\x7d kh\u00f4ng ph\u1ea3i l\u00e0 URL h\u1ee3p l\u1ec7"),
       ("ko", "$\x7bdisplayName\x7d\uc740(\ub294) \uc720\ud6a8\ud55c URL\uc774 \uc544\ub2d9\ub2c8\ub2e4"),
       ("zh", "$\x7bdisplayName\x7d\u4e0d\u662f\u6709\u6548\u7684URL")]),
    ("pattern",
      [("ja", "$\x7bdisplayName\x7d\u306e\u5f62\u5f0f\u304c\u6b63\u3057\u304f\u3042\u308a\u307e\u305b\u3093"),
       ("en", "$\x7bdisplayName\x7d format is invalid"),
       ("vi", "$\x7bdisplayName\x7d kh\u00f4ng \u0111\u00fang \u0111\u1ecbnh d\u1ea1ng"),
       ("ko", "$\x7bdisplayName\x7d \ud615\uc2dd\uc774 \uc62c\ubc14\ub974\uc9c0 \uc54a\uc2b5\ub2c8\ub2e4"),
       ("zh", "$\x7bdisplayName\x7d\u683c\u5f0f\u4e0d\u6b63\u786e")]),
    ("enum",
      [("ja", "$\x7bdisplayName\x7d\u306e\u5024\u304c\u7121\u52b9\u3067\u3059"),
       ("en", "$\x7bdisplayName\x7d has an invalid value"),
       ("vi", "$\x7bdisplayName\x7d c\u00f3 gi\u00e1 tr\u1ecb kh\u00f4ng h\u1ee3p l\u1ec7"),
       ("ko", "$\x7bdisplayName\x7d \uac12\uc774 \uc720\ud6a8\ud558\uc9c0 \uc54a\uc2b5\ub2c8\ub2e4"),
       ("zh", "$\x7bdisplayName\x7d\u7684\u503c\u65e0\u6548")])
  ]

/-- `DEFAULT_VALIDATION_MESSAGES` from the source, transcribed verbatim. -/
def DEFAULT_VALIDATION_MESSAGES : List (String × List (String × String)) :=
  [
    ("required",
      [("en", "$\x7bdisplayName\x7d is required"),
       ("ja", "$\x7bdisplayName\x7d\u306f\u5fc5\u9808\u3067\u3059"),
       ("vi", "$\x7bdisplayName\x7d l\u00e0 b\u1eaft bu\u1ed9c"),
       ("ko", "$\x7bdisplayName\x7d\uc740(\ub294) \ud544\uc218\uc785\ub2c8\ub2e4"),
       ("zh-CN", "$\x7bdisplayName\x7d\u662f\u5fc5\u586b\u9879"),
       ("zh-TW", "$\x7bdisplayName\x7d\u70ba\u5fc5\u586b\u6b04\u4f4d"),
       ("th", "$\x7bdisplayName\x7d \u0e08\u0e33\u0e40\u0e1b\u0e47\u0e19\u0e15\u0e49\u0e2d\u0e07\u0e01\u0e23\u0e2d\u0e01"),
       ("es", "$\x7bdisplayName\x7d es obligatorio")]),
    ("minLength",
      [("en", "$\x7bdisplayName\x7d must be at least $\x7bmin\x7d characters"),
       ("ja", "$\x7bdisplayName\x7d\u306f$\x7bmin\x7d\u6587\u5b57\u4ee5\u4e0a\u3067\u5165\u529b\u3057\u3066\u304f\u3060\u3055\u3044"),
       ("vi", "$\x7bdisplayName\x7d ph\u1ea3i c\u00f3 \u00edt nh\u1ea5t $\x7bmin\x7d k\u00fd t\u1ef1"),
       ("ko", "$\x7bdisplayName\x7d\uc740(\ub294) $\x7bmin\x7d\uc790 \uc774\uc0c1\uc774\uc5b4\uc57c \ud569\ub2c8\ub2e4"),
       ("zh-CN", "$\x7bdisplayName\x7d\u81f3\u5c11\u9700\u8981$\x7bmin\x7d\u4e2a\u5b57\u7b26"),
       ("zh-TW", "$\x7bdisplayName\x7d\u81f3\u5c11\u9700\u8981$\x7bmin\x7d\u500b\u5b57\u5143"),
       ("th", "$\x7bdisplayName\x7d \u0e15\u0e49\u0e2d\u0e07\u0e21\u0e35\u0e2d\u0e22\u0e48\u0e32\u0e07\u0e19\u0e49\u0e2d\u0e22 $\x7bmin\x7d \u0e15\u0e31\u0e27\u0e2d\u0e31\u0e01\u0e29\u0e23"),
       ("es", "$\x7bdisplayName\x7d debe tener al menos $\x7bmin\x7d caracteres")]),
    ("maxLength",
      [("en", "$\x7bdisplayName\x7d must be at most $\x7bmax\x7d characters"),
       ("ja", "$\x7bdisplayName\x7d\u306f$\x7bmax\x7d\u6587\u5b57\u4ee5\u5185\u3067\u5165\u529b\u3057\u3066\u304f\u3060\u3055\u3044"),
       ("vi", "$\x7bdisplayName\x7d kh\u00f4ng \u0111\u01b0\u1ee3c qu\u00e1 $\x7bmax\x7d k\u00fd t\u1ef1"),
       ("ko", "$\x7bdisplayName\x7d\uc740(\ub294) $\x7bmax\x7d\uc790 \uc774\ud558\uc5ec\uc57c \ud569\ub2c8\ub2e4"),
       ("zh-CN", "$\x7bdisplayName\x7d\u6700\u591a$\x7bmax\x7d\u4e2a\u5b57\u7b26"),
       ("zh-TW", "$\x7bdisplayName\x7d\u6700\u591a$\x7bmax\x7d\u500b\u5b57\u5143"),
       ("th", "$\x7bdisplayName\x7d \u0e15\u0e49\u0e2d\u0e07\u0e44\u0e21\u0e48\u0e40\u0e01\u0e34\u0e19 $\x7bmax\x7d \u0e15\u0e31\u0e27\u0e2d\u0e31\u0e01\u0e29\u0e23"),
       ("es", "$\x7bdisplayName\x7d debe tener como m\u00e1ximo $\x7bmax\x7d caracteres")]),
    ("min",
      [("en", "$\x7bdisplayName\x7d must be at least $\x7bmin\x7d"),
       ("ja", "$\x7bdisplayName\x7d\u306f$\x7bmin\x7d\u4ee5\u4e0a\u3067\u5165\u529b\u3057\u3066\u304f\u3060\u3055\u3044"),
       ("vi", "$\x7bdisplayName\x7d ph\u1ea3i l\u1edbn h\u01a1n ho\u1eb7c b\u1eb1ng $\x7bmin\x7d"),
       ("ko", "$\x7bdisplayName\x7d\uc740(\ub294) $\x7bmin\x7d \uc774\uc0c1\uc774\uc5b4\uc57c \ud569\ub2c8\ub2e4"),
       ("zh-CN", "$\x7bdisplayName\x7d\u5fc5\u987b\u5927\u4e8e\u7b49\u4e8e$\x7bmin\x7d"),
       ("zh-TW", "$\x7bdisplayName\x7d\u5fc5\u9808\u5927\u65bc\u7b49\u65bc$\x7bmin\x7d"),
       ("th", "$\x7bdisplayName\x7d \u0e15\u0e49\u0e2d\u0e07\u0e21\u0e32\u0e01\u0e01\u0e27\u0e48\u0e32\u0e2b\u0e23\u0e37\u0e2d\u0e40\u0e17\u0e48\u0e32\u0e01\u0e31\u0e1a $\x7bmin\x7d"),
       ("es", "$\x7bdisplayName\x7d debe ser al menos $\x7bmin\x7d")]),
    ("max",
      [("en", "$\x7bdisplayName\x7d must be at most $\x7bmax\x7d"),
       ("ja", "$\x7bdisplayName\x7d\u306f$\x7bmax\x7d\u4ee5\u4e0b\u3067\u5165\u529b\u3057\u3066\u304f\u3060\u3055\u3044"),
       ("vi", "$\x7bdisplayName\x7d ph\u1ea3i nh\u1ecf h\u01a1n ho\u1eb7c b\u1eb1ng $\x7bmax\x7d"),
       ("ko", "$\x7bdisplayName\x7d\uc740(\ub294) $\x7bmax\x7d \uc774\ud558\uc5ec\uc57c \ud569\ub2c8\ub2e4"),
       ("zh-CN", "$\x7bdisplayName\x7d\u5fc5\u987b\u5c0f\u4e8e\u7b49\u4e8e$\x7bmax\x7d"),
       ("zh-TW", "$\x7bdisplayName\x7d\u5fc5\u9808\u5c0f\u65bc\u7b49\u65bc$\x7bmax\x7d"),
       ("th", "$\x7bdisplayName\x7d \u0e15\u0e49\u0e2d\u0e07\u0e19\u0e49\u0e2d\u0e22\u0e01\u0e27\u0e48\u0e32\u0e2b\u0e23\u0e37\u0e2d\u0e40\u0e17\u0e48\u0e32\u0e01\u0e31\u0e1a $\x7bmax\x7d"),
       ("es", "$\x7bdisplayName\x7d debe ser como m\u00e1ximo $\x7bmax\x7d")]),
    ("email",
      [("en", "Please enter a valid email address"),
       ("ja", "\u6709\u52b9\u306a\u30e1\u30fc\u30eb\u30a2\u30c9\u30ec\u30b9\u3092\u5165\u529b\u3057\u3066\u304f\u3060\u3055\u3044"),
       ("vi", "Vui l\u00f2ng nh\u1eadp \u0111\u1ecba ch\u1ec9 email h\u1ee3p l\u1ec7"),
       ("ko", "\uc720\ud6a8\ud55c \uc774\uba54\uc77c \uc8fc\uc18c\ub97c \uc785\ub825\ud558\uc138\uc694"),
       ("zh-CN", "\u8bf7\u8f93\u5165\u6709\u6548\u7684\u7535\u5b50\u90ae\u4ef6\u5730\u5740"),
       ("zh-TW", "\u8acb\u8f38\u5165\u6709\u6548\u7684\u96fb\u5b50\u90f5\u4ef6\u5730\u5740"),
       ("th", "\u0e01\u0e23\u0e38\u0e13\u0e32\u0e01\u0e23\u0e2d\u0e01\u0e2d\u0e35\u0e40\u0e21\u0e25\u0e17\u0e35\u0e48\u0e16\u0e39\u0e01\u0e15\u0e49\u0e2d\u0e07"),
       ("es", "Por favor, introduce una direcci\u00f3n de correo electr\u00f3nico v\u00e1lida")]),
    ("url",
      [("en", "Please enter a valid URL"),
       ("ja", "\u6709\u52b9\u306aURL\u3092\u5165\u529b\u3057\u3066\u304f\u3060\u3055\u3044"),
       ("vi", "Vui l\u00f2ng nh\u1eadp URL h\u1ee3p l\u1ec7"),
       ("ko", "\uc720\ud6a8\ud55c URL\uc744 \uc785\ub825\ud558\uc138\uc694"),
       ("zh-CN", "\u8bf7\u8f93\u5165\u6709\u6548\u7684URL"),
       ("zh-TW", "\u8acb\u8f38\u5165\u6709\u6548\u7684\u7db2\u5740"),
       ("th", "\u0e01\u0e23\u0e38\u0e13\u0e32\u0e01\u0e23\u0e2d\u0e01 URL \u0e17\u0e35\u0e48\u0e16\u0e39\u0e01\u0e15\u0e49\u0e2d\u0e07"),
       ("es", "Por favor, introduce una URL v\u00e1lida")]),
    ("pattern",
      [("en", "$\x7bdisplayName\x7d format is invalid"),
       ("ja", "$\x7bdisplayName\x7d\u306e\u5f62\u5f0f\u304c\u6b63\u3057\u304f\u3042\u308a\u307e\u305b\u3093"),
       ("vi", "$\x7bdisplayName\x7d kh\u00f4ng \u0111\u00fang \u0111\u1ecbnh d\u1ea1ng"),
       ("ko", "$\x7bdisplayName\x7d \ud615\uc2dd\uc774 \uc62c\ubc14\ub974\uc9c0 \uc54a\uc2b5\ub2c8\ub2e4"),
       ("zh-CN", "$\x7bdisplayName\x7d\u683c\u5f0f\u4e0d\u6b63\u786e"),
       ("zh-TW", "$\x7bdisplayName\x7d\u683c\u5f0f\u4e0d\u6b63\u78ba"),
       ("th", "\u0e23\u0e39\u0e1b\u0e41\u0e1a\u0e1a$\x7bdisplayName\x7d\u0e44\u0e21\u0e48\u0e16\u0e39\u0e01\u0e15\u0e49\u0e2d\u0e07"),
       ("es", "El formato de $\x7bdisplayName\x7d no es v\u00e1lido")])
  ]

/-- JavaScript object spread `{...a, ...b}` on flat records: `a`'s keys keep
their order with `b`'s values overriding, `b`'s new keys follow in order. -/
def spreadMerge (a b : List (String × String)) : List (String × String) :=
  (a.map fun kv => (kv.1, (lookupAssoc b kv.1).getD kv.2)) ++
    b.filter fun kv => (lookupAssoc a kv.1).isNone

/-- `mergeValidationTemplates` from `validation-templates.ts`: user templates
overlay the nine default keys locale-by-locale; unknown keys are ignored. -/
def mergeValidationTemplates
    (userTemplates : Option (List (String × List (String × String)))) :
    List (String × List (String × String)) :=
  match userTemplates with
  | none => DEFAULT_VALIDATION_TEMPLATES
  | some user =>
    user.foldl
      (fun merged kv =>
        match lookupAssoc merged kv.1 with
        | some base => setAssoc merged kv.1 (spreadMerge base kv.2)
        | none => merged)
      DEFAULT_VALIDATION_TEMPLATES

/-- `formatValidationMessage` from `validation-templates.ts`: global
replacement of each `$\x7bkey\x7d` placeholder (values pre-coerced to strings,
as `String(value)` does). -/
def formatValidationMessage (template : String) (vars : List (String × String)) : String :=
  vars.foldl (fun result kv => result.replace ("$\x7b" ++ kv.1 ++ "\x7d") kv.2) template

/-- `getValidationMessages` from `validation-templates.ts`. -/
def getValidationMessages (templates : List (String × List (String × String)))
    (ruleType : String) (locales : List String) (vars : List (String × String))
    (fallbackLocale : String) : List (String × String) :=
  let ruleTemplates := (lookupAssoc templates ruleType).getD []
  locales.map fun locale =>
    let template := (((lookupAssoc ruleTemplates locale).orElse fun _ =>
      if fallbackLocale ≠ "" then lookupAssoc ruleTemplates fallbackLocale else none).orElse
        fun _ => lookupAssoc ruleTemplates "en").getD ""
    (locale, formatValidationMessage template vars)

/-- JavaScript truthiness of an optional number (`0` is falsy). -/
def intTruthy : Option Int → Bool
  | some n => n ≠ 0
  | none => false

/-- JavaScript truthiness of an optional string (`""` is falsy). -/
def strTruthy : Option String → Bool
  | some s => s ≠ ""
  | none => false

/-- `getMultiLocaleDisplayName` from `rules-generator.ts` (the identical copy
in `zod-generator.ts` is this same function): a per-locale map for exactly the
configured locales, with `locale → fallbackLocale → "en" → default` fallback;
a falsy value (`undefined` or `""`) yields the default everywhere. -/
def getMultiLocaleDisplayName (value : Option LocalizedString) (locales : List String)
    (fallbackLocale : String) (defaultValue : String) : List (String × String) :=
  if !(lsTruthy value) then locales.map fun l => (l, defaultValue)
  else
    match value with
    | some (.plain s) => locales.map fun l => (l, s)
    | some (.perLocale m) =>
      locales.map fun l =>
        (l, (((lookupAssoc m l).orElse fun _ => lookupAssoc m fallbackLocale).orElse
          fun _ => lookupAssoc m "en").getD defaultValue)
    | none => locales.map fun l => (l, defaultValue)

/-- One Ant-Design-compatible rule of `rules-generator.ts`. -/
structure AntRule where
  required : Bool := false
  type : Option String := none
  min : Option Int := none
  max : Option Int := none
  pattern : Option String := none
  message : List (String × String) := []
  deriving DecidableEq

/-- `generatePropertyRules` from `rules-generator.ts`. -/
def generatePropertyRules (propName : String) (property : Property)
    (displayName : List (String × String)) (locales : List String)
    (fallbackLocale : String) (templates : List (String × List (String × String))) :
    List AntRule :=
  let dnVar := [("displayName", "$\x7bdisplayName\x7d")]
  let requiredRules : List AntRule :=
    if !(property.nullable.getD false) then
      [ { required := true
          message := getValidationMessages templates "required" locales dnVar fallbackLocale } ]
    else []
  let emailRules : List AntRule :=
    if property.type == "Email" then
      [ { type := some "email"
          message := getValidationMessages templates "email" locales dnVar fallbackLocale } ]
    else []
  let lengthRules : List AntRule :=
    if property.type == "String" || property.type == "Text" || property.type == "LongText" then
      (if intTruthy property.minLength then
        [ { min := property.minLength
            message := getValidationMessages templates "minLength" locales
              (dnVar ++ [("min", toString ((property.minLength).getD 0))]) fallbackLocale } ]
      else []) ++
      (if intTruthy property.maxLength || intTruthy property.length then
        let maxV := (property.maxLength).orElse fun _ => property.length
        [ { max := maxV
            message := getValidationMessages templates "maxLength" locales
              (dnVar ++ [("max", toString (maxV.getD 0))]) fallbackLocale } ]
      else [])
    else []
  let numericRules : List AntRule :=
    if property.type == "Int" || property.type == "BigInt" || property.type == "Float" then
      (match property.min with
       | some mn =>
         [ { type := some (if property.type == "Float" then "number" else "integer")
             min := some mn
             message := getValidationMessages templates "min" locales
               (dnVar ++ [("min", toString mn)]) fallbackLocale } ]
       | none => []) ++
      (match property.max with
       | some mx =>
         [ { type := some (if property.type == "Float" then "number" else "integer")
             max := some mx
             message := getValidationMessages templates "max" locales
               (dnVar ++ [("max", toString mx)]) fallbackLocale } ]
       | none => [])
    else []
  let patternRules : List AntRule :=
    if strTruthy property.pattern then
      [ { pattern := property.pattern
          message := getValidationMessages templates "pattern" locales dnVar fallbackLocale } ]
    else []
  let rules := requiredRules ++ emailRules ++ lengthRules ++ numericRules ++ patternRules
  rules.map fun rule =>
    { rule with
      message := locales.filterMap fun locale =>
        match lookupAssoc rule.message locale with
        | some msg =>
          if msg ≠ "" then
            some (locale, msg.replace "$\x7bdisplayName\x7d" ((lookupAssoc displayName locale).getD propName))
          else none
        | none => none }

/-- Per-property result of `generateModelRules`. -/
structure PropRules where
  displayName : List (String × String)
  rules : List AntRule
  deriving DecidableEq

/-- Result of `generateModelRules`. -/
structure ModelRules where
  displayName : List (String × String)
  properties : List (String × PropRules)
  deriving DecidableEq

/-- `generateModelRules` from `rules-generator.ts`. -/
def generateModelRules (schema : Schema) (locales : List String)
    (fallbackLocale : String) (templates : List (String × List (String × String))) :
    ModelRules :=
  { displayName := getMultiLocaleDisplayName schema.displayName locales fallbackLocale schema.name
    properties := schema.properties.map fun pr =>
      let displayName := getMultiLocaleDisplayName pr.2.displayName locales fallbackLocale pr.1
      (pr.1, { displayName := displayName
               rules := generatePropertyRules pr.1 pr.2 displayName locales fallbackLocale templates }) }

/-- `getImportExt` from `rules-generator.ts` (`getImportExt2` in `generator.ts`
is the identical function). -/
def getImportExt (options : GenOptions) : String :=
  if options.useJsExtension.getD false then ".js" else ""

/-- One rendered entry of the `ruleObj` literal in `formatRulesFile`. -/
def renderAntRule (rule : AntRule) : String :=
  let entries :=
    (if rule.required then ["required: true"] else []) ++
    (match rule.type with
     | some t => ["type: '" ++ t ++ "'"]
     | none => []) ++
    (match rule.min with
     | some v => ["min: " ++ toString v]
     | none => []) ++
    (match rule.max with
     | some v => ["max: " ++ toString v]
     | none => []) ++
    (match rule.pattern with
     | some p => if p ≠ "" then ["pattern: /" ++ p ++ "/"] else []
     | none => []) ++
    ["message: " ++ jsonFlatObj rule.message]
  "    \x7b " ++ String.intercalate ", " entries ++ " \x7d,\n"

/-- `formatRulesFile` from `rules-generator.ts`. -/
def formatRulesFile (schemaName : String) (rules : ModelRules) (options : GenOptions) : String :=
  let ext := getImportExt options
  let header :=
    "/**\n * ⚠️ DO NOT EDIT THIS FILE! ⚠️\n" ++
    " * このファイルを編集しないでください！\n" ++
    " * KHÔNG ĐƯỢC SỬA FILE NÀY!\n *\n" ++
    " * Auto-generated validation rules and metadata for " ++ schemaName ++ ".\n" ++
    " * Any manual changes will be OVERWRITTEN on next generation.\n *\n" ++
    " * To modify: Edit the schema YAML file and run: npx omnify generate\n */\n\n" ++
    "import type \x7b LocaleMap, ValidationRule \x7d from '../common" ++ ext ++ "';\n\n"
  let displayNamePart :=
    "/** Display name for " ++ schemaName ++ " */\n" ++
    "export const " ++ schemaName ++ "DisplayName: LocaleMap = " ++
      jsonFlatObjPretty rules.displayName ++ ";\n\n"
  let propNamesPart :=
    "/** Property display names for " ++ schemaName ++ " */\n" ++
    "export const " ++ schemaName ++ "PropertyDisplayNames: Record<string, LocaleMap> = \x7b\n" ++
    String.join (rules.properties.map fun pr =>
      "  " ++ pr.1 ++ ": " ++ jsonFlatObj pr.2.displayName ++ ",\n") ++
    "\x7d;\n\n"
  let rulesPart :=
    "/** Validation rules for " ++ schemaName ++ " (Ant Design compatible) */\n" ++
    "export const " ++ schemaName ++ "Rules: Record<string, ValidationRule[]> = \x7b\n" ++
    String.join (rules.properties.map fun pr =>
      if pr.2.rules.length > 0 then
        "  " ++ pr.1 ++ ": [\n" ++ String.join (pr.2.rules.map renderAntRule) ++ "  ],\n"
      else "") ++
    "\x7d;\n\n"
  let getRulesPart :=
    "/** Get validation rules with messages for a specific locale */\n" ++
    "export function get" ++ schemaName ++
      "Rules(locale: string): Record<string, Array<\x7b required?: boolean; type?: string; min?: number; max?: number; pattern?: RegExp; message: string \x7d>> \x7b\n" ++
    "  const result: Record<string, Array<\x7b required?: boolean; type?: string; min?: number; max?: number; pattern?: RegExp; message: string \x7d>> = \x7b\x7d;\n" ++
    "  for (const [prop, rules] of Object.entries(" ++ schemaName ++ "Rules)) \x7b\n" ++
    "    result[prop] = rules.map(rule => (\x7b\n" ++
    "      ...rule,\n" ++
    "      message: rule.message[locale] ?? rule.message['en'] ?? '',\n" ++
    "    \x7d));\n" ++
    "  \x7d\n" ++
    "  return result;\n" ++
    "\x7d\n\n"
  let getDisplayNamePart :=
    "/** Get display name for a specific locale */\n" ++
    "export function get" ++ schemaName ++ "DisplayName(locale: string): string \x7b\n" ++
    "  return " ++ schemaName ++ "DisplayName[locale] ?? " ++ schemaName ++
      "DisplayName['en'] ?? '" ++ schemaName ++ "';\n" ++
    "\x7d\n\n"
  let getPropDisplayNamePart :=
    "/** Get property display name for a specific locale */\n" ++
    "export function get" ++ schemaName ++
      "PropertyDisplayName(property: string, locale: string): string \x7b\n" ++
    "  const names = " ++ schemaName ++ "PropertyDisplayNames[property];\n" ++
    "  return names?.[locale] ?? names?.['en'] ?? property;\n" ++
    "\x7d\n"
  header ++ displayNamePart ++ propNamesPart ++ rulesPart ++ getRulesPart ++
    getDisplayNamePart ++ getPropDisplayNamePart

/-- `generateRulesFiles` from `rules-generator.ts`. -/
def generateRulesFiles (schemas : List Schema) (options : GenOptions) : List GeneratedFile :=
  let locales := ((options.localeConfig.bind LocaleConfig.locales)).getD ["en"]
  let fallbackLocale := ((options.localeConfig.bind LocaleConfig.fallbackLocale)).getD "en"
  let templates := mergeValidationTemplates options.validationTemplates
  (visibleSchemas schemas).map fun schema =>
    let rules := generateModelRules schema locales fallbackLocale templates
    { filePath := "rules/" ++ schema.name ++ ".rules.ts"
      content := formatRulesFile schema.name rules options
      types := [schema.name ++ "Rules", schema.name ++ "DisplayName"]
      overwrite := true }

/-- The format-rule base of `applyValidationRules`: the five format rules are
tested in the fixed order url, uuid, ip, ipv4, ipv6, and the first truthy one
replaces the incoming schema expression outright. -/
def zodFormatBase (schema : String) (rules : RulesBag) : String :=
  if rules.url then "z.string().url()"
  else if rules.uuid then "z.string().uuid()"
  else if rules.ip then "z.string().ip()"
  else if rules.ipv4 then "z.string().ip(\x7b version: \"v4\" \x7d)"
  else if rules.ipv6 then "z.string().ip(\x7b version: \"v6\" \x7d)"
  else schema

/-- The character class of `replace(/[.*+?^$\x7b\x7d()|[\]\\]/g, "\\$&")`. -/
def isRegexSpecial (c : Char) : Bool :=
  c = '.' || c = '*' || c = '+' || c = '?' || c = '^' || c = '$' || c = '\x7b' ||
  c = '\x7d' || c = '(' || c = ')' || c = '|' || c = '[' || c = ']' || c = '\\'

/-- Regex-escape a literal prefix/suffix for the alternation regexes of
`applyValidationRules`. -/
def regexEscape (s : String) : String :=
  String.mk (s.toList.flatMap fun c => if isRegexSpecial c then ['\\', c] else [c])

/-- The string-typed property kinds of `applyValidationRules`. -/
def isStringPropType (propType : String) : Bool :=
  ["String", "Text", "MediumText", "LongText", "Password", "Email"].contains propType

/-- The string-constraint appends of `applyValidationRules` (length bounds,
character classes, digits, start/end-with, case constraints), in source order;
they apply only to string-typed properties and never read the format flags.
The source guards `startsWith`/`endsWith` with a truthiness test first, but an
empty or absent list appends nothing either way. -/
def zodStringRuleSuffix (rules : RulesBag) (propType : String) : String :=
  if !(isStringPropType propType) then ""
  else
    (match rules.minLength with
     | some n => ".min(" ++ toString n ++ ")"
     | none => "") ++
    (match rules.maxLength with
     | some n => ".max(" ++ toString n ++ ")"
     | none => "") ++
    (if rules.alpha then ".regex(/^[a-zA-Z]*$/, \x7b message: 'Must contain only letters' \x7d)" else "") ++
    (if rules.alphaNum then ".regex(/^[a-zA-Z0-9]*$/, \x7b message: 'Must contain only letters and numbers' \x7d)" else "") ++
    (if rules.alphaDash then ".regex(/^[a-zA-Z0-9_-]*$/, \x7b message: 'Must contain only letters, numbers, dashes, and underscores' \x7d)" else "") ++
    (if rules.numeric then ".regex(/^\\d*$/, \x7b message: 'Must contain only numbers' \x7d)" else "") ++
    (match rules.digits with
     | some n =>
       ".length(" ++ toString n ++ ").regex(/^\\d+$/, \x7b message: 'Must be exactly " ++
         toString n ++ " digits' \x7d)"
     | none => "") ++
    (match rules.digitsBetween with
     | some (mn, mx) =>
       ".min(" ++ toString mn ++ ").max(" ++ toString mx ++
         ").regex(/^\\d+$/, \x7b message: 'Must be " ++ toString mn ++ "-" ++ toString mx ++
         " digits' \x7d)"
     | none => "") ++
    (let validPrefixes := rules.startsWith.filter fun p => p ≠ ""
     if validPrefixes.length == 1 then
       ".startsWith('" ++ validPrefixes.headD "" ++ "')"
     else if validPrefixes.length > 1 then
       ".regex(/^(" ++ String.intercalate "|" (validPrefixes.map regexEscape) ++
         ")/, \x7b message: 'Must start with: " ++ String.intercalate ", " validPrefixes ++
         "' \x7d)"
     else "") ++
    (let validSuffixes := rules.endsWith.filter fun s => s ≠ ""
     if validSuffixes.length == 1 then
       ".endsWith('" ++ validSuffixes.headD "" ++ "')"
     else if validSuffixes.length > 1 then
       ".regex(/(" ++ String.intercalate "|" (validSuffixes.map regexEscape) ++
         ")$/, \x7b message: 'Must end with: " ++ String.intercalate ", " validSuffixes ++
         "' \x7d)"
     else "") ++
    (if rules.lowercase then ".refine(v => v === v.toLowerCase(), \x7b message: 'Must be lowercase' \x7d)" else "") ++
    (if rules.uppercase then ".refine(v => v === v.toUpperCase(), \x7b message: 'Must be uppercase' \x7d)" else "")

/-- The numeric-rule appends of `applyValidationRules`, in source order; they
apply only to the numeric property kinds. -/
def zodNumericRuleSuffix (rules : RulesBag) (propType : String) : String :=
  if propType == "Int" || propType == "TinyInt" || propType == "BigInt" || propType == "Float" then
    (match rules.min with
     | some n => ".gte(" ++ toString n ++ ")"
     | none => "") ++
    (match rules.max with
     | some n => ".lte(" ++ toString n ++ ")"
     | none => "") ++
    (match rules.between with
     | some (mn, mx) => ".gte(" ++ toString mn ++ ").lte(" ++ toString mx ++ ")"
     | none => "") ++
    (match rules.gt with
     | some n => ".gt(" ++ toString n ++ ")"
     | none => "") ++
    (match rules.lt with
     | some n => ".lt(" ++ toString n ++ ")"
     | none => "") ++
    (match rules.multipleOf with
     | some n => ".multipleOf(" ++ toString n ++ ")"
     | none => "")
  else ""

/-- `applyValidationRules` from `zod-generator.ts`: the source mutates one
`result` variable; grouping its appends as format base, string suffix and
numeric suffix concatenated in that order is the same computation. -/
def applyValidationRules (schema : String) (rules : Option RulesBag) (propType : String) : String :=
  match rules with
  | none => schema
  | some r => zodFormatBase schema r ++ zodStringRuleSuffix r propType ++ zodNumericRuleSuffix r propType

/-- The `switch (propDef.type)` of `getZodSchemaForType` (empty string for
`Association` and `File`, which the source returns early with). -/
def zodBaseSchemaForType (propDef : Property) : String :=
  let isNullable := propDef.nullable.getD false
  if propDef.type == "String" || propDef.type == "Text" || propDef.type == "MediumText" ||
      propDef.type == "LongText" || propDef.type == "Password" then
    let s0 := "z.string()"
    let s1 := if !isNullable then s0 ++ ".min(1)" else s0
    let s2 :=
      if intTruthy propDef.maxLength || intTruthy propDef.length then
        s1 ++ ".max(" ++ toString ((((propDef.maxLength).orElse fun _ => propDef.length)).getD 0) ++ ")"
      else s1
    match propDef.minLength with
    | some n => if n > 1 then s2.replace ".min(1)" (".min(" ++ toString n ++ ")") else s2
    | none => s2
  else if propDef.type == "Email" then
    let s0 := "z.string().email()"
    if intTruthy propDef.maxLength || intTruthy propDef.length then
      s0 ++ ".max(" ++
        toString (((((propDef.maxLength).orElse fun _ => propDef.length)).getD 255)) ++ ")"
    else s0
  else if propDef.type == "TinyInt" || propDef.type == "Int" || propDef.type == "BigInt" then
    "z.number().int()" ++
    (match propDef.min with
     | some n => ".gte(" ++ toString n ++ ")"
     | none => "") ++
    (match propDef.max with
     | some n => ".lte(" ++ toString n ++ ")"
     | none => "")
  else if propDef.type == "Float" then
    "z.number()" ++
    (match propDef.min with
     | some n => ".gte(" ++ toString n ++ ")"
     | none => "") ++
    (match propDef.max with
     | some n => ".lte(" ++ toString n ++ ")"
     | none => "")
  else if propDef.type == "Boolean" then "z.boolean()"
  else if propDef.type == "Date" then "z.string().date()"
  else if propDef.type == "DateTime" || propDef.type == "Timestamp" then
    "z.string().datetime(\x7b offset: true \x7d)"
  else if propDef.type == "Time" then "z.string().time()"
  else if propDef.type == "Json" then "z.unknown()"
  else if propDef.type == "EnumRef" then
    match propDef.enum with
    | some (.name s) => "z.nativeEnum(" ++ s ++ ")"
    | _ => "z.string()"
  else if propDef.type == "Enum" then
    match propDef.enum with
    | some (.name s) => s ++ "Schema"
    | some (.values vs) =>
      "z.enum([" ++ String.intercalate ", " (vs.map fun v => "'" ++ jsDisplay v ++ "'") ++ "])"
    | none => "z.string()"
  else if propDef.type == "Select" then
    match propDef.options with
    | some vs =>
      if vs.length > 0 then
        "z.enum([" ++ String.intercalate ", " (vs.map fun v => "'" ++ jsDisplay v ++ "'") ++ "])"
      else "z.string()"
    | none => "z.string()"
  else if propDef.type == "Lookup" then "z.number().int().positive()"
  else if propDef.type == "Association" then ""
  else if propDef.type == "File" then ""
  else "z.string()"

/-- The shared tail of `getZodSchemaForType` after the type switch: apply the
rules bag, then the nullability suffix, then the top-level `pattern` regex;
each step keeps an empty schema empty. -/
def zodSwitchTail (propDef : Property) : String :=
  let isNullable := propDef.nullable.getD false
  let schema := zodBaseSchemaForType propDef
  let s1 :=
    if propDef.rules.isSome && schema ≠ "" then applyValidationRules schema propDef.rules propDef.type
    else schema
  let s2 := if isNullable && s1 ≠ "" then s1 ++ ".optional().nullable()" else s1
  if strTruthy propDef.pattern && s2 ≠ "" then
    s2 ++ ".regex(/" ++ propDef.pattern.getD "" ++ "/)"
  else s2

/-- `getZodSchemaForType` from `zod-generator.ts`. A non-compound custom type
returns early (its `sqlType` default is computed but unused in the source); a
compound custom type falls through to the switch. -/
def getZodSchemaForType (propDef : Property) (_fieldName : String)
    (customTypes : Option (List (String × CustomType))) : String :=
  let isNullable := propDef.nullable.getD false
  match customTypes.bind fun cts => lookupAssoc cts propDef.type with
  | some customType =>
    if !customType.compound then
      let s0 := "z.string()"
      let s1 :=
        if intTruthy customType.sqlLength then
          s0 ++ ".max(" ++ toString (customType.sqlLength.getD 0) ++ ")"
        else s0
      if isNullable then s1 ++ ".optional().nullable()" else s1
    else zodSwitchTail propDef
  | none => zodSwitchTail propDef

/-- `generateCompoundTypeSchemas` from `zod-generator.ts`. -/
def generateCompoundTypeSchemas (propName : String) (propDef : Property)
    (customType : CustomType) (options : GenOptions) : List ZodPropSchema :=
  let locales := (options.localeConfig.bind LocaleConfig.locales).getD ["en"]
  let fallbackLocale := (options.localeConfig.bind LocaleConfig.fallbackLocale).getD "en"
  match customType.expand with
  | none => []
  | some expandFields =>
    expandFields.map fun field =>
      let fieldName := toSnakeCase propName ++ "_" ++ toSnakeCase field.suffix
      let fieldOverride := lookupAssoc propDef.fields field.suffix
      let isNullable := ((((fieldOverride.bind FieldOverride.nullable).orElse fun _ =>
        field.sqlNullable)).orElse fun _ => propDef.nullable).getD false
      let pluginRules := field.rules
      let overrideRules := fieldOverride.bind FieldOverride.rules
      let length := ((((fieldOverride.bind FieldOverride.length).orElse fun _ =>
        overrideRules.bind RuleHints.maxLength).orElse fun _ =>
        pluginRules.bind RuleHints.maxLength)).orElse fun _ => field.sqlLength
      let minLength := (overrideRules.bind RuleHints.minLength).orElse fun _ =>
        pluginRules.bind RuleHints.minLength
      let pattern := (overrideRules.bind RuleHints.pattern).orElse fun _ =>
        pluginRules.bind RuleHints.pattern
      let format := (overrideRules.bind RuleHints.format).orElse fun _ =>
        pluginRules.bind RuleHints.format
      let s0 :=
        if format == some "email" then "z.string().email()"
        else if format == some "url" then "z.string().url()"
        else if format == some "phone" then "z.string()"
        else if format == some "postal_code" then "z.string().regex(/^\\d\x7b3\x7d-?\\d\x7b4\x7d$/)"
        else "z.string()"
      let s1 :=
        if !isNullable then s0 ++ ".min(" ++ toString (minLength.getD 1) ++ ")"
        else if intTruthy minLength then s0 ++ ".min(" ++ toString (minLength.getD 0) ++ ")"
        else s0
      let s2 := if intTruthy length then s1 ++ ".max(" ++ toString (length.getD 0) ++ ")" else s1
      let s3 :=
        if strTruthy pattern && !(strTruthy format) then
          s2 ++ ".regex(/" ++ pattern.getD "" ++ "/)"
        else s2
      let s4 := if isNullable then s3 ++ ".optional().nullable()" else s3
      let propDisplayName := getMultiLocaleDisplayName propDef.displayName locales fallbackLocale propName
      { fieldName := fieldName, schema := s4, inCreate := true, inUpdate := true
        comment := some (((lookupAssoc propDisplayName "en").getD propName) ++
          " (" ++ field.suffix ++ ")") }

/-- `generateZodSchemas` from `zod-generator.ts`. -/
def generateZodSchemas (schema : Schema) (options : GenOptions) : List ZodPropSchema :=
  schema.properties.flatMap fun pr =>
    let plain : List ZodPropSchema :=
      let zodSchema := getZodSchemaForType pr.2 pr.1 options.customTypes
      if zodSchema = "" then []
      else [{ fieldName := toSnakeCase pr.1, schema := zodSchema, inCreate := true,
              inUpdate := true, comment := none }]
    match options.customTypes.bind fun cts => lookupAssoc cts pr.2.type with
    | some ct => if ct.compound then generateCompoundTypeSchemas pr.1 pr.2 ct options else plain
    | none => plain

/-- Result of `generateDisplayNames`. -/
structure DisplayNamesRes where
  displayName : List (String × String)
  propertyDisplayNames : List (String × List (String × String))
  propertyPlaceholders : List (String × List (String × String))
  deriving DecidableEq

/-- `generateDisplayNames` from `zod-generator.ts`. The per-locale
`" (suffix)"` append of the source updates each configured locale of the just
computed map in place, which is the value-wise map below. -/
def generateDisplayNames (schema : Schema) (options : GenOptions) : DisplayNamesRes :=
  let locales := (options.localeConfig.bind LocaleConfig.locales).getD ["en"]
  let fallbackLocale := (options.localeConfig.bind LocaleConfig.fallbackLocale).getD "en"
  let displayName := getMultiLocaleDisplayName schema.displayName locales fallbackLocale schema.name
  let start := (([] : List (String × List (String × String))),
                ([] : List (String × List (String × String))))
  let step := fun acc pr =>
    let propName := pr.1
    let prop := pr.2
    let fieldName := toSnakeCase propName
    let plain :=
      (setAssoc acc.1 fieldName (getMultiLocaleDisplayName prop.displayName locales fallbackLocale propName),
       if lsTruthy prop.placeholder then
         setAssoc acc.2 fieldName (getMultiLocaleDisplayName prop.placeholder locales fallbackLocale "")
       else acc.2)
    match options.customTypes.bind fun cts => lookupAssoc cts prop.type with
    | some ct =>
      if ct.compound && ct.expand.isSome then
        let pdn1 :=
          if lsTruthy prop.displayName then
            setAssoc acc.1 fieldName (getMultiLocaleDisplayName prop.displayName locales fallbackLocale propName)
          else acc.1
        let istep := fun acc2 field =>
          let expandedFieldName := fieldName ++ "_" ++ toSnakeCase field.suffix
          let fieldOverride := lookupAssoc prop.fields field.suffix
          let labelSource := (fieldOverride.bind FieldOverride.displayName).orElse fun _ => field.label
          let pdn3 :=
            if lsTruthy labelSource then
              setAssoc acc2.1 expandedFieldName
                (getMultiLocaleDisplayName labelSource locales fallbackLocale field.suffix)
            else
              let base := getMultiLocaleDisplayName prop.displayName locales fallbackLocale propName
              setAssoc acc2.1 expandedFieldName
                (base.map fun kv => (kv.1, kv.2 ++ " (" ++ field.suffix ++ ")"))
          let placeholderSource := (fieldOverride.bind FieldOverride.placeholder).orElse fun _ =>
            field.placeholder
          let pph3 :=
            if lsTruthy placeholderSource then
              setAssoc acc2.2 expandedFieldName
                (getMultiLocaleDisplayName placeholderSource locales fallbackLocale "")
            else acc2.2
          (pdn3, pph3)
        (ct.expand.getD []).foldl istep (pdn1, acc.2)
      else plain
    | none => plain
  let folded := schema.properties.foldl step start
  { displayName := displayName
    propertyDisplayNames := folded.1
    propertyPlaceholders := folded.2 }

/-- Insert-if-absent, the `Set.add` of `getExcludedFields`. -/
def addUnique (l : List String) (x : String) : List String :=
  if l.contains x then l else l ++ [x]

/-- `getExcludedFields` from `zod-generator.ts`: the create/update exclusion
sets (primary key, audit timestamps, soft-delete marker, the special
email-verification column, and compound-type accessor fields). -/
def getExcludedFields (schema : Schema) (customTypes : Option (List (String × CustomType))) :
    List String × List String :=
  let s0 : List String × List String := ([], [])
  let s1 :=
    if !((schema.options.bind SchemaOptions.id) == some false) then
      (addUnique s0.1 "id", addUnique s0.2 "id")
    else s0
  let s2 :=
    if !((schema.options.bind SchemaOptions.timestamps) == some false) then
      (addUnique (addUnique s1.1 "created_at") "updated_at",
       addUnique (addUnique s1.2 "created_at") "updated_at")
    else s1
  let s3 :=
    if (schema.options.bind SchemaOptions.softDelete) == some true then
      (addUnique s2.1 "deleted_at", addUnique s2.2 "deleted_at")
    else s2
  let s4 :=
    if (lookupAssoc schema.properties "emailVerifiedAt").isSome ||
        (lookupAssoc schema.properties "email_verified_at").isSome then
      (addUnique s3.1 "email_verified_at", addUnique s3.2 "email_verified_at")
    else s3
  match customTypes with
  | none => s4
  | some cts =>
    schema.properties.foldl
      (fun acc pr =>
        match lookupAssoc cts pr.2.type with
        | some ct =>
          (ct.accessors.getD []).foldl
            (fun acc2 accessor =>
              let fieldName := toSnakeCase pr.1 ++ "_" ++ toSnakeCase accessor.name
              (addUnique acc2.1 fieldName, addUnique acc2.2 fieldName))
            acc
        | none => acc)
      s4

/-- The section separator of the emitted files: `//` and 76 equals signs. -/
def sectionRule : String :=
  "// " ++ String.mk (List.replicate 76 '=') ++ "\n"

/-- `formatZodSchemasSection` from `zod-generator.ts`. -/
def formatZodSchemasSection (schemaName : String) (zodSchemas : List ZodPropSchema)
    (displayNames : DisplayNamesRes) (excludedFields : List String × List String) : String :=
  let lowerName := lowerFirst schemaName
  let i18nPart :=
    sectionRule ++ "// I18n (Internationalization)\n" ++ sectionRule ++ "\n" ++
    "/**\n" ++
    " * Unified i18n object for " ++ schemaName ++ "\n" ++
    " * Contains model label and all field labels/placeholders\n" ++
    " */\n" ++
    "export const " ++ lowerName ++ "I18n = \x7b\n" ++
    "  /** Model display name */\n" ++
    "  label: " ++ jsonFlatObj displayNames.displayName ++ ",\n" ++
    "  /** Field labels and placeholders */\n" ++
    "  fields: \x7b\n" ++
    String.join (displayNames.propertyDisplayNames.map fun kv =>
      let placeholderMap := lookupAssoc displayNames.propertyPlaceholders kv.1
      "    " ++ kv.1 ++ ": \x7b\n" ++
      "      label: " ++ jsonFlatObj kv.2 ++ ",\n" ++
      (match placeholderMap with
       | some m => "      placeholder: " ++ jsonFlatObj m ++ ",\n"
       | none => "") ++
      "    \x7d,\n") ++
    "  \x7d,\n" ++
    "\x7d as const;\n\n"
  let schemasPart :=
    sectionRule ++ "// Zod Schemas\n" ++ sectionRule ++ "\n" ++
    "/** Field schemas for " ++ schemaName ++ " */\n" ++
    "export const base" ++ schemaName ++ "Schemas = \x7b\n" ++
    String.join (zodSchemas.map fun prop =>
      (match prop.comment with
       | some c => "  /** " ++ c ++ " */\n"
       | none => "") ++
      "  " ++ prop.fieldName ++ ": " ++ prop.schema ++ ",\n") ++
    "\x7d as const;\n\n"
  let createFields := zodSchemas.filter fun p => p.inCreate && !(excludedFields.1.contains p.fieldName)
  let createPart :=
    "/** Create schema for " ++ schemaName ++ " (POST requests) */\n" ++
    "export const base" ++ schemaName ++ "CreateSchema = z.object(\x7b\n" ++
    String.join (createFields.map fun prop =>
      "  " ++ prop.fieldName ++ ": base" ++ schemaName ++ "Schemas." ++ prop.fieldName ++ ",\n") ++
    "\x7d);\n\n" ++
    "/** Update schema for " ++ schemaName ++ " (PUT/PATCH requests) */\n" ++
    "export const base" ++ schemaName ++ "UpdateSchema = base" ++ schemaName ++
      "CreateSchema.partial();\n\n"
  let typesPart :=
    sectionRule ++ "// Inferred Types\n" ++ sectionRule ++ "\n" ++
    "export type Base" ++ schemaName ++ "Create = z.infer<typeof base" ++ schemaName ++
      "CreateSchema>;\n" ++
    "export type Base" ++ schemaName ++ "Update = z.infer<typeof base" ++ schemaName ++
      "UpdateSchema>;\n\n"
  let helpersPart :=
    sectionRule ++ "// I18n Helper Functions\n" ++ sectionRule ++ "\n" ++
    "/** Get model label for a specific locale */\n" ++
    "export function get" ++ schemaName ++ "Label(locale: string): string \x7b\n" ++
    "  return " ++ lowerName ++ "I18n.label[locale as keyof typeof " ++ lowerName ++
      "I18n.label] ?? " ++ lowerName ++ "I18n.label['en'] ?? '" ++ schemaName ++ "';\n" ++
    "\x7d\n\n" ++
    "/** Get field label for a specific locale */\n" ++
    "export function get" ++ schemaName ++ "FieldLabel(field: string, locale: string): string \x7b\n" ++
    "  const fieldI18n = " ++ lowerName ++ "I18n.fields[field as keyof typeof " ++ lowerName ++
      "I18n.fields];\n" ++
    "  if (!fieldI18n) return field;\n" ++
    "  return fieldI18n.label[locale as keyof typeof fieldI18n.label] ?? fieldI18n.label['en'] ?? field;\n" ++
    "\x7d\n\n" ++
    "/** Get field placeholder for a specific locale */\n" ++
    "export function get" ++ schemaName ++ "FieldPlaceholder(field: string, locale: string): string \x7b\n" ++
    "  const fieldI18n = " ++ lowerName ++ "I18n.fields[field as keyof typeof " ++ lowerName ++
      "I18n.fields];\n" ++
    "  if (!fieldI18n || !('placeholder' in fieldI18n)) return '';\n" ++
    "  const placeholder = fieldI18n.placeholder as Record<string, string>;\n" ++
    "  return placeholder[locale] ?? placeholder['en'] ?? '';\n" ++
    "\x7d\n"
  i18nPart ++ schemasPart ++ createPart ++ typesPart ++ helpersPart

/-- `formatZodModelFile` from `zod-generator.ts`: the create-once model file
body in Zod mode. -/
def formatZodModelFile (schemaName : String) (ext : String) (basePfx : String) : String :=
  let lowerName := lowerFirst schemaName
  "/**\n * " ++ schemaName ++ " Model\n *\n" ++
  " * This file extends the auto-generated base interface.\n" ++
  " * You can add custom methods, computed properties, or override types/schemas here.\n" ++
  " * This file will NOT be overwritten by the generator.\n */\n\n" ++
  "import \x7b z \x7d from 'zod';\n" ++
  "import type \x7b " ++ schemaName ++ " as " ++ schemaName ++ "Base \x7d from '" ++
    basePfx ++ "/" ++ schemaName ++ ext ++ "';\n" ++
  "import \x7b\n" ++
  "  base" ++ schemaName ++ "Schemas,\n" ++
  "  base" ++ schemaName ++ "CreateSchema,\n" ++
  "  base" ++ schemaName ++ "UpdateSchema,\n" ++
  "  " ++ lowerName ++ "I18n,\n" ++
  "  get" ++ schemaName ++ "Label,\n" ++
  "  get" ++ schemaName ++ "FieldLabel,\n" ++
  "  get" ++ schemaName ++ "FieldPlaceholder,\n" ++
  "\x7d from '" ++ basePfx ++ "/" ++ schemaName ++ ext ++ "';\n\n" ++
  sectionRule ++ "// Types (extend or re-export)\n" ++ sectionRule ++ "\n" ++
  "export interface " ++ schemaName ++ " extends " ++ schemaName ++ "Base \x7b\n" ++
  "  // Add custom properties here\n" ++
  "\x7d\n\n" ++
  sectionRule ++ "// Schemas (extend or re-export)\n" ++ sectionRule ++ "\n" ++
  "export const " ++ lowerName ++ "Schemas = \x7b ...base" ++ schemaName ++ "Schemas \x7d;\n" ++
  "export const " ++ lowerName ++ "CreateSchema = base" ++ schemaName ++ "CreateSchema;\n" ++
  "export const " ++ lowerName ++ "UpdateSchema = base" ++ schemaName ++ "UpdateSchema;\n\n" ++
  sectionRule ++ "// Types\n" ++ sectionRule ++ "\n" ++
  "export type " ++ schemaName ++ "Create = z.infer<typeof " ++ lowerName ++ "CreateSchema>;\n" ++
  "export type " ++ schemaName ++ "Update = z.infer<typeof " ++ lowerName ++ "UpdateSchema>;\n\n" ++
  "// Re-export i18n and helpers\n" ++
  "export \x7b\n" ++
  "  " ++ lowerName ++ "I18n,\n" ++
  "  get" ++ schemaName ++ "Label,\n" ++
  "  get" ++ schemaName ++ "FieldLabel,\n" ++
  "  get" ++ schemaName ++ "FieldPlaceholder,\n" ++
  "\x7d;\n\n" ++
  "// Re-export base type for internal use\n" ++
  "export type \x7b " ++ schemaName ++ "Base \x7d;\n"

/-- JavaScript truthiness of an optional boolean. -/
def optTrue (o : Option Bool) : Bool := o.getD false

/-- `DEFAULT_OPTIONS` of `generator.ts` merged under the input options, as
`{ ...DEFAULT_OPTIONS, ...options }` does: an absent option field takes the
default, a present one wins. -/
def mergeDefaults (o : GenOptions) : GenOptions :=
  { o with
    readonly := some (o.readonly.getD false)
    strictNullChecks := some (o.strictNullChecks.getD true)
    generateZodSchemas := some (o.generateZodSchemas.getD true)
    generateRules := some (o.generateRules.getD false)
    useJsExtension := some (o.useJsExtension.getD false) }

/-- `generateBaseHeader` from `generator.ts`. -/
def generateBaseHeader : String :=
  "/**\n * ⚠️ DO NOT EDIT THIS FILE! ⚠️\n" ++
  " * このファイルを編集しないでください！\n" ++
  " * KHÔNG ĐƯỢC SỬA FILE NÀY!\n *\n" ++
  " * Auto-generated TypeScript types from Omnify schemas.\n" ++
  " * Any manual changes will be OVERWRITTEN on next generation.\n *\n" ++
  " * To modify: Edit the schema YAML file and run: npx omnify generate\n */\n\n"

/-- `generateModelHeader` from `generator.ts`. -/
def generateModelHeader (schemaName : String) : String :=
  "/**\n * " ++ schemaName ++ " Model\n *\n" ++
  " * This file extends the auto-generated base interface.\n" ++
  " * You can add custom methods, computed properties, or override types here.\n" ++
  " * This file will NOT be overwritten by the generator.\n */\n\n"

/-- `getComputedFields` from `generator.ts`. -/
def getComputedFields (schema : Schema) (customTypes : Option (List (String × CustomType))) :
    List String :=
  schema.properties.flatMap fun pr =>
    match customTypes.bind fun cts => lookupAssoc cts pr.2.type with
    | some ct =>
      (ct.accessors.getD []).map fun accessor =>
        toSnakeCase pr.1 ++ "_" ++ toSnakeCase accessor.name
    | none => []

/-- `generateUtilityTypes` from `generator.ts` (the non-Zod Create/Update
aliases). -/
def generateUtilityTypes (schemaName : String) (schema : Schema)
    (customTypes : Option (List (String × CustomType))) : String :=
  let excludeFields :=
    (if !((schema.options.bind SchemaOptions.id) == some false) then ["'id'"] else []) ++
    (if !((schema.options.bind SchemaOptions.timestamps) == some false) then
      ["'created_at'", "'updated_at'"] else []) ++
    (if (schema.options.bind SchemaOptions.softDelete) == some true then ["'deleted_at'"] else []) ++
    (if (lookupAssoc schema.properties "emailVerifiedAt").isSome ||
        (lookupAssoc schema.properties "email_verified_at").isSome then
      ["'email_verified_at'"] else []) ++
    (getComputedFields schema customTypes).map fun field => "'" ++ field ++ "'"
  let omitType :=
    if excludeFields.length > 0 then
      "Omit<" ++ schemaName ++ ", " ++ String.intercalate " | " excludeFields ++ ">"
    else schemaName
  "\n/** For creating new " ++ schemaName ++ " (POST requests) */" ++
  "\nexport type " ++ schemaName ++ "Create = " ++ omitType ++ ";\n" ++
  "\n/** For updating " ++ schemaName ++ " (PUT/PATCH requests) */" ++
  "\nexport type " ++ schemaName ++ "Update = Partial<" ++ schemaName ++ "Create>;\n"

/-- `needsDateTimeImports` from `generator.ts`. -/
def needsDateTimeImports (iface : TSInterface) : Bool × Bool :=
  (iface.properties.any fun p => p.type == "DateTimeString" || containsSub p.type "DateTimeString",
   iface.properties.any fun p => p.type == "DateString" || containsSub p.type "DateString")

/-- `generateBaseInterfaceFile` from `generator.ts`. `schemas[schemaName]` is
record lookup in the source; the collection is keyed by schema name, so it is
name lookup here. -/
def generateBaseInterfaceFile (schemaName : String) (schemas : List Schema)
    (options : GenOptions) : Except GenError GeneratedFile :=
  let interfaces := generateInterfaces schemas options
  match interfaces.find? (fun i => i.name == schemaName),
      schemas.find? (fun s => s.name == schemaName) with
  | some iface, some schema =>
    let zodOn := optTrue options.generateZodSchemas
    let zodImportPart := if zodOn then "import \x7b z \x7d from 'zod';\n" else ""
    let dateImports := needsDateTimeImports iface
    let commonImports :=
      (if dateImports.1 then ["DateTimeString"] else []) ++
      (if dateImports.2 then ["DateString"] else [])
    let ext := getImportExt options
    let isNodeModulesBase := (options.baseImportPath.map (String.startsWith · "@")).getD false
    let commonImportPath := if isNodeModulesBase then "./common" else "../common"
    let commonImportPart :=
      if commonImports.length > 0 then
        "import type \x7b " ++ String.intercalate ", " commonImports ++ " \x7d from '" ++
          commonImportPath ++ ext ++ "';\n"
      else ""
    let enumDeps := iface.enumDependencies.getD []
    let enumImportPart :=
      if enumDeps.length > 0 then
        let schemaEnumPfx :=
          match options.schemaEnumImportPath with
          | some p => p
          | none =>
            match options.enumImportPath with
            | some p => if p.startsWith "@" then p else if p ≠ "" then "../" ++ p else "../enum"
            | none => "../enum"
        let pluginEnumNames := (options.pluginEnums.getD []).map Prod.fst
        let pluginEnumPfx := (options.pluginEnumImportPath).getD (schemaEnumPfx ++ "/plugin")
        String.join (enumDeps.map fun enumName =>
          let enumPath :=
            if pluginEnumNames.contains enumName then pluginEnumPfx ++ "/" ++ enumName ++ ext
            else schemaEnumPfx ++ "/" ++ enumName ++ ext
          "import \x7b " ++ enumName ++ " \x7d from '" ++ enumPath ++ "';\n")
      else ""
    let deps := iface.dependencies.getD []
    let depImportPart :=
      if deps.length > 0 then
        String.join (deps.map fun dep =>
          "import type \x7b " ++ dep ++ " \x7d from './" ++ dep ++ ext ++ "';\n") ++ "\n"
      else if commonImports.length > 0 || zodOn || enumDeps.length > 0 then "\n"
      else ""
    let tailPart :=
      if zodOn then
        let zodSchemas := generateZodSchemas schema options
        let displayNames := generateDisplayNames schema options
        let excludedFields := getExcludedFields schema options.customTypes
        "\n" ++ formatZodSchemasSection schemaName zodSchemas displayNames excludedFields
      else generateUtilityTypes schemaName schema options.customTypes
    .ok { filePath := "base/" ++ schemaName ++ ".ts"
          content := generateBaseHeader ++ zodImportPart ++ commonImportPart ++ enumImportPart ++
            depImportPart ++ formatInterface iface ++ "\n" ++ tailPart
          types := [schemaName, schemaName ++ "Create", schemaName ++ "Update"]
          overwrite := true
          category := some "base" }
  | _, _ => .error (.interfaceNotFound schemaName)

/-- `generateEnumFile` from `generator.ts`. -/
def generateEnumFile (enumDef : TSEnum) (isPluginEnum : Bool) : GeneratedFile :=
  { filePath := enumDef.name ++ ".ts"
    content := generateBaseHeader ++ formatEnum enumDef ++ "\n"
    types := [enumDef.name]
    overwrite := true
    category := some (if isPluginEnum then "plugin-enum" else "enum") }

/-- `generateTypeAliasFile` from `generator.ts`. -/
def generateTypeAliasFile (tsAlias : TSTypeAlias) : GeneratedFile :=
  { filePath := tsAlias.name ++ ".ts"
    content := generateBaseHeader ++ formatTypeAlias tsAlias ++ "\n"
    types := [tsAlias.name]
    overwrite := true
    category := some "enum" }

/-- `generateModelFile` from `generator.ts`: the create-once model file, never
overwritten. -/
def generateModelFile (schemaName : String) (options : GenOptions) : GeneratedFile :=
  let basePfx := (options.baseImportPath).getD "./base"
  if optTrue options.generateZodSchemas then
    { filePath := schemaName ++ ".ts"
      content := formatZodModelFile schemaName (getImportExt options) basePfx
      types := [schemaName]
      overwrite := false }
  else
    let ext := getImportExt options
    { filePath := schemaName ++ ".ts"
      content := generateModelHeader schemaName ++
        "import type \x7b " ++ schemaName ++ " as " ++ schemaName ++ "Base \x7d from '" ++
          basePfx ++ "/" ++ schemaName ++ ext ++ "';\n\n" ++
        "/**\n * " ++ schemaName ++ " model interface.\n" ++
        " * Add custom properties or methods here.\n */\n" ++
        "export interface " ++ schemaName ++ " extends " ++ schemaName ++ "Base \x7b\n" ++
        "  // Add custom properties here\n" ++
        "\x7d\n\n" ++
        "// Re-export base type for internal use\n" ++
        "export type \x7b " ++ schemaName ++ "Base \x7d;\n"
      types := [schemaName]
      overwrite := false }

/-- `generateCommonFile` from `generator.ts`. -/
def generateCommonFile (options : GenOptions) : GeneratedFile :=
  let locales := (options.localeConfig.bind LocaleConfig.locales).getD ["ja", "en"]
  let localeUnion := String.intercalate " | " (locales.map fun l => "'" ++ l ++ "'")
  let content :=
    generateBaseHeader ++ "\n" ++
    "/**\n * Locale map for multi-language support.\n */\n" ++
    "export interface LocaleMap \x7b\n  [locale: string]: string;\n\x7d\n\n" ++
    "/**\n * Supported locales in this project.\n */\n" ++
    "export type Locale = " ++ localeUnion ++ ";\n\n" ++
    "/**\n * Validation rule with multi-locale messages.\n" ++
    " * Use get\x7bModel\x7dRules(locale) to get Ant Design compatible rules with string messages.\n" ++
    " */\n" ++
    "export interface ValidationRule \x7b\n" ++
    "  required?: boolean;\n" ++
    "  type?: 'string' | 'number' | 'email' | 'url' | 'integer' | 'array' | 'object';\n" ++
    "  min?: number;\n  max?: number;\n  len?: number;\n  pattern?: RegExp;\n" ++
    "  message: LocaleMap;\n\x7d\n\n" ++
    "/**\n * ISO 8601 date-time string.\n */\n" ++
    "export type DateTimeString = string;\n\n" ++
    "/**\n * ISO 8601 date string (YYYY-MM-DD).\n */\n" ++
    "export type DateString = string;\n"
  let isNodeModulesBase := (options.baseImportPath.map (String.startsWith · "@")).getD false
  { filePath := "common.ts"
    content := content
    types := ["LocaleMap", "Locale", "ValidationRule", "DateTimeString", "DateString"]
    overwrite := true
    category := if isNodeModulesBase then some "base" else none }

/-- `JSON.stringify` of a string array. -/
def jsonStrArray (l : List String) : String :=
  "[" ++ String.intercalate "," (l.map jsonStr) ++ "]"

/-- `generateI18nFile` from `generator.ts`. -/
def generateI18nFile (options : GenOptions) : GeneratedFile :=
  let locales := (options.localeConfig.bind LocaleConfig.locales).getD ["ja", "en"]
  let defaultLocale := (options.localeConfig.bind LocaleConfig.defaultLocale).getD "ja"
  let fallbackLocale := (options.localeConfig.bind LocaleConfig.fallbackLocale).getD "en"
  let userMessages := (options.localeConfig.bind LocaleConfig.messages).getD []
  let fromDefaults := DEFAULT_VALIDATION_MESSAGES.map fun kv =>
    (kv.1, locales.filterMap fun locale =>
      match lookupAssoc kv.2 locale with
      | some m => if m ≠ "" then some (locale, m) else none
      | none => none)
  let mergedMessages := userMessages.foldl
    (fun merged kv =>
      let base := (lookupAssoc merged kv.1).getD []
      setAssoc merged kv.1 (kv.2.foldl (fun acc lm => setAssoc acc lm.1 lm.2) base))
    fromDefaults
  let messagesJson := jsonNestedObjPretty mergedMessages
  let ext := getImportExt options
  let isNodeModulesBase := (options.baseImportPath.map (String.startsWith · "@")).getD false
  let commonImportPath :=
    if isNodeModulesBase then (options.baseImportPath.getD "") ++ "/common" else "./common"
  let content :=
    generateBaseHeader ++ "\n" ++
    "import type \x7b LocaleMap \x7d from '" ++ commonImportPath ++ ext ++ "';\n\n" ++
    "/**\n * Default locale for this project.\n */\n" ++
    "export const defaultLocale = '" ++ defaultLocale ++ "' as const;\n\n" ++
    "/**\n * Fallback locale when requested locale is not found.\n */\n" ++
    "export const fallbackLocale = '" ++ fallbackLocale ++ "' as const;\n\n" ++
    "/**\n * Supported locales in this project.\n */\n" ++
    "export const supportedLocales = " ++ jsonStrArray locales ++ " as const;\n\n" ++
    "/**\n * Validation messages for all supported locales.\n" ++
    " * Use getMessage(key, locale, params) to get formatted message.\n */\n" ++
    "export const validationMessages = " ++ messagesJson ++ " as const;\n\n" ++
    "/**\n * Get validation message for a specific key and locale.\n" ++
    " * Supports template placeholders: $\x7bdisplayName\x7d, $\x7bmin\x7d, $\x7bmax\x7d, etc.\n" ++
    " *\n * @param key - Message key (e.g., 'required', 'minLength')\n" ++
    " * @param locale - Locale code (e.g., 'ja', 'en')\n" ++
    " * @param params - Template parameters to replace\n" ++
    " * @returns Formatted message string\n *\n * @example\n" ++
    " * getMessage('required', 'ja', \x7b displayName: '氏名' \x7d)\n" ++
    " * // => '氏名は必須です'\n */\n" ++
    "export function getMessage(\n  key: string,\n  locale: string,\n" ++
    "  params: Record<string, string | number> = \x7b\x7d\n): string \x7b\n" ++
    "  const messages = validationMessages[key as keyof typeof validationMessages];\n" ++
    "  if (!messages) return key;\n\n" ++
    "  let message = (messages as LocaleMap)[locale]\n" ++
    "    ?? (messages as LocaleMap)[fallbackLocale]\n" ++
    "    ?? (messages as LocaleMap)[defaultLocale]\n" ++
    "    ?? key;\n\n" ++
    "  // Replace template placeholders\n" ++
    "  for (const [param, value] of Object.entries(params)) \x7b\n" ++
    "    message = message.replace(new RegExp(`\\\\$\\\x7b$\x7bparam\x7d\\\x7d`, 'g'), String(value));\n" ++
    "  \x7d\n\n  return message;\n\x7d\n\n" ++
    "/**\n * Get all validation messages for a specific locale.\n *\n" ++
    " * @param locale - Locale code\n" ++
    " * @returns Object with all messages for the locale\n */\n" ++
    "export function getMessages(locale: string): Record<string, string> \x7b\n" ++
    "  const result: Record<string, string> = \x7b\x7d;\n" ++
    "  for (const [key, messages] of Object.entries(validationMessages)) \x7b\n" ++
    "    result[key] = (messages as LocaleMap)[locale]\n" ++
    "      ?? (messages as LocaleMap)[fallbackLocale]\n" ++
    "      ?? (messages as LocaleMap)[defaultLocale]\n" ++
    "      ?? key;\n" ++
    "  \x7d\n  return result;\n\x7d\n"
  { filePath := "i18n.ts"
    content := content
    types := ["validationMessages", "getMessage", "getMessages"]
    overwrite := true }

/-- The entity names the index barrel re-exports model entries for: every
non-enum, non-hidden schema, in collection order (the skip pattern of each
model-export loop in `generateIndexFile`). -/
def indexModelExports (schemas : List Schema) : List String :=
  (visibleSchemas schemas).map Schema.name

/-- `generateIndexFile` from `generator.ts`. -/
def generateIndexFile (schemas : List Schema) (enums : List TSEnum)
    (pluginEnums : List TSEnum) (typeAliases : List TSTypeAlias)
    (options : GenOptions) : GeneratedFile :=
  let ext := getImportExt options
  let isNodeModulesBase := (options.baseImportPath.map (String.startsWith · "@")).getD false
  let commonImportPath :=
    if isNodeModulesBase then (options.baseImportPath.getD "") ++ "/common" else "./common"
  let i18nImportPath :=
    if isNodeModulesBase then (options.baseImportPath.getD "") ++ "/i18n" else "./i18n"
  let headPart :=
    generateBaseHeader ++
    "// Common Types\n" ++
    "export type \x7b LocaleMap, Locale, ValidationRule, DateTimeString, DateString \x7d from '" ++
      commonImportPath ++ ext ++ "';\n\n" ++
    "// i18n (Internationalization)\n" ++
    "export \x7b\n  defaultLocale,\n  fallbackLocale,\n  supportedLocales,\n" ++
    "  validationMessages,\n  getMessage,\n  getMessages,\n\x7d from '" ++
      i18nImportPath ++ ext ++ "';\n\n"
  let enumPfx := (options.enumImportPath).getD "./enum"
  let schemaEnumsPart :=
    if enums.length > 0 then
      "// Schema Enums\n" ++
      String.join (enums.map fun enumDef =>
        "export \x7b\n  " ++ enumDef.name ++ ",\n  " ++ enumDef.name ++ "Values,\n  is" ++
          enumDef.name ++ ",\n  get" ++ enumDef.name ++ "Label,\n  get" ++ enumDef.name ++
          "Extra,\n\x7d from '" ++ enumPfx ++ "/" ++ enumDef.name ++ ext ++ "';\n") ++ "\n"
    else ""
  let pluginEnumsPart :=
    if pluginEnums.length > 0 then
      let pluginEnumPfx := (options.pluginEnumImportPath).getD (enumPfx ++ "/plugin")
      "// Plugin Enums\n" ++
      String.join (pluginEnums.map fun enumDef =>
        "export \x7b\n  " ++ enumDef.name ++ ",\n  " ++ enumDef.name ++ "Values,\n  is" ++
          enumDef.name ++ ",\n  get" ++ enumDef.name ++ "Label,\n  get" ++ enumDef.name ++
          "Extra,\n\x7d from '" ++ pluginEnumPfx ++ "/" ++ enumDef.name ++ ext ++ "';\n") ++ "\n"
    else ""
  let aliasesPart :=
    if typeAliases.length > 0 then
      "// Inline Enums (Type Aliases)\n" ++
      String.join (typeAliases.map fun a =>
        "export \x7b\n  type " ++ a.name ++ ",\n  " ++ a.name ++ "Values,\n  is" ++
          a.name ++ ",\n  get" ++ a.name ++ "Label,\n  get" ++ a.name ++
          "Extra,\n\x7d from '" ++ enumPfx ++ "/" ++ a.name ++ ext ++ "';\n") ++ "\n"
    else ""
  let modelsPart :=
    if optTrue options.generateZodSchemas then
      "// Models (with Zod schemas, i18n, and Create/Update types)\n" ++
      String.join ((indexModelExports schemas).map fun name =>
        let lowerName := lowerFirst name
        "export type \x7b " ++ name ++ ", " ++ name ++ "Create, " ++ name ++
          "Update \x7d from './" ++ name ++ ext ++ "';\n" ++
        "export \x7b\n  " ++ lowerName ++ "Schemas,\n  " ++ lowerName ++ "CreateSchema,\n  " ++
          lowerName ++ "UpdateSchema,\n  " ++ lowerName ++ "I18n,\n  get" ++ name ++
          "Label,\n  get" ++ name ++ "FieldLabel,\n  get" ++ name ++
          "FieldPlaceholder,\n\x7d from './" ++ name ++ ext ++ "';\n")
    else
      let basePfx := (options.baseImportPath).getD "./base"
      "// Models (with Create/Update utility types)\n" ++
      String.join ((indexModelExports schemas).map fun name =>
        "export type \x7b " ++ name ++ " \x7d from './" ++ name ++ ext ++ "';\n" ++
        "export type \x7b " ++ name ++ "Create, " ++ name ++ "Update \x7d from '" ++
          basePfx ++ "/" ++ name ++ ext ++ "';\n") ++
      (if optTrue options.generateRules then
        "\n// Validation Rules\n" ++
        String.join ((indexModelExports schemas).map fun name =>
          "export \x7b\n  get" ++ name ++ "Rules,\n  get" ++ name ++ "DisplayName,\n  get" ++
            name ++ "PropertyDisplayName,\n\x7d from './rules/" ++ name ++ ".rules" ++ ext ++ "';\n")
      else "")
  { filePath := "index.ts"
    content := headPart ++ schemaEnumsPart ++ pluginEnumsPart ++ aliasesPart ++ modelsPart
    types := []
    overwrite := true }

/-- `schema.relativePath ?? schema.filePath`, the source path reported for a
schema in collision errors. -/
def pathOf (s : Schema) : Option String :=
  (s.relativePath).orElse fun _ => s.filePath

/-- Append a path under a name in the `schemasByName` map, preserving the
`Map`'s first-insertion key order. -/
def upsertPath (m : List (String × List (Option String))) (k : String) (v : Option String) :
    List (String × List (Option String)) :=
  match m with
  | [] => [(k, [v])]
  | (k', vs) :: rest =>
    if k' == k then (k', vs ++ [v]) :: rest else (k', vs) :: upsertPath rest k v

/-- The `schemasByName` map of `generateTypeScript`: every schema's source
path grouped by `schema.name`. -/
def collectPaths (schemas : List Schema) : List (String × List (Option String)) :=
  schemas.foldl (fun m s => upsertPath m s.name (pathOf s)) []

/-- How many schemas of the collection carry the given name. -/
def countName (schemas : List Schema) (name : String) : Nat :=
  schemas.countP fun s => s.name == name

/-- The source paths of the schemas carrying the given name, in collection
order. -/
def pathsFor (schemas : List Schema) (name : String) : List (Option String) :=
  (schemas.filter fun s => s.name == name).map pathOf

/-- `opts.pluginEnums.has(name)`. -/
def pluginHas (opts : GenOptions) (name : String) : Bool :=
  match opts.pluginEnums with
  | some l => l.any fun kv => kv.1 == name
  | none => false

/-- The aggregated schema-enum/plugin-enum conflict list of
`generateTypeScript`: one entry per enum schema whose name a plugin enum also
uses. -/
def pluginConflicts (schemas : List Schema) (opts : GenOptions) : List (String × Option String) :=
  (schemas.filter fun s => s.kind == "enum" && pluginHas opts s.name).map fun s =>
    (s.name, pathOf s)

/-- A `for` loop pushing the results of a throwing producer: the first error
propagates, otherwise the collected list is returned in order. -/
def mapFilesExcept {α β ε : Type} (f : α → Except ε β) : List α → Except ε (List β)
  | [] => .ok []
  | a :: rest =>
    match f a with
    | .error e => .error e
    | .ok b =>
      match mapFilesExcept f rest with
      | .error e => .error e
      | .ok bs => .ok (b :: bs)

/-- The schema enum files of a run. -/
def enumFilesOf (schemas : List Schema) (opts : GenOptions) : List GeneratedFile :=
  (generateEnums schemas opts).map fun e => generateEnumFile e false

/-- The plugin enum files of a run (emitted only when plugin enums exist). -/
def pluginEnumFilesOf (opts : GenOptions) : List GeneratedFile :=
  if (opts.pluginEnums.getD []).length > 0 then
    (generatePluginEnums (opts.pluginEnums.getD []) opts).map fun e => generateEnumFile e true
  else []

/-- The inline enum/alias files of a run, in extraction order. -/
def inlineFilesOf (schemas : List Schema) (opts : GenOptions) : List GeneratedFile :=
  (extractInlineEnums schemas opts).map fun item =>
    match item with
    | .enumDef e => generateEnumFile e false
    | .typeAlias a => generateTypeAliasFile a

/-- The model files of a run, one per visible schema. -/
def modelFilesOf (schemas : List Schema) (opts : GenOptions) : List GeneratedFile :=
  (visibleSchemas schemas).map fun s => generateModelFile s.name opts

/-- The legacy rules files of a run (only without Zod schemas and with
`generateRules`). -/
def rulesFilesOf (schemas : List Schema) (opts : GenOptions) : List GeneratedFile :=
  if !(optTrue opts.generateZodSchemas) && optTrue opts.generateRules then
    generateRulesFiles schemas opts
  else []

/-- The trailing shared files of a run: `common.ts`, `i18n.ts`, `index.ts`. -/
def trailingFilesOf (schemas : List Schema) (opts : GenOptions) : List GeneratedFile :=
  let inlineEnums := extractInlineEnums schemas opts
  let enumsAll := generateEnums schemas opts ++ inlineEnums.filterMap fun item =>
    match item with
    | .enumDef e => some e
    | .typeAlias _ => none
  let inlineTypeAliases := inlineEnums.filterMap fun item =>
    match item with
    | .enumDef _ => none
    | .typeAlias a => some a
  let pluginEnumsList :=
    match opts.pluginEnums with
    | some pes => generatePluginEnums pes opts
    | none => []
  [generateCommonFile opts, generateI18nFile opts,
   generateIndexFile schemas enumsAll pluginEnumsList inlineTypeAliases opts]

/-- The post-check body of `generateTypeScript`: the file list in source push
order — schema enum files, plugin enum files, inline enum/alias files, base
files, model files, optional legacy rules files, then `common.ts`, `i18n.ts`
and `index.ts`. Only the base-file producer can throw. -/
def planFiles (schemas : List Schema) (opts : GenOptions) :
    Except GenError (List GeneratedFile) :=
  match mapFilesExcept (fun s => generateBaseInterfaceFile s.name schemas opts)
      (visibleSchemas schemas) with
  | .error e => .error e
  | .ok baseFiles =>
    .ok (enumFilesOf schemas opts ++ pluginEnumFilesOf opts ++ inlineFilesOf schemas opts ++
      baseFiles ++ modelFilesOf schemas opts ++ rulesFilesOf schemas opts ++
      trailingFilesOf schemas opts)

/-- `generateTypeScript` from `generator.ts`: the whole file-planning run.
Fatal collisions abort with zero files (`Except.error`), reported with every
offending name; otherwise `planFiles` emits the list. -/
def generateTypeScript (schemas : List Schema) (options : GenOptions) :
    Except GenError (List GeneratedFile) :=
  let opts := mergeDefaults options
  let duplicateSchemas := (collectPaths schemas).filter fun e => e.2.length > 1
  if duplicateSchemas.length > 0 then .error (.duplicateNames duplicateSchemas)
  else
    let conflicts := pluginConflicts schemas opts
    if (opts.pluginEnums.getD []).length > 0 && conflicts.length > 0 then
      .error (.pluginEnumConflict conflicts)
    else planFiles schemas opts

/-- The names of the inline enum/alias types a run extracts (used to state the
inline-collision claims). -/
def inlineEnumNames (schemas : List Schema) (options : GenOptions) : List String :=
  (extractInlineEnums schemas options).map fun item =>
    match item with
    | .enumDef e => e.name
    | .typeAlias a => a.name

/-- Whether a run fails (throws) rather than emitting files. -/
def exceptIsError {ε α : Type} : Except ε α → Bool
  | .error _ => true
  | .ok _ => false

instance {ε α : Type} [DecidableEq ε] [DecidableEq α] : DecidableEq (Except ε α) :=
  fun a b =>
    match a, b with
    | .error x, .error y =>
      if h : x = y then .isTrue (by rw [h]) else .isFalse (by intro hc; cases hc; exact h rfl)
    | .ok x, .ok y =>
      if h : x = y then .isTrue (by rw [h]) else .isFalse (by intro hc; cases hc; exact h rfl)
    | .error _, .ok _ => .isFalse (by intro hc; cases hc)
    | .ok _, .error _ => .isFalse (by intro hc; cases hc)

/-- Example input: a plain visible object schema. -/
def exUser : Schema :=
  { name := "User", kind := "object", filePath := some "/schemas/user.yaml"
    properties := [("name", { type := "String" })] }

/-- Example input: an object schema marked hidden. -/
def exSecret : Schema :=
  { name := "Secret", kind := "object", filePath := some "/schemas/secret.yaml"
    options := some { hidden := some true } }

/-- Example input: a second visible object schema. -/
def exPost : Schema :=
  { name := "Post", kind := "object", filePath := some "/schemas/post.yaml"
    properties := [("title", { type := "String" })] }

/-- Example input: a second schema also named `User`, from another file. -/
def exUserB : Schema :=
  { name := "User", kind := "object", filePath := some "/other/user.yaml" }

/-- Example input: an object schema whose `status` property is an inline enum,
so the extracted type name is `TaskStatus`. -/
def exTask : Schema :=
  { name := "Task", kind := "object", filePath := some "/schemas/task.yaml"
    properties := [("status", { type := "Enum", enum := some (.values [.str "a", .str "b"]) })] }

/-- Example input: a schema enum also named `TaskStatus`. -/
def exTaskStatusEnum : Schema :=
  { name := "TaskStatus", kind := "enum", filePath := some "/schemas/task-status.yaml"
    values := some [.str "x"] }

/-- Example input: a morph-to association with two targets (the spec's
`commentable` scenario). -/
def exMorphProp : Property :=
  { type := "Association", relation := some "MorphTo", targets := some ["Post", "Video"] }

/-- Example input: a morph-to association with an empty target list. -/
def exMorphNoTargets : Property :=
  { type := "Association", relation := some "MorphTo", targets := some [] }

/-- Example input: a compound custom type with two expansion entries (one with
a camel-case suffix) and one accessor. -/
def exAddressType : CustomType :=
  { compound := true
    expand := some [{ suffix := "postalCode" }, { suffix := "line1", sqlNullable := some true }]
    accessors := some [{ name := "full" }] }

/-- Example input: options registering the compound `Address` type. -/
def exAddressOptions : GenOptions :=
  { customTypes := some [("Address", exAddressType)] }

/-- Example input: a property of the compound `Address` type. -/
def exAddrProp : Property :=
  { type := "Address", nullable := some false }

/-- Example input: a nullable string property carrying a top-level pattern. -/
def exPatternNullableProp : Property :=
  { type := "String", nullable := some true, pattern := some "abc" }

/-- Example input: a nullable string property without a pattern. -/
def exPlainNullableProp : Property :=
  { type := "String", nullable := some true }

/-- Example input: a string rules bag with both `url` and `uuid` set. -/
def exUrlUuidRules : RulesBag :=
  { url := true, uuid := true, minLength := some 5 }

/-- The name an inline-enum extraction entry introduces. -/
def inlineItemName : InlineEnumResult → String
  | .enumDef e => e.name
  | .typeAlias a => a.name

/-- The input is free of `/` in every name that flows into an emitted file
path: schema names, property names (inline enum type names are built from
them) and plugin enum names. -/
def NoSlashInput (schemas : List Schema) (options : GenOptions) : Prop :=
  (∀ s ∈ schemas, noSlashStr s.name = true ∧ ∀ pr ∈ s.properties, noSlashStr pr.1 = true) ∧
  (∀ pe ∈ options.pluginEnums.getD [], noSlashStr pe.2.name = true)

instance (schemas : List Schema) (options : GenOptions) :
    Decidable (NoSlashInput schemas options) := by
  unfold NoSlashInput
  infer_instance

/-- Some enum schema's name collides with a plugin enum's map key (the
collision class the second fatal check detects). -/
def HasPluginConflict (schemas : List Schema) (options : GenOptions) : Prop :=
  ∃ s ∈ schemas, s.kind = "enum" ∧ pluginHas options s.name = true

/-- The thrown error is one aggregated report of its collision class: a
duplicate-name error lists exactly the names carried by two or more schemas,
each with all its source paths in collection order; a plugin-enum conflict
error lists exactly the enum schemas whose name a plugin enum also uses. -/
def fatalReportComplete (schemas : List Schema) (options : GenOptions) : GenError → Prop
  | .duplicateNames dups =>
    (∀ name, (∃ ps, (name, ps) ∈ dups) ↔ 2 ≤ countName schemas name) ∧
    (∀ name ps, (name, ps) ∈ dups → ps = pathsFor schemas name)
  | .pluginEnumConflict cs =>
    cs ≠ [] ∧ ∀ entry, entry ∈ cs ↔
      ∃ s ∈ schemas, s.kind = "enum" ∧ pluginHas options s.name = true ∧
        entry = (s.name, pathOf s)
  | .interfaceNotFound _ => False

/-- The emitted file list of a successful run (`[]` when the run throws); used
to instantiate run-level statements on concrete inputs. -/
def okFilesOf (r : Except GenError (List GeneratedFile)) : List GeneratedFile :=
  r.toOption.getD []

/-- A legal TypeScript identifier of the shape the member-naming claim
describes: a letter or underscore followed by ASCII alphanumerics only. -/
def isLegalIdent (s : String) : Bool :=
  match s.toList with
  | [] => false
  | c :: rest => (c.isAlpha || c = '_') && rest.all Char.isAlphanum

/-!
The theorems: supporting lemmas first, then one theorem per claim with its
witness and, for a corrected claim, its counterexample.
-/

theorem lookupAssoc_upsertPath (m : List (String × List (Option String))) (k : String)
    (v : Option String) (q : String) :
    lookupAssoc (upsertPath m k v) q =
      if q = k then some (((lookupAssoc m k).getD []) ++ [v]) else lookupAssoc m q := by
  induction m with
  | nil =>
    by_cases h : q = k
    · subst h; simp [upsertPath, lookupAssoc]
    · have h' : ¬(k = q) := fun hh => h hh.symm
      simp [upsertPath, lookupAssoc, h, h']
  | cons hd tl ih =>
    obtain ⟨k', vs⟩ := hd
    by_cases hk : k' = k
    · subst hk
      by_cases hq : q = k'
      · subst hq; simp [upsertPath, lookupAssoc]
      · have hq' : ¬(k' = q) := fun hh => hq hh.symm
        simp [upsertPath, lookupAssoc, hq, hq']
    · by_cases hq : q = k'
      · subst hq
        have hqk : ¬(q = k) := hk
        simp [upsertPath, lookupAssoc, hk, hqk]
      · have hq' : ¬(k' = q) := fun hh => hq hh.symm
        simp [upsertPath, lookupAssoc, hk, hq, hq', ih]

theorem countName_cons (s : Schema) (rest : List Schema) (q : String) :
    countName (s :: rest) q = (if s.name = q then 1 else 0) + countName rest q := by
  by_cases h : s.name = q
  · simp only [countName, List.countP_cons, h, if_pos rfl]
    simp
    omega
  · simp [countName, List.countP_cons, h]

theorem pathsFor_cons (s : Schema) (rest : List Schema) (q : String) :
    pathsFor (s :: rest) q =
      if s.name = q then pathOf s :: pathsFor rest q else pathsFor rest q := by
  by_cases h : s.name = q <;> simp [pathsFor, h]

theorem lookupAssoc_foldl_upsert (schemas : List Schema)
    (m : List (String × List (Option String))) (q : String) :
    lookupAssoc (schemas.foldl (fun m s => upsertPath m s.name (pathOf s)) m) q =
      match lookupAssoc m q with
      | some vs => some (vs ++ pathsFor schemas q)
      | none => if countName schemas q = 0 then none else some (pathsFor schemas q) := by
  induction schemas generalizing m with
  | nil =>
    cases h : lookupAssoc m q <;> simp [pathsFor, countName, h]
  | cons s rest ih =>
    simp only [List.foldl_cons]
    rw [ih]
    rw [lookupAssoc_upsertPath]
    by_cases hq : q = s.name
    · subst hq
      rw [pathsFor_cons, countName_cons]
      simp only [if_pos rfl]
      cases h : lookupAssoc m s.name <;> simp [h]
    · have hns : ¬(s.name = q) := fun hh => hq hh.symm
      rw [pathsFor_cons, countName_cons]
      simp only [if_neg hq, if_neg hns]
      cases h : lookupAssoc m q <;> simp [h]

theorem lookupAssoc_collectPaths (schemas : List Schema) (q : String) :
    lookupAssoc (collectPaths schemas) q =
      if countName schemas q = 0 then none else some (pathsFor schemas q) := by
  unfold collectPaths
  rw [lookupAssoc_foldl_upsert]
  simp [lookupAssoc]

theorem length_pathsFor (schemas : List Schema) (q : String) :
    (pathsFor schemas q).length = countName schemas q := by
  simp [pathsFor, countName, List.countP_eq_length_filter]

theorem mem_of_lookupAssoc {α : Type} {m : List (String × α)} {q : String} {v : α}
    (h : lookupAssoc m q = some v) : (q, v) ∈ m := by
  induction m with
  | nil => simp [lookupAssoc] at h
  | cons hd tl ih =>
    obtain ⟨k, w⟩ := hd
    by_cases hk : k = q
    · subst hk
      simp [lookupAssoc] at h
      simp [h]
    · simp [lookupAssoc, hk] at h
      exact List.mem_cons_of_mem _ (ih h)

theorem not_mem_keys_of_lookupAssoc_none {α : Type} {m : List (String × α)} {k : String}
    (h : lookupAssoc m k = none) : k ∉ m.map Prod.fst := by
  induction m with
  | nil => simp
  | cons hd tl ih =>
    obtain ⟨k', v⟩ := hd
    by_cases hk : k' = k
    · subst hk; simp [lookupAssoc] at h
    · simp [lookupAssoc, hk] at h
      have hne : ¬(k = k') := fun hh => hk hh.symm
      simp [ih h, hne]

theorem keys_upsertPath (m : List (String × List (Option String))) (k : String)
    (v : Option String) :
    (upsertPath m k v).map Prod.fst = m.map Prod.fst ∨
      (upsertPath m k v).map Prod.fst = m.map Prod.fst ++ [k] := by
  induction m with
  | nil => right; simp [upsertPath]
  | cons hd tl ih =>
    obtain ⟨k', vs⟩ := hd
    by_cases hk : k' = k
    · left; simp [upsertPath, hk]
    · rcases ih with h | h
      · left; simp [upsertPath, hk, h]
      · right; simp [upsertPath, hk, h]

theorem keysNodup_upsertPath {m : List (String × List (Option String))} {k : String}
    {v : Option String} (hn : (m.map Prod.fst).Nodup) :
    ((upsertPath m k v).map Prod.fst).Nodup := by
  induction m with
  | nil => simp [upsertPath]
  | cons hd tl ih =>
    obtain ⟨k', vs⟩ := hd
    simp only [List.map_cons, List.nodup_cons] at hn
    by_cases hk : k' = k
    · subst hk
      simp only [upsertPath, beq_self_eq_true, if_pos rfl]
      simp [List.nodup_cons, hn.1, hn.2]
    · have heq : (upsertPath ((k', vs) :: tl) k v) = (k', vs) :: upsertPath tl k v := by
        simp [upsertPath, hk]
      rw [heq]
      simp only [List.map_cons, List.nodup_cons]
      refine ⟨?_, ih hn.2⟩
      rcases keys_upsertPath tl k v with h | h
      · rw [h]; exact hn.1
      · rw [h]
        intro hmem
        rcases List.mem_append.mp hmem with h1 | h1
        · exact hn.1 h1
        · simp at h1; exact hk h1

theorem keysNodup_collectPaths (schemas : List Schema) :
    ((collectPaths schemas).map Prod.fst).Nodup := by
  unfold collectPaths
  have : ∀ (l : List Schema) (m : List (String × List (Option String))),
      (m.map Prod.fst).Nodup →
      ((l.foldl (fun m s => upsertPath m s.name (pathOf s)) m).map Prod.fst).Nodup := by
    intro l
    induction l with
    | nil => intro m hm; simpa using hm
    | cons s rest ih =>
      intro m hm
      simp only [List.foldl_cons]
      exact ih _ (keysNodup_upsertPath hm)
  exact this schemas [] (by simp)

theorem lookupAssoc_of_mem {α : Type} {m : List (String × α)} {q : String} {v : α}
    (hn : (m.map Prod.fst).Nodup) (h : (q, v) ∈ m) : lookupAssoc m q = some v := by
  induction m with
  | nil => simp at h
  | cons hd tl ih =>
    obtain ⟨k, w⟩ := hd
    simp only [List.map_cons, List.nodup_cons] at hn
    rcases List.mem_cons.mp h with h1 | h1
    · cases h1
      simp [lookupAssoc]
    · have hk : ¬(k = q) := by
        intro hh
        subst hh
        exact hn.1 (by simpa using List.mem_map_of_mem Prod.fst h1)
      simp [lookupAssoc, hk]
      exact ih hn.2 h1

theorem countName_le_one_of_no_dups {schemas : List Schema}
    (h : ((collectPaths schemas).filter fun e => e.2.length > 1) = []) (q : String) :
    countName schemas q ≤ 1 := by
  by_contra hgt
  push_neg at hgt
  have hne : countName schemas q ≠ 0 := by omega
  have hl := lookupAssoc_collectPaths schemas q
  rw [if_neg hne] at hl
  have hmem := mem_of_lookupAssoc hl
  have hlen : (pathsFor schemas q).length > 1 := by
    rw [length_pathsFor]; omega
  have : (q, pathsFor schemas q) ∈ (collectPaths schemas).filter fun e => e.2.length > 1 := by
    rw [List.mem_filter]
    exact ⟨hmem, by simpa using hlen⟩
  rw [h] at this
  simp at this

theorem names_nodup_of_no_dups {schemas : List Schema}
    (h : ((collectPaths schemas).filter fun e => e.2.length > 1) = []) :
    (schemas.map Schema.name).Nodup := by
  rw [List.nodup_iff_count_le_one]
  intro a
  have := countName_le_one_of_no_dups h a
  unfold countName at this
  calc (schemas.map Schema.name).count a = (schemas.map Schema.name).countP (· == a) := rfl
    _ = schemas.countP (fun s => s.name == a) := by rw [List.countP_map]; rfl
    _ ≤ 1 := this

theorem mapFilesExcept_ok_of_forall {α β ε : Type} {f : α → Except ε β} {l : List α}
    (h : ∀ a ∈ l, ∃ b, f a = .ok b) : ∃ ys, mapFilesExcept f l = .ok ys := by
  induction l with
  | nil => exact ⟨[], rfl⟩
  | cons a rest ih =>
    obtain ⟨b, hb⟩ := h a (List.mem_cons_self a rest)
    obtain ⟨ys, hys⟩ := ih fun x hx => h x (List.mem_cons_of_mem _ hx)
    exact ⟨b :: ys, by simp [mapFilesExcept, hb, hys]⟩

theorem forall₂_of_mapFilesExcept_ok {α β ε : Type} {f : α → Except ε β} {l : List α}
    {ys : List β} (h : mapFilesExcept f l = .ok ys) :
    List.Forall₂ (fun a b => f a = .ok b) l ys := by
  induction l generalizing ys with
  | nil =>
    simp [mapFilesExcept] at h
    subst h
    exact List.Forall₂.nil
  | cons a rest ih =>
    unfold mapFilesExcept at h
    cases hfa : f a with
    | error e => rw [hfa] at h; cases h
    | ok b =>
      rw [hfa] at h
      cases hrest : mapFilesExcept f rest with
      | error e => rw [hrest] at h; cases h
      | ok bs =>
        rw [hrest] at h
        cases h
        exact List.Forall₂.cons hfa (ih hrest)

theorem countP_eq_of_forall₂ {α β : Type} {R : α → β → Prop} {l : List α} {ys : List β}
    (h : List.Forall₂ R l ys) (q : β → Bool) (r : α → Bool)
    (hqr : ∀ a b, R a b → q b = r a) : ys.countP q = l.countP r := by
  induction h with
  | nil => rfl
  | cons hab htl ih =>
    rw [List.countP_cons, List.countP_cons, ih, hqr _ _ hab]

theorem schemaToInterface_name (schema : Schema) (allSchemas : List Schema)
    (options : GenOptions) : (schemaToInterface schema allSchemas options).name = schema.name :=
  rfl

theorem generateBaseInterfaceFile_ok {s : Schema} {schemas : List Schema} (opts : GenOptions)
    (hs : s ∈ visibleSchemas schemas) :
    ∃ content,
      generateBaseInterfaceFile s.name schemas opts =
        .ok { filePath := "base/" ++ s.name ++ ".ts", content := content
              types := [s.name, s.name ++ "Create", s.name ++ "Update"]
              overwrite := true, category := some "base" } := by
  have hmem : s ∈ schemas := List.mem_of_mem_filter hs
  have hiface : ∃ i, (generateInterfaces schemas opts).find? (fun i => i.name == s.name) = some i := by
    have : ((generateInterfaces schemas opts).find? (fun i => i.name == s.name)).isSome := by
      rw [List.find?_isSome]
      refine ⟨schemaToInterface s schemas opts, ?_, ?_⟩
      · exact List.mem_map_of_mem _ hs
      · simp [schemaToInterface_name]
    exact Option.isSome_iff_exists.mp this
  have hschema : ∃ sc, schemas.find? (fun sc => sc.name == s.name) = some sc := by
    have : (schemas.find? (fun sc => sc.name == s.name)).isSome := by
      rw [List.find?_isSome]
      exact ⟨s, hmem, by simp⟩
    exact Option.isSome_iff_exists.mp this
  obtain ⟨iface, hif⟩ := hiface
  obtain ⟨sc, hsc⟩ := hschema
  apply Exists.intro
  unfold generateBaseInterfaceFile
  simp only [hif, hsc]
  rfl

theorem jsToUpper_slash {c : Char} (h : jsToUpper c = '/') : c = '/' := by
  unfold jsToUpper at h
  by_cases h0 : c = 'a'
  · rw [if_pos h0] at h; exact absurd h (by decide)
  rw [if_neg h0] at h
  by_cases h1 : c = 'b'
  · rw [if_pos h1] at h; exact absurd h (by decide)
  rw [if_neg h1] at h
  by_cases h2 : c = 'c'
  · rw [if_pos h2] at h; exact absurd h (by decide)
  rw [if_neg h2] at h
  by_cases h3 : c = 'd'
  · rw [if_pos h3] at h; exact absurd h (by decide)
  rw [if_neg h3] at h
  by_cases h4 : c = 'e'
  · rw [if_pos h4] at h; exact absurd h (by decide)
  rw [if_neg h4] at h
  by_cases h5 : c = 'f'
  · rw [if_pos h5] at h; exact absurd h (by decide)
  rw [if_neg h5] at h
  by_cases h6 : c = 'g'
  · rw [if_pos h6] at h; exact absurd h (by decide)
  rw [if_neg h6] at h
  by_cases h7 : c = 'h'
  · rw [if_pos h7] at h; exact absurd h (by decide)
  rw [if_neg h7] at h
  by_cases h8 : c = 'i'
  · rw [if_pos h8] at h; exact absurd h (by decide)
  rw [if_neg h8] at h
  by_cases h9 : c = 'j'
  · rw [if_pos h9] at h; exact absurd h (by decide)
  rw [if_neg h9] at h
  by_cases h10 : c = 'k'
  · rw [if_pos h10] at h; exact absurd h (by decide)
  rw [if_neg h10] at h
  by_cases h11 : c = 'l'
  · rw [if_pos h11] at h; exact absurd h (by decide)
  rw [if_neg h11] at h
  by_cases h12 : c = 'm'
  · rw [if_pos h12] at h; exact absurd h (by decide)
  rw [if_neg h12] at h
  by_cases h13 : c = 'n'
  · rw [if_pos h13] at h; exact absurd h (by decide)
  rw [if_neg h13] at h
  by_cases h14 : c = 'o'
  · rw [if_pos h14] at h; exact absurd h (by decide)
  rw [if_neg h14] at h
  by_cases h15 : c = 'p'
  · rw [if_pos h15] at h; exact absurd h (by decide)
  rw [if_neg h15] at h
  by_cases h16 : c = 'q'
  · rw [if_pos h16] at h; exact absurd h (by decide)
  rw [if_neg h16] at h
  by_cases h17 : c = 'r'
  · rw [if_pos h17] at h; exact absurd h (by decide)
  rw [if_neg h17] at h
  by_cases h18 : c = 's'
  · rw [if_pos h18] at h; exact absurd h (by decide)
  rw [if_neg h18] at h
  by_cases h19 : c = 't'
  · rw [if_pos h19] at h; exact absurd h (by decide)
  rw [if_neg h19] at h
  by_cases h20 : c = 'u'
  · rw [if_pos h20] at h; exact absurd h (by decide)
  rw [if_neg h20] at h
  by_cases h21 : c = 'v'
  · rw [if_pos h21] at h; exact absurd h (by decide)
  rw [if_neg h21] at h
  by_cases h22 : c = 'w'
  · rw [if_pos h22] at h; exact absurd h (by decide)
  rw [if_neg h22] at h
  by_cases h23 : c = 'x'
  · rw [if_pos h23] at h; exact absurd h (by decide)
  rw [if_neg h23] at h
  by_cases h24 : c = 'y'
  · rw [if_pos h24] at h; exact absurd h (by decide)
  rw [if_neg h24] at h
  by_cases h25 : c = 'z'
  · rw [if_pos h25] at h; exact absurd h (by decide)
  rw [if_neg h25] at h
  exact h

theorem jsToLower_slash {c : Char} (h : jsToLower c = '/') : c = '/' := by
  unfold jsToLower at h
  by_cases h0 : c = 'A'
  · rw [if_pos h0] at h; exact absurd h (by decide)
  rw [if_neg h0] at h
  by_cases h1 : c = 'B'
  · rw [if_pos h1] at h; exact absurd h (by decide)
  rw [if_neg h1] at h
  by_cases h2 : c = 'C'
  · rw [if_pos h2] at h; exact absurd h (by decide)
  rw [if_neg h2] at h
  by_cases h3 : c = 'D'
  · rw [if_pos h3] at h; exact absurd h (by decide)
  rw [if_neg h3] at h
  by_cases h4 : c = 'E'
  · rw [if_pos h4] at h; exact absurd h (by decide)
  rw [if_neg h4] at h
  by_cases h5 : c = 'F'
  · rw [if_pos h5] at h; exact absurd h (by decide)
  rw [if_neg h5] at h
  by_cases h6 : c = 'G'
  · rw [if_pos h6] at h; exact absurd h (by decide)
  rw [if_neg h6] at h
  by_cases h7 : c = 'H'
  · rw [if_pos h7] at h; exact absurd h (by decide)
  rw [if_neg h7] at h
  by_cases h8 : c = 'I'
  · rw [if_pos h8] at h; exact absurd h (by decide)
  rw [if_neg h8] at h
  by_cases h9 : c = 'J'
  · rw [if_pos h9] at h; exact absurd h (by decide)
  rw [if_neg h9] at h
  by_cases h10 : c = 'K'
  · rw [if_pos h10] at h; exact absurd h (by decide)
  rw [if_neg h10] at h
  by_cases h11 : c = 'L'
  · rw [if_pos h11] at h; exact absurd h (by decide)
  rw [if_neg h11] at h
  by_cases h12 : c = 'M'
  · rw [if_pos h12] at h; exact absurd h (by decide)
  rw [if_neg h12] at h
  by_cases h13 : c = 'N'
  · rw [if_pos h13] at h; exact absurd h (by decide)
  rw [if_neg h13] at h
  by_cases h14 : c = 'O'
  · rw [if_pos h14] at h; exact absurd h (by decide)
  rw [if_neg h14] at h
  by_cases h15 : c = 'P'
  · rw [if_pos h15] at h; exact absurd h (by decide)
  rw [if_neg h15] at h
  by_cases h16 : c = 'Q'
  · rw [if_pos h16] at h; exact absurd h (by decide)
  rw [if_neg h16] at h
  by_cases h17 : c = 'R'
  · rw [if_pos h17] at h; exact absurd h (by decide)
  rw [if_neg h17] at h
  by_cases h18 : c = 'S'
  · rw [if_pos h18] at h; exact absurd h (by decide)
  rw [if_neg h18] at h
  by_cases h19 : c = 'T'
  · rw [if_pos h19] at h; exact absurd h (by decide)
  rw [if_neg h19] at h
  by_cases h20 : c = 'U'
  · rw [if_pos h20] at h; exact absurd h (by decide)
  rw [if_neg h20] at h
  by_cases h21 : c = 'V'
  · rw [if_pos h21] at h; exact absurd h (by decide)
  rw [if_neg h21] at h
  by_cases h22 : c = 'W'
  · rw [if_pos h22] at h; exact absurd h (by decide)
  rw [if_neg h22] at h
  by_cases h23 : c = 'X'
  · rw [if_pos h23] at h; exact absurd h (by decide)
  rw [if_neg h23] at h
  by_cases h24 : c = 'Y'
  · rw [if_pos h24] at h; exact absurd h (by decide)
  rw [if_neg h24] at h
  by_cases h25 : c = 'Z'
  · rw [if_pos h25] at h; exact absurd h (by decide)
  rw [if_neg h25] at h
  exact h

theorem mem_camelBoundaryIns : ∀ {cs : List Char} {c : Char},
    c ∈ camelBoundaryIns cs → c = '_' ∨ c ∈ cs := by
  intro cs
  induction cs with
  | nil => intro c h; simp [camelBoundaryIns] at h
  | cons a rest ih =>
    intro c h
    cases rest with
    | nil =>
      simp [camelBoundaryIns] at h
      right; simp [h]
    | cons b rest2 =>
      by_cases hc : (a.isLower && b.isUpper) = true
      · simp only [camelBoundaryIns, hc, if_pos] at h
        rcases List.mem_cons.mp h with h1 | h1
        · right; simp [h1]
        · rcases List.mem_cons.mp h1 with h2 | h2
          · left; exact h2
          · rcases ih h2 with h3 | h3
            · left; exact h3
            · right; exact List.mem_cons_of_mem _ h3
      · simp only [camelBoundaryIns, hc, Bool.false_eq_true, if_false] at h
        rcases List.mem_cons.mp h with h1 | h1
        · right; simp [h1]
        · rcases ih h1 with h3 | h3
          · left; exact h3
          · right; exact List.mem_cons_of_mem _ h3

theorem splitSeps_ne_nil (cs : List Char) : splitSeps cs ≠ [] := by
  cases cs with
  | nil => simp [splitSeps]
  | cons a rest =>
    unfold splitSeps
    by_cases h : isSepChar a = true
    · simp [h]
    · simp only [h, Bool.false_eq_true, if_false]
      cases hr : splitSeps rest <;> simp

theorem mem_splitSeps : ∀ {cs : List Char} {w : List Char},
    w ∈ splitSeps cs → ∀ {c : Char}, c ∈ w → c ∈ cs := by
  intro cs
  induction cs with
  | nil =>
    intro w hw c hc
    simp [splitSeps] at hw
    subst hw
    simp at hc
  | cons a rest ih =>
    intro w hw c hc
    by_cases h : isSepChar a = true
    · simp only [splitSeps, h, if_pos] at hw
      rcases List.mem_cons.mp hw with h1 | h1
      · subst h1; simp at hc
      · exact List.mem_cons_of_mem _ (ih h1 hc)
    · simp only [splitSeps, h, Bool.false_eq_true, if_false] at hw
      cases hr : splitSeps rest with
      | nil => exact absurd hr (splitSeps_ne_nil rest)
      | cons w0 ws =>
        rw [hr] at hw
        rcases List.mem_cons.mp hw with h1 | h1
        · subst h1
          rcases List.mem_cons.mp hc with h2 | h2
          · simp [h2]
          · have hw0 : w0 ∈ splitSeps rest := by rw [hr]; exact List.mem_cons_self _ _
            exact List.mem_cons_of_mem _ (ih hw0 h2)
        · have hmem : w ∈ splitSeps rest := by rw [hr]; exact List.mem_cons_of_mem _ h1
          exact List.mem_cons_of_mem _ (ih hmem hc)

theorem mem_capFirstWord {c : Char} {w : List Char} (h : c ∈ capFirstWord w) :
    ∃ c' ∈ w, c = jsToUpper c' ∨ c = jsToLower c' := by
  cases w with
  | nil => simp [capFirstWord] at h
  | cons a rest =>
    simp only [capFirstWord] at h
    rcases List.mem_cons.mp h with h1 | h1
    · exact ⟨a, List.mem_cons_self a rest, Or.inl h1⟩
    · obtain ⟨c', hc', hh⟩ := List.mem_map.mp h1
      exact ⟨c', List.mem_cons_of_mem _ hc', Or.inr hh.symm⟩

theorem noSlash_iff {s : String} : noSlashStr s = true ↔ '/' ∉ s.toList := by
  unfold noSlashStr
  simp

theorem noSlash_toPascalCase {s : String} (h : noSlashStr s = true) :
    noSlashStr (toPascalCase s) = true := by
  rw [noSlash_iff] at h ⊢
  intro hmem
  unfold toPascalCase at hmem
  have hmem' : '/' ∈ ((splitSeps (camelBoundaryIns s.toList)).map capFirstWord).flatten := hmem
  obtain ⟨w, hw, hcw⟩ := List.mem_flatten.mp hmem'
  obtain ⟨w0, hw0, hwEq⟩ := List.mem_map.mp hw
  subst hwEq
  obtain ⟨c', hc', hcase⟩ := mem_capFirstWord hcw
  have hc'slash : c' = '/' := by
    rcases hcase with h1 | h1
    · exact jsToUpper_slash h1.symm
    · exact jsToLower_slash h1.symm
  subst hc'slash
  have : '/' ∈ camelBoundaryIns s.toList := mem_splitSeps hw0 hc'
  rcases mem_camelBoundaryIns this with h1 | h1
  · exact absurd h1 (by decide)
  · exact h h1

theorem noSlash_append {a b : String} (ha : noSlashStr a = true) (hb : noSlashStr b = true) :
    noSlashStr (a ++ b) = true := by
  rw [noSlash_iff] at *
  intro hmem
  have : (a ++ b).toList = a.toList ++ b.toList := String.data_append a b
  rw [this] at hmem
  rcases List.mem_append.mp hmem with h | h
  · exact ha h
  · exact hb h

theorem toList_eq_data (s : String) : s.toList = s.data := rfl

theorem slash_mem_base_path (n : String) : '/' ∈ ("base/" ++ n ++ ".ts").toList := by
  have h1 : ("base/" ++ n ++ ".ts").toList = "base/".toList ++ n.toList ++ ".ts".toList := by
    simp only [toList_eq_data, String.data_append]
  rw [h1]
  apply List.mem_append_left
  apply List.mem_append_left
  decide

theorem ne_base_path_of_noSlash {a : String} (h : noSlashStr a = true) (n : String) :
    a ++ ".ts" ≠ "base/" ++ n ++ ".ts" := by
  intro heq
  have hmem := slash_mem_base_path n
  rw [← heq] at hmem
  have h2 : (a ++ ".ts").toList = a.toList ++ ".ts".toList := String.data_append a ".ts"
  rw [h2] at hmem
  rcases List.mem_append.mp hmem with hh | hh
  · exact (noSlash_iff.mp h) hh
  · simp at hh

theorem dotTs_path_inj {a b : String} (h : a ++ ".ts" = b ++ ".ts") : a = b := by
  have := congrArg String.data h
  rw [String.data_append, String.data_append] at this
  exact String.ext (List.append_cancel_right this)

theorem base_path_inj {a b : String} (h : "base/" ++ a ++ ".ts" = "base/" ++ b ++ ".ts") :
    a = b := by
  have := congrArg String.data h
  rw [String.data_append, String.data_append, String.data_append, String.data_append] at this
  rw [List.append_assoc, List.append_assoc] at this
  have h2 := List.append_cancel_left this
  exact String.ext (List.append_cancel_right h2)

theorem rules_path_head (x : String) :
    ("rules/" ++ x ++ ".rules.ts").data.head? = some 'r' := by
  rw [String.data_append, String.data_append]
  rfl

theorem base_path_head (n : String) : ("base/" ++ n ++ ".ts").data.head? = some 'b' := by
  rw [String.data_append, String.data_append]
  rfl

theorem rules_path_ne_base (x n : String) :
    "rules/" ++ x ++ ".rules.ts" ≠ "base/" ++ n ++ ".ts" := by
  intro h
  have h1 := rules_path_head x
  rw [h, base_path_head] at h1
  cases h1

theorem common_ne_base (n : String) : "common.ts" ≠ "base/" ++ n ++ ".ts" := by
  intro h
  have h1 := base_path_head n
  rw [← h] at h1
  exact absurd h1 (by decide)

theorem i18n_ne_base (n : String) : "i18n.ts" ≠ "base/" ++ n ++ ".ts" := by
  intro h
  have h1 := base_path_head n
  rw [← h] at h1
  exact absurd h1 (by decide)

theorem index_ne_base (n : String) : "index.ts" ≠ "base/" ++ n ++ ".ts" := by
  intro h
  have h1 := base_path_head n
  rw [← h] at h1
  exact absurd h1 (by decide)

theorem generateEnumFile_filePath (e : TSEnum) (b : Bool) :
    (generateEnumFile e b).filePath = e.name ++ ".ts" := rfl

theorem generateEnumFile_overwrite (e : TSEnum) (b : Bool) :
    (generateEnumFile e b).overwrite = true := rfl

theorem generateTypeAliasFile_filePath (a : TSTypeAlias) :
    (generateTypeAliasFile a).filePath = a.name ++ ".ts" := rfl

theorem generateTypeAliasFile_overwrite (a : TSTypeAlias) :
    (generateTypeAliasFile a).overwrite = true := rfl

theorem generateModelFile_filePath (n : String) (opts : GenOptions) :
    (generateModelFile n opts).filePath = n ++ ".ts" := by
  simp only [generateModelFile]
  split <;> rfl

theorem generateModelFile_overwrite (n : String) (opts : GenOptions) :
    (generateModelFile n opts).overwrite = false := by
  simp only [generateModelFile]
  split <;> rfl

theorem generateCommonFile_filePath (opts : GenOptions) :
    (generateCommonFile opts).filePath = "common.ts" := rfl

theorem generateCommonFile_overwrite (opts : GenOptions) :
    (generateCommonFile opts).overwrite = true := rfl

theorem generateI18nFile_filePath (opts : GenOptions) :
    (generateI18nFile opts).filePath = "i18n.ts" := rfl

theorem generateI18nFile_overwrite (opts : GenOptions) :
    (generateI18nFile opts).overwrite = true := rfl

theorem generateIndexFile_filePath (schemas : List Schema) (enums pluginEnums : List TSEnum)
    (typeAliases : List TSTypeAlias) (opts : GenOptions) :
    (generateIndexFile schemas enums pluginEnums typeAliases opts).filePath = "index.ts" := rfl

theorem generateIndexFile_overwrite (schemas : List Schema) (enums pluginEnums : List TSEnum)
    (typeAliases : List TSTypeAlias) (opts : GenOptions) :
    (generateIndexFile schemas enums pluginEnums typeAliases opts).overwrite = true := rfl

theorem pluginEnumToTSEnum_name (d : PluginEnumDef) (opts : GenOptions) :
    (pluginEnumToTSEnum d opts).name = d.name := rfl

theorem mem_generateEnums_name {e : TSEnum} {schemas : List Schema} {opts : GenOptions}
    (h : e ∈ generateEnums schemas opts) :
    ∃ s ∈ schemas, s.kind = "enum" ∧ e.name = s.name := by
  unfold generateEnums at h
  obtain ⟨s, hs, hsome⟩ := List.mem_filterMap.mp h
  refine ⟨s, hs, ?_⟩
  by_cases hk : (s.kind == "enum") = true
  · refine ⟨eq_of_beq hk, ?_⟩
    rw [if_pos hk] at hsome
    unfold schemaToEnum at hsome
    rw [if_pos hk] at hsome
    cases hv : s.values with
    | none => rw [hv] at hsome; cases hsome
    | some vals =>
      rw [hv] at hsome
      cases hsome
      rfl
  · rw [if_neg hk] at hsome
    cases hsome

theorem mem_extractInlineEnums_name {item : InlineEnumResult} {schemas : List Schema}
    {opts : GenOptions} (h : item ∈ extractInlineEnums schemas opts) :
    ∃ s ∈ schemas, ∃ pr ∈ s.properties,
      inlineItemName item = s.name ++ toPascalCase pr.1 := by
  unfold extractInlineEnums at h
  obtain ⟨s, hs, hin⟩ := List.mem_flatMap.mp h
  refine ⟨s, hs, ?_⟩
  by_cases hk : (s.kind == "enum") = true
  · rw [if_pos hk] at hin
    simp at hin
  · rw [if_neg hk] at hin
    obtain ⟨pr, hpr, hin2⟩ := List.mem_flatMap.mp hin
    refine ⟨pr, hpr, ?_⟩
    simp only [] at hin2
    rcases List.mem_append.mp hin2 with h1 | h1
    · by_cases ht : (pr.2.type == "Enum") = true
      · rw [if_pos ht] at h1
        repeat' split at h1
        all_goals simp only [List.not_mem_nil, List.mem_singleton] at h1
        all_goals subst h1
        all_goals rfl
      · rw [if_neg ht] at h1; cases h1
    · by_cases ht : (pr.2.type == "Select") = true
      · rw [if_pos ht] at h1
        repeat' split at h1
        all_goals simp only [List.not_mem_nil, List.mem_singleton] at h1
        all_goals subst h1
        all_goals rfl
      · rw [if_neg ht] at h1; cases h1

theorem isPrefixOf_self_append (l t : List Char) : l.isPrefixOf (l ++ t) = true := by
  induction l with
  | nil => simp [List.isPrefixOf]
  | cons c rest ih => simp [List.isPrefixOf, ih]

theorem strEndsWith_append (a b : String) : strEndsWith (a ++ b) b = true := by
  unfold strEndsWith
  rw [List.isSuffixOf, toList_eq_data, toList_eq_data, String.data_append,
    List.reverse_append]
  exact isPrefixOf_self_append b.data.reverse a.data.reverse

theorem ne_of_noSlash_slash {a b : String} (ha : noSlashStr a = true)
    (hb : '/' ∈ b.toList) : a ≠ b := by
  intro h
  exact (noSlash_iff.mp ha) (h ▸ hb)

theorem noSlash_dotTs {a : String} (ha : noSlashStr a = true) :
    noSlashStr (a ++ ".ts") = true :=
  noSlash_append ha (by decide)

theorem slash_mem_rules_path (n : String) : '/' ∈ ("rules/" ++ n ++ ".rules.ts").toList := by
  have h1 : ("rules/" ++ n ++ ".rules.ts").toList =
      "rules/".toList ++ n.toList ++ ".rules.ts".toList := by
    simp only [toList_eq_data, String.data_append]
  rw [h1]
  apply List.mem_append_left
  apply List.mem_append_left
  decide

theorem countP_nameEq (l : List Schema) (q : String) :
    (l.countP fun x => x.name == q) = List.count q (l.map Schema.name) := by
  rw [List.count, List.countP_map]
  rfl

theorem countP_nameEq_eq_one {l : List Schema} {s : Schema}
    (hn : (l.map Schema.name).Nodup) (hs : s ∈ l) :
    (l.countP fun x => x.name == s.name) = 1 := by
  rw [countP_nameEq]
  exact List.count_eq_one_of_mem hn (List.mem_map_of_mem _ hs)

theorem countP_nameEq_eq_zero {l : List Schema} {q : String}
    (h : ∀ x ∈ l, x.name ≠ q) :
    (l.countP fun x => x.name == q) = 0 := by
  rw [List.countP_eq_zero]
  intro x hx
  simpa using h x hx

theorem visible_names_nodup {schemas : List Schema}
    (h : (schemas.map Schema.name).Nodup) :
    ((visibleSchemas schemas).map Schema.name).Nodup :=
  h.sublist ((List.filter_sublist schemas).map Schema.name)

theorem visible_sub {s : Schema} {schemas : List Schema} (h : s ∈ visibleSchemas schemas) :
    s ∈ schemas := List.mem_of_mem_filter h

theorem mem_visibleSchemas {s : Schema} {schemas : List Schema} (hs : s ∈ schemas)
    (hk : s.kind ≠ "enum") (hh : ¬((s.options.bind SchemaOptions.hidden) = some true)) :
    s ∈ visibleSchemas schemas := by
  rw [visibleSchemas, List.mem_filter]
  refine ⟨hs, ?_⟩
  simp [hk, hh]

theorem not_mem_visibleSchemas_of_hidden {s : Schema} {schemas : List Schema}
    (hh : (s.options.bind SchemaOptions.hidden) = some true) :
    s ∉ visibleSchemas schemas := by
  intro h
  rw [visibleSchemas, List.mem_filter] at h
  rw [hh] at h
  simp at h

theorem name_inj_of_nodup {schemas : List Schema}
    (h : (schemas.map Schema.name).Nodup) {a b : Schema} (ha : a ∈ schemas)
    (hb : b ∈ schemas) (hn : a.name = b.name) : a = b :=
  List.inj_on_of_nodup_map h ha hb hn

theorem mem_enumFilesOf {f : GeneratedFile} {schemas : List Schema} {opts : GenOptions}
    (h : f ∈ enumFilesOf schemas opts) :
    ∃ s ∈ schemas, s.kind = "enum" ∧ f.filePath = s.name ++ ".ts" ∧ f.overwrite = true := by
  unfold enumFilesOf at h
  obtain ⟨e, he, rfl⟩ := List.mem_map.mp h
  obtain ⟨s, hs, hk, hn⟩ := mem_generateEnums_name he
  exact ⟨s, hs, hk, by rw [generateEnumFile_filePath, hn], generateEnumFile_overwrite e false⟩

theorem mem_pluginEnumFilesOf {f : GeneratedFile} {opts : GenOptions}
    (h : f ∈ pluginEnumFilesOf opts) :
    ∃ pe ∈ opts.pluginEnums.getD [], f.filePath = pe.2.name ++ ".ts" ∧ f.overwrite = true := by
  unfold pluginEnumFilesOf at h
  by_cases hl : ((opts.pluginEnums.getD []).length > 0)
  · rw [if_pos hl] at h
    obtain ⟨e, he, rfl⟩ := List.mem_map.mp h
    unfold generatePluginEnums at he
    obtain ⟨pe, hpe, rfl⟩ := List.mem_map.mp he
    exact ⟨pe, hpe, by rw [generateEnumFile_filePath, pluginEnumToTSEnum_name],
      generateEnumFile_overwrite _ true⟩
  · rw [if_neg hl] at h
    cases h

theorem mem_inlineFilesOf {f : GeneratedFile} {schemas : List Schema} {opts : GenOptions}
    (h : f ∈ inlineFilesOf schemas opts) :
    ∃ item ∈ extractInlineEnums schemas opts,
      f.filePath = inlineItemName item ++ ".ts" ∧ f.overwrite = true := by
  unfold inlineFilesOf at h
  obtain ⟨item, hit, rfl⟩ := List.mem_map.mp h
  refine ⟨item, hit, ?_⟩
  cases item with
  | enumDef e => exact ⟨rfl, rfl⟩
  | typeAlias a => exact ⟨rfl, rfl⟩

theorem mem_rulesFilesOf {f : GeneratedFile} {schemas : List Schema} {opts : GenOptions}
    (h : f ∈ rulesFilesOf schemas opts) :
    ∃ n, f.filePath = "rules/" ++ n ++ ".rules.ts" ∧ f.overwrite = true := by
  unfold rulesFilesOf at h
  by_cases hc : (!(optTrue opts.generateZodSchemas) && optTrue opts.generateRules) = true
  · rw [if_pos hc] at h
    unfold generateRulesFiles at h
    simp only [] at h
    obtain ⟨s, _, rfl⟩ := List.mem_map.mp h
    exact ⟨s.name, rfl, rfl⟩
  · rw [if_neg hc] at h
    cases h

theorem generateBaseInterfaceFile_fields {s : Schema} {schemas : List Schema}
    {opts : GenOptions} {f : GeneratedFile} (hs : s ∈ visibleSchemas schemas)
    (h : generateBaseInterfaceFile s.name schemas opts = .ok f) :
    f.filePath = "base/" ++ s.name ++ ".ts" ∧ f.overwrite = true := by
  obtain ⟨content, hc⟩ := generateBaseInterfaceFile_ok opts hs
  rw [hc] at h
  cases h
  exact ⟨rfl, rfl⟩

theorem mem_trailingFilesOf {f : GeneratedFile} {schemas : List Schema} {opts : GenOptions}
    (h : f ∈ trailingFilesOf schemas opts) :
    (f.filePath = "common.ts" ∨ f.filePath = "i18n.ts" ∨ f.filePath = "index.ts") ∧
      f.overwrite = true := by
  unfold trailingFilesOf at h
  simp only [List.mem_cons, List.mem_singleton] at h
  rcases h with rfl | rfl | rfl | h
  · exact ⟨Or.inl rfl, rfl⟩
  · exact ⟨Or.inr (Or.inl rfl), rfl⟩
  · exact ⟨Or.inr (Or.inr rfl), rfl⟩
  · cases h

theorem ok_run_structure {schemas : List Schema} {opts0 : GenOptions}
    {files : List GeneratedFile}
    (hok : generateTypeScript schemas opts0 = .ok files) :
    ((collectPaths schemas).filter fun e => e.2.length > 1) = [] ∧
    ∃ baseFiles,
      mapFilesExcept (fun s => generateBaseInterfaceFile s.name schemas (mergeDefaults opts0))
        (visibleSchemas schemas) = .ok baseFiles ∧
      files = enumFilesOf schemas (mergeDefaults opts0) ++
        pluginEnumFilesOf (mergeDefaults opts0) ++
        inlineFilesOf schemas (mergeDefaults opts0) ++ baseFiles ++
        modelFilesOf schemas (mergeDefaults opts0) ++
        rulesFilesOf schemas (mergeDefaults opts0) ++
        trailingFilesOf schemas (mergeDefaults opts0) := by
  unfold generateTypeScript at hok
  simp only [] at hok
  by_cases hd : (((collectPaths schemas).filter fun e => e.2.length > 1).length > 0)
  · rw [if_pos hd] at hok
    cases hok
  · rw [if_neg hd] at hok
    refine ⟨List.length_eq_zero.mp (Nat.eq_zero_of_not_pos hd), ?_⟩
    by_cases hc : ((((mergeDefaults opts0).pluginEnums.getD []).length > 0) &&
        ((pluginConflicts schemas (mergeDefaults opts0)).length > 0)) = true
    · rw [if_pos hc] at hok
      cases hok
    · rw [if_neg hc] at hok
      unfold planFiles at hok
      cases hbf : mapFilesExcept
          (fun s => generateBaseInterfaceFile s.name schemas (mergeDefaults opts0))
          (visibleSchemas schemas) with
      | error e => rw [hbf] at hok; cases hok
      | ok baseFiles =>
        rw [hbf] at hok
        cases hok
        exact ⟨baseFiles, rfl, rfl⟩

theorem forall₂_mem_right {α β : Type} {R : α → β → Prop} {l : List α} {ys : List β}
    (h : List.Forall₂ R l ys) {b : β} (hb : b ∈ ys) : ∃ a ∈ l, R a b := by
  induction h with
  | nil => cases hb
  | cons hab htl ih =>
    rcases List.mem_cons.mp hb with rfl | hb'
    · exact ⟨_, List.mem_cons_self _ _, hab⟩
    · obtain ⟨a, ha, har⟩ := ih hb'
      exact ⟨a, List.mem_cons_of_mem _ ha, har⟩

theorem inline_item_noSlash {item : InlineEnumResult} {schemas : List Schema}
    {opts : GenOptions} (hns : NoSlashInput schemas opts)
    (h : item ∈ extractInlineEnums schemas opts) :
    noSlashStr (inlineItemName item) = true := by
  obtain ⟨s, hs, pr, hpr, heq⟩ := mem_extractInlineEnums_name h
  rw [heq]
  exact noSlash_append (hns.1 s hs).1 (noSlash_toPascalCase ((hns.1 s hs).2 pr hpr))

theorem inlineItemName_mem_names {item : InlineEnumResult} {schemas : List Schema}
    {opts : GenOptions} (h : item ∈ extractInlineEnums schemas opts) :
    inlineItemName item ∈ inlineEnumNames schemas opts := by
  unfold inlineEnumNames
  refine List.mem_map.mpr ⟨item, h, ?_⟩
  cases item <;> rfl

theorem baseFiles_fields {schemas : List Schema} {opts : GenOptions}
    {baseFiles : List GeneratedFile}
    (hbf : mapFilesExcept (fun s => generateBaseInterfaceFile s.name schemas opts)
      (visibleSchemas schemas) = .ok baseFiles) :
    List.Forall₂ (fun s f => f.filePath = "base/" ++ s.name ++ ".ts" ∧ f.overwrite = true)
      (visibleSchemas schemas) baseFiles := by
  have h2 := forall₂_of_mapFilesExcept_ok hbf
  have h3 : List.Forall₂
      (fun s f => s ∈ visibleSchemas schemas ∧
        generateBaseInterfaceFile s.name schemas opts = .ok f)
      (visibleSchemas schemas) baseFiles :=
    (List.forall₂_and_left _ _).mpr ⟨fun a ha => ha, h2⟩
  exact h3.imp fun {a b} hR => generateBaseInterfaceFile_fields hR.1 hR.2

theorem files_base_path_analysis {schemas : List Schema} {opts0 : GenOptions}
    {files : List GeneratedFile} (q : String)
    (hok : generateTypeScript schemas opts0 = .ok files)
    (hns : NoSlashInput schemas (mergeDefaults opts0)) :
    (files.countP fun f => f.filePath == "base/" ++ q ++ ".ts") =
      ((visibleSchemas schemas).countP fun x => x.name == q) ∧
    (∀ f ∈ files, f.filePath = "base/" ++ q ++ ".ts" → f.overwrite = true) := by
  obtain ⟨hdup, baseFiles, hbf, hfiles⟩ := ok_run_structure hok
  have hbase := baseFiles_fields hbf
  have henumz : ∀ f ∈ enumFilesOf schemas (mergeDefaults opts0),
      f.filePath ≠ "base/" ++ q ++ ".ts" := by
    intro f hf
    obtain ⟨s', hs', _, hfp, _⟩ := mem_enumFilesOf hf
    rw [hfp]
    exact ne_base_path_of_noSlash (hns.1 s' hs').1 q
  have hplugz : ∀ f ∈ pluginEnumFilesOf (mergeDefaults opts0),
      f.filePath ≠ "base/" ++ q ++ ".ts" := by
    intro f hf
    obtain ⟨pe, hpe, hfp, _⟩ := mem_pluginEnumFilesOf hf
    rw [hfp]
    exact ne_base_path_of_noSlash (hns.2 pe hpe) q
  have hinlz : ∀ f ∈ inlineFilesOf schemas (mergeDefaults opts0),
      f.filePath ≠ "base/" ++ q ++ ".ts" := by
    intro f hf
    obtain ⟨item, hit, hfp, _⟩ := mem_inlineFilesOf hf
    rw [hfp]
    exact ne_base_path_of_noSlash (inline_item_noSlash hns hit) q
  have hmodz : ∀ f ∈ modelFilesOf schemas (mergeDefaults opts0),
      f.filePath ≠ "base/" ++ q ++ ".ts" := by
    intro f hf
    obtain ⟨s', hs', rfl⟩ := List.mem_map.mp hf
    rw [generateModelFile_filePath]
    exact ne_base_path_of_noSlash (hns.1 s' (visible_sub hs')).1 q
  have hrulz : ∀ f ∈ rulesFilesOf schemas (mergeDefaults opts0),
      f.filePath ≠ "base/" ++ q ++ ".ts" := by
    intro f hf
    obtain ⟨n, hfp, _⟩ := mem_rulesFilesOf hf
    rw [hfp]
    exact rules_path_ne_base n q
  have htrlz : ∀ f ∈ trailingFilesOf schemas (mergeDefaults opts0),
      f.filePath ≠ "base/" ++ q ++ ".ts" := by
    intro f hf
    rcases (mem_trailingFilesOf hf).1 with hfp | hfp | hfp <;> rw [hfp]
    · exact common_ne_base q
    · exact i18n_ne_base q
    · exact index_ne_base q
  have hcount_base :
      (baseFiles.countP fun f => f.filePath == "base/" ++ q ++ ".ts") =
      ((visibleSchemas schemas).countP fun x => x.name == q) := by
    refine countP_eq_of_forall₂ hbase _ _ ?_
    intro a b hR
    rw [hR.1]
    by_cases hn : a.name = q
    · rw [hn]
      simp
    · have h1 : ("base/" ++ a.name ++ ".ts" == "base/" ++ q ++ ".ts") = false := by
        rw [beq_eq_false_iff_ne]
        intro hcontra
        exact hn (base_path_inj hcontra)
      rw [h1]
      symm
      rw [beq_eq_false_iff_ne]
      exact hn
  have zcount : ∀ (l : List GeneratedFile),
      (∀ f ∈ l, f.filePath ≠ "base/" ++ q ++ ".ts") →
      (l.countP fun f => f.filePath == "base/" ++ q ++ ".ts") = 0 := by
    intro l hl
    rw [List.countP_eq_zero]
    intro f hf
    simpa using hl f hf
  constructor
  · rw [hfiles]
    rw [List.countP_append, List.countP_append, List.countP_append, List.countP_append,
      List.countP_append, List.countP_append]
    rw [zcount _ henumz, zcount _ hplugz, zcount _ hinlz, zcount _ hmodz, zcount _ hrulz,
      zcount _ htrlz, hcount_base]
    omega
  · intro f hf hfp
    rw [hfiles] at hf
    simp only [List.mem_append] at hf
    rcases hf with ((((((hf | hf) | hf) | hf) | hf) | hf) | hf)
    · exact absurd hfp (henumz f hf)
    · exact absurd hfp (hplugz f hf)
    · exact absurd hfp (hinlz f hf)
    · obtain ⟨a, _, hR⟩ := forall₂_mem_right hbase hf
      exact hR.2
    · exact absurd hfp (hmodz f hf)
    · exact absurd hfp (hrulz f hf)
    · exact absurd hfp (htrlz f hf)

theorem files_model_path_analysis {schemas : List Schema} {opts0 : GenOptions}
    {files : List GeneratedFile} (q : String)
    (hok : generateTypeScript schemas opts0 = .ok files)
    (_hns : NoSlashInput schemas (mergeDefaults opts0))
    (hq : noSlashStr q = true)
    (henum : ∀ x ∈ schemas, x.kind = "enum" → x.name ≠ q)
    (hplug : ∀ pe ∈ (mergeDefaults opts0).pluginEnums.getD [], pe.2.name ≠ q)
    (hinline : q ∉ inlineEnumNames schemas (mergeDefaults opts0))
    (hforbid : q ≠ "common" ∧ q ≠ "i18n" ∧ q ≠ "index") :
    (files.countP fun f => f.filePath == q ++ ".ts") =
      ((visibleSchemas schemas).countP fun x => x.name == q) ∧
    (∀ f ∈ files, f.filePath = q ++ ".ts" → f.overwrite = false) := by
  obtain ⟨hdup, baseFiles, hbf, hfiles⟩ := ok_run_structure hok
  have hbase := baseFiles_fields hbf
  have henumz : ∀ f ∈ enumFilesOf schemas (mergeDefaults opts0),
      f.filePath ≠ q ++ ".ts" := by
    intro f hf
    obtain ⟨s', hs', hk, hfp, _⟩ := mem_enumFilesOf hf
    rw [hfp]
    intro hcontra
    exact henum s' hs' hk (dotTs_path_inj hcontra)
  have hplugz : ∀ f ∈ pluginEnumFilesOf (mergeDefaults opts0),
      f.filePath ≠ q ++ ".ts" := by
    intro f hf
    obtain ⟨pe, hpe, hfp, _⟩ := mem_pluginEnumFilesOf hf
    rw [hfp]
    intro hcontra
    exact hplug pe hpe (dotTs_path_inj hcontra)
  have hinlz : ∀ f ∈ inlineFilesOf schemas (mergeDefaults opts0),
      f.filePath ≠ q ++ ".ts" := by
    intro f hf
    obtain ⟨item, hit, hfp, _⟩ := mem_inlineFilesOf hf
    rw [hfp]
    intro hcontra
    rw [← dotTs_path_inj hcontra] at hinline
    exact hinline (inlineItemName_mem_names hit)
  have hbasez : ∀ f ∈ baseFiles, f.filePath ≠ q ++ ".ts" := by
    intro f hf
    obtain ⟨a, _, hR⟩ := forall₂_mem_right hbase hf
    rw [hR.1]
    intro hcontra
    exact ne_base_path_of_noSlash hq a.name hcontra.symm
  have hrulz : ∀ f ∈ rulesFilesOf schemas (mergeDefaults opts0),
      f.filePath ≠ q ++ ".ts" := by
    intro f hf
    obtain ⟨n, hfp, _⟩ := mem_rulesFilesOf hf
    rw [hfp]
    exact (ne_of_noSlash_slash (noSlash_dotTs hq) (slash_mem_rules_path n)).symm
  have htrlz : ∀ f ∈ trailingFilesOf schemas (mergeDefaults opts0),
      f.filePath ≠ q ++ ".ts" := by
    intro f hf
    rcases (mem_trailingFilesOf hf).1 with hfp | hfp | hfp <;> rw [hfp] <;> intro hcontra
    · exact hforbid.1 (dotTs_path_inj ((show ("common" : String) ++ ".ts" = q ++ ".ts" from hcontra))).symm
    · exact hforbid.2.1 (dotTs_path_inj ((show ("i18n" : String) ++ ".ts" = q ++ ".ts" from hcontra))).symm
    · exact hforbid.2.2 (dotTs_path_inj ((show ("index" : String) ++ ".ts" = q ++ ".ts" from hcontra))).symm
  have hcount_model :
      ((modelFilesOf schemas (mergeDefaults opts0)).countP fun f => f.filePath == q ++ ".ts") =
      ((visibleSchemas schemas).countP fun x => x.name == q) := by
    unfold modelFilesOf
    rw [List.countP_map]
    refine List.countP_congr ?_
    intro a _
    have h2 : ((generateModelFile a.name (mergeDefaults opts0)).filePath == q ++ ".ts") =
        (a.name == q) := by
      rw [generateModelFile_filePath]
      by_cases hn : a.name = q
      · rw [hn]
        simp
      · have h1 : (a.name ++ ".ts" == q ++ ".ts") = false := by
          rw [beq_eq_false_iff_ne]
          intro hcontra
          exact hn (dotTs_path_inj hcontra)
        rw [h1]
        symm
        rw [beq_eq_false_iff_ne]
        exact hn
    show ((generateModelFile a.name (mergeDefaults opts0)).filePath == q ++ ".ts") = true ↔
      (a.name == q) = true
    rw [h2]
  have zcount : ∀ (l : List GeneratedFile),
      (∀ f ∈ l, f.filePath ≠ q ++ ".ts") →
      (l.countP fun f => f.filePath == q ++ ".ts") = 0 := by
    intro l hl
    rw [List.countP_eq_zero]
    intro f hf
    simpa using hl f hf
  constructor
  · rw [hfiles]
    rw [List.countP_append, List.countP_append, List.countP_append, List.countP_append,
      List.countP_append, List.countP_append]
    rw [zcount _ henumz, zcount _ hplugz, zcount _ hinlz, zcount _ hbasez, zcount _ hrulz,
      zcount _ htrlz, hcount_model]
    omega
  · intro f hf hfp
    rw [hfiles] at hf
    simp only [List.mem_append] at hf
    rcases hf with ((((((hf | hf) | hf) | hf) | hf) | hf) | hf)
    · exact absurd hfp (henumz f hf)
    · exact absurd hfp (hplugz f hf)
    · exact absurd hfp (hinlz f hf)
    · exact absurd hfp (hbasez f hf)
    · obtain ⟨a, _, rfl⟩ := List.mem_map.mp hf
      exact generateModelFile_overwrite a.name (mergeDefaults opts0)
    · exact absurd hfp (hrulz f hf)
    · exact absurd hfp (htrlz f hf)

theorem files_false_overwrite_count {schemas : List Schema} {opts0 : GenOptions}
    {files : List GeneratedFile} (q : String)
    (hok : generateTypeScript schemas opts0 = .ok files) :
    (files.countP fun f => f.filePath == q ++ ".ts" && !f.overwrite) =
      ((visibleSchemas schemas).countP fun x => x.name == q) := by
  obtain ⟨hdup, baseFiles, hbf, hfiles⟩ := ok_run_structure hok
  have hbase := baseFiles_fields hbf
  have zover : ∀ (l : List GeneratedFile), (∀ f ∈ l, f.overwrite = true) →
      (l.countP fun f => f.filePath == q ++ ".ts" && !f.overwrite) = 0 := by
    intro l hl
    rw [List.countP_eq_zero]
    intro f hf
    rw [hl f hf]
    simp
  have hcount_model :
      ((modelFilesOf schemas (mergeDefaults opts0)).countP
        fun f => f.filePath == q ++ ".ts" && !f.overwrite) =
      ((visibleSchemas schemas).countP fun x => x.name == q) := by
    unfold modelFilesOf
    rw [List.countP_map]
    refine List.countP_congr ?_
    intro a _
    have h2 : ((generateModelFile a.name (mergeDefaults opts0)).filePath == q ++ ".ts" &&
        !(generateModelFile a.name (mergeDefaults opts0)).overwrite) = (a.name == q) := by
      rw [generateModelFile_filePath, generateModelFile_overwrite]
      by_cases hn : a.name = q
      · rw [hn]
        simp
      · have h1 : (a.name ++ ".ts" == q ++ ".ts") = false := by
          rw [beq_eq_false_iff_ne]
          intro hcontra
          exact hn (dotTs_path_inj hcontra)
        rw [h1]
        rw [Bool.false_and]
        symm
        rw [beq_eq_false_iff_ne]
        exact hn
    show ((generateModelFile a.name (mergeDefaults opts0)).filePath == q ++ ".ts" &&
      !(generateModelFile a.name (mergeDefaults opts0)).overwrite) = true ↔
      (a.name == q) = true
    rw [h2]
  rw [hfiles]
  rw [List.countP_append, List.countP_append, List.countP_append, List.countP_append,
    List.countP_append, List.countP_append]
  rw [zover _ fun f hf => (mem_enumFilesOf hf).choose_spec.2.2.2,
    zover _ fun f hf => (mem_pluginEnumFilesOf hf).choose_spec.2.2,
    zover _ fun f hf => (mem_inlineFilesOf hf).choose_spec.2.2,
    zover _ fun f hf => ((forall₂_mem_right hbase hf).choose_spec.2).2,
    zover _ fun f hf => (mem_rulesFilesOf hf).choose_spec.2,
    zover _ fun f hf => (mem_trailingFilesOf hf).2,
    hcount_model]
  omega

/-- Claim C1 (corrected): In a successful run over collision-free names (no `/`
in names, no plugin-enum or inline-enum name equal to the schema's name, and
the schema not named after a shared trailing file), every schema that is not
enum-kind and not hidden yields exactly one base file `base/<Name>.ts`, always
overwritten, and exactly one model file `<Name>.ts`, never overwritten.
The original claim ranged over every object schema; hidden schemas yield no
entity files at all (see the counterexample). -/
theorem C1_entity_file_split {schemas : List Schema} {opts : GenOptions}
    {files : List GeneratedFile} {s : Schema}
    (hok : generateTypeScript schemas opts = .ok files)
    (hns : NoSlashInput schemas (mergeDefaults opts))
    (hs : s ∈ schemas) (hkind : s.kind ≠ "enum")
    (hvis : ¬((s.options.bind SchemaOptions.hidden) = some true))
    (hplug : ∀ pe ∈ (mergeDefaults opts).pluginEnums.getD [], pe.2.name ≠ s.name)
    (hinline : s.name ∉ inlineEnumNames schemas (mergeDefaults opts))
    (hforbid : s.name ≠ "common" ∧ s.name ≠ "i18n" ∧ s.name ≠ "index") :
    (files.countP fun f => f.filePath == "base/" ++ s.name ++ ".ts") = 1 ∧
    (files.countP fun f => f.filePath == s.name ++ ".ts") = 1 ∧
    (∀ f ∈ files, f.filePath = "base/" ++ s.name ++ ".ts" → f.overwrite = true) ∧
    (∀ f ∈ files, f.filePath = s.name ++ ".ts" → f.overwrite = false) := by
  have hdup := (ok_run_structure hok).1
  have hnodup := names_nodup_of_no_dups hdup
  have hsvis : s ∈ visibleSchemas schemas := mem_visibleSchemas hs hkind hvis
  have hvcount : ((visibleSchemas schemas).countP fun x => x.name == s.name) = 1 :=
    countP_nameEq_eq_one (visible_names_nodup hnodup) hsvis
  have henum : ∀ x ∈ schemas, x.kind = "enum" → x.name ≠ s.name := by
    intro x hx hxk hxn
    have hxs : x = s := name_inj_of_nodup hnodup hx hs hxn
    rw [hxs] at hxk
    exact hkind hxk
  have hbase := files_base_path_analysis s.name hok hns
  have hmodel := files_model_path_analysis s.name hok hns (hns.1 s hs).1 henum hplug
    hinline hforbid
  exact ⟨hbase.1.trans hvcount, hmodel.1.trans hvcount, hbase.2, hmodel.2⟩

/-- Claim C10 (confirmed): A hidden schema of a successful run yields no base
file, no never-overwritten (model) file with its name, no entry among the
index barrel's model exports, and no generated interface; hidden schemas are
skipped by every interface-producing operation. -/
theorem C10_hidden_schemas_skipped {schemas : List Schema} {opts : GenOptions}
    {files : List GeneratedFile} {s : Schema}
    (hok : generateTypeScript schemas opts = .ok files)
    (hns : NoSlashInput schemas (mergeDefaults opts))
    (hs : s ∈ schemas)
    (hhid : (s.options.bind SchemaOptions.hidden) = some true) :
    (files.countP fun f => f.filePath == "base/" ++ s.name ++ ".ts") = 0 ∧
    (files.countP fun f => f.filePath == s.name ++ ".ts" && !f.overwrite) = 0 ∧
    s.name ∉ indexModelExports schemas ∧
    (∀ i ∈ generateInterfaces schemas (mergeDefaults opts), i.name ≠ s.name) := by
  have hdup := (ok_run_structure hok).1
  have hnodup := names_nodup_of_no_dups hdup
  have hnovis : ∀ x ∈ visibleSchemas schemas, x.name ≠ s.name := by
    intro x hx hxn
    have hxs : x = s := name_inj_of_nodup hnodup (visible_sub hx) hs hxn
    rw [hxs] at hx
    exact not_mem_visibleSchemas_of_hidden hhid hx
  have hvcount : ((visibleSchemas schemas).countP fun x => x.name == s.name) = 0 :=
    countP_nameEq_eq_zero hnovis
  refine ⟨(files_base_path_analysis s.name hok hns).1.trans hvcount,
    (files_false_overwrite_count s.name hok).trans hvcount, ?_, ?_⟩
  · intro hmem
    unfold indexModelExports at hmem
    obtain ⟨x, hx, hxn⟩ := List.mem_map.mp hmem
    exact hnovis x hx hxn
  · intro i hi
    unfold generateInterfaces at hi
    obtain ⟨x, hx, rfl⟩ := List.mem_map.mp hi
    rw [schemaToInterface_name]
    exact hnovis x hx

set_option maxRecDepth 100000 in
/-- C1 at a concrete input: the visible `User` schema of a one-schema run gets
exactly one always-overwritten base file and one never-overwritten model file. -/
theorem C1_entity_file_split_witness :
    ((okFilesOf (generateTypeScript [exUser] {})).countP
      fun f => f.filePath == "base/" ++ exUser.name ++ ".ts") = 1 ∧
    ((okFilesOf (generateTypeScript [exUser] {})).countP
      fun f => f.filePath == exUser.name ++ ".ts") = 1 ∧
    (∀ f ∈ okFilesOf (generateTypeScript [exUser] {}),
      f.filePath = "base/" ++ exUser.name ++ ".ts" → f.overwrite = true) ∧
    (∀ f ∈ okFilesOf (generateTypeScript [exUser] {}),
      f.filePath = exUser.name ++ ".ts" → f.overwrite = false) :=
  @C1_entity_file_split [exUser] {} (okFilesOf (generateTypeScript [exUser] {})) exUser
    (by rfl) (by decide) (List.mem_cons_self _ _) (by decide)
    (by decide) (by decide) (by decide) (by decide)

set_option maxRecDepth 100000 in
/-- C1 counterexample to the original claim: a hidden object schema yields
zero entity files even though the run succeeds. -/
theorem C1_counterexample :
    exceptIsError (generateTypeScript [exSecret] {}) = false ∧
    ((okFilesOf (generateTypeScript [exSecret] {})).countP
      fun f => f.filePath == "base/" ++ exSecret.name ++ ".ts") = 0 ∧
    ((okFilesOf (generateTypeScript [exSecret] {})).countP
      fun f => f.filePath == exSecret.name ++ ".ts") = 0 := by
  decide

set_option maxRecDepth 100000 in
/-- C10 at a concrete input: the hidden `Secret` schema of a two-schema run
yields no base file, no model file, no index model export and no interface. -/
theorem C10_hidden_schemas_skipped_witness :
    ((okFilesOf (generateTypeScript [exUser, exSecret] {})).countP
      fun f => f.filePath == "base/" ++ exSecret.name ++ ".ts") = 0 ∧
    ((okFilesOf (generateTypeScript [exUser, exSecret] {})).countP
      fun f => f.filePath == exSecret.name ++ ".ts" && !f.overwrite) = 0 ∧
    exSecret.name ∉ indexModelExports [exUser, exSecret] ∧
    (∀ i ∈ generateInterfaces [exUser, exSecret] (mergeDefaults {}),
      i.name ≠ exSecret.name) :=
  @C10_hidden_schemas_skipped [exUser, exSecret] {}
    (okFilesOf (generateTypeScript [exUser, exSecret] {})) exSecret
    (by rfl) (by decide) (List.mem_cons_of_mem _ (List.mem_cons_self _ _)) (by decide)

theorem pluginHas_nonempty {opts : GenOptions} {n : String}
    (h : pluginHas opts n = true) : (opts.pluginEnums.getD []).length > 0 := by
  unfold pluginHas at h
  cases hpe : opts.pluginEnums with
  | none => rw [hpe] at h; cases h
  | some l =>
    rw [hpe] at h
    obtain ⟨kv, hkv, _⟩ := List.any_eq_true.mp h
    simp only [Option.getD_some]
    exact List.length_pos.mpr (List.ne_nil_of_mem hkv)

theorem mem_dups_iff {schemas : List Schema} {name : String} :
    (∃ ps, (name, ps) ∈ ((collectPaths schemas).filter fun e => e.2.length > 1)) ↔
      2 ≤ countName schemas name := by
  constructor
  · rintro ⟨ps, hmem⟩
    rw [List.mem_filter] at hmem
    have h1 := lookupAssoc_of_mem (keysNodup_collectPaths schemas) hmem.1
    rw [lookupAssoc_collectPaths] at h1
    by_cases hz : countName schemas name = 0
    · rw [if_pos hz] at h1; cases h1
    · rw [if_neg hz] at h1
      injection h1 with h1
      have hlen : ps.length > 1 := by simpa using hmem.2
      rw [← h1, length_pathsFor] at hlen
      omega
  · intro h2
    refine ⟨pathsFor schemas name, ?_⟩
    rw [List.mem_filter]
    have hz : countName schemas name ≠ 0 := by omega
    have h1 := lookupAssoc_collectPaths schemas name
    rw [if_neg hz] at h1
    refine ⟨mem_of_lookupAssoc h1, ?_⟩
    simp only [length_pathsFor, decide_eq_true_eq]
    omega

theorem mem_dups_paths {schemas : List Schema} {name : String} {ps : List (Option String)}
    (hmem : (name, ps) ∈ ((collectPaths schemas).filter fun e => e.2.length > 1)) :
    ps = pathsFor schemas name := by
  rw [List.mem_filter] at hmem
  have h1 := lookupAssoc_of_mem (keysNodup_collectPaths schemas) hmem.1
  rw [lookupAssoc_collectPaths] at h1
  by_cases hz : countName schemas name = 0
  · rw [if_pos hz] at h1; cases h1
  · rw [if_neg hz] at h1
    injection h1 with h1
    exact h1.symm

theorem mem_pluginConflicts_iff {schemas : List Schema} {opts : GenOptions}
    {entry : String × Option String} :
    entry ∈ pluginConflicts schemas opts ↔
      ∃ s ∈ schemas, s.kind = "enum" ∧ pluginHas opts s.name = true ∧
        entry = (s.name, pathOf s) := by
  unfold pluginConflicts
  rw [List.mem_map]
  constructor
  · rintro ⟨s, hs, rfl⟩
    rw [List.mem_filter] at hs
    have h2 := hs.2
    simp only [Bool.and_eq_true, beq_iff_eq] at h2
    exact ⟨s, hs.1, h2.1, h2.2, rfl⟩
  · rintro ⟨s, hs, hk, hp, rfl⟩
    refine ⟨s, ?_, rfl⟩
    rw [List.mem_filter]
    refine ⟨hs, ?_⟩
    simp [hk, hp]

/-- Claim C4 (confirmed): A duplicated schema name, or an enum schema whose name
a plugin enum also uses, makes `generateTypeScript` abort with zero files, and
the thrown error is one aggregated report of its collision class: every
offending name with all its source paths. -/
theorem C4_fatal_aggregated {schemas : List Schema} {options : GenOptions}
    (h : (∃ n, 2 ≤ countName schemas n) ∨
      HasPluginConflict schemas (mergeDefaults options)) :
    ∃ e, generateTypeScript schemas options = .error e ∧
      fatalReportComplete schemas (mergeDefaults options) e := by
  unfold generateTypeScript
  simp only []
  by_cases hd : (((collectPaths schemas).filter fun e => e.2.length > 1).length > 0)
  · refine ⟨.duplicateNames ((collectPaths schemas).filter fun e => e.2.length > 1),
      by rw [if_pos hd], ?_⟩
    exact ⟨fun name => mem_dups_iff, fun name ps hmem => mem_dups_paths hmem⟩
  · rcases h with ⟨n, hn⟩ | hconf
    · exfalso
      obtain ⟨ps, hmem⟩ := mem_dups_iff.mpr hn
      exact hd (List.length_pos.mpr (List.ne_nil_of_mem hmem))
    · rw [if_neg hd]
      obtain ⟨s, hsmem, hskind, hsplug⟩ := hconf
      have hconlist : (s.name, pathOf s) ∈ pluginConflicts schemas (mergeDefaults options) :=
        mem_pluginConflicts_iff.mpr ⟨s, hsmem, hskind, hsplug, rfl⟩
      have hlen : (pluginConflicts schemas (mergeDefaults options)).length > 0 :=
        List.length_pos.mpr (List.ne_nil_of_mem hconlist)
      have hpe := pluginHas_nonempty hsplug
      rw [if_pos (by simp only [Bool.and_eq_true, decide_eq_true_eq]; exact ⟨hpe, hlen⟩)]
      refine ⟨.pluginEnumConflict (pluginConflicts schemas (mergeDefaults options)), rfl, ?_⟩
      exact ⟨List.ne_nil_of_mem hconlist, fun entry => mem_pluginConflicts_iff⟩

set_option maxRecDepth 100000 in
/-- C4 at a concrete input: two schemas both named `User` abort the run with
an aggregated duplicate-name report. -/
theorem C4_fatal_aggregated_witness :
    ∃ e, generateTypeScript [exUser, exUserB] {} = .error e ∧
      fatalReportComplete [exUser, exUserB] (mergeDefaults {}) e :=
  C4_fatal_aggregated (Or.inl ⟨"User", by decide⟩)

/-- Claim C8 (corrected): A run fails exactly when a schema name is duplicated
or a schema enum's name collides with a plugin enum's key; collisions of an
extracted inline-enum type name with a schema enum or plugin enum are NOT
among the fatal collision classes (the original claim said they were; see the
counterexample). -/
theorem C8_collision_classes {schemas : List Schema} {options : GenOptions} :
    exceptIsError (generateTypeScript schemas options) = true ↔
      ((∃ n, 2 ≤ countName schemas n) ∨
        HasPluginConflict schemas (mergeDefaults options)) := by
  constructor
  · intro h
    unfold generateTypeScript at h
    simp only [] at h
    by_cases hd : (((collectPaths schemas).filter fun e => e.2.length > 1).length > 0)
    · left
      have hne : ((collectPaths schemas).filter fun e => e.2.length > 1) ≠ [] := by
        intro hnil
        rw [hnil] at hd
        simp at hd
      obtain ⟨e, he⟩ := List.exists_mem_of_ne_nil _ hne
      obtain ⟨name, ps⟩ := e
      exact ⟨name, mem_dups_iff.mp ⟨ps, he⟩⟩
    · rw [if_neg hd] at h
      by_cases hc : ((((mergeDefaults options).pluginEnums.getD []).length > 0) &&
          ((pluginConflicts schemas (mergeDefaults options)).length > 0)) = true
      · right
        have hlen : (pluginConflicts schemas (mergeDefaults options)).length > 0 := by
          have hc2 := hc
          simp only [Bool.and_eq_true, decide_eq_true_eq] at hc2
          exact hc2.2
        have hne : pluginConflicts schemas (mergeDefaults options) ≠ [] := by
          intro hnil
          rw [hnil] at hlen
          simp at hlen
        obtain ⟨entry, hentry⟩ := List.exists_mem_of_ne_nil _ hne
        obtain ⟨s, hs, hk, hp, _⟩ := mem_pluginConflicts_iff.mp hentry
        exact ⟨s, hs, hk, hp⟩
      · rw [if_neg hc] at h
        exfalso
        have hall : ∀ s ∈ visibleSchemas schemas,
            ∃ f, generateBaseInterfaceFile s.name schemas (mergeDefaults options) = .ok f := by
          intro s hs
          obtain ⟨c, hc2⟩ := generateBaseInterfaceFile_ok (mergeDefaults options) hs
          exact ⟨_, hc2⟩
        obtain ⟨ys, hys⟩ := mapFilesExcept_ok_of_forall hall
        unfold planFiles at h
        rw [hys] at h
        simp [exceptIsError] at h
  · intro h
    unfold generateTypeScript
    simp only []
    by_cases hd : (((collectPaths schemas).filter fun e => e.2.length > 1).length > 0)
    · rw [if_pos hd]
      rfl
    · rcases h with ⟨n, hn⟩ | hconf
      · exfalso
        obtain ⟨ps, hmem⟩ := mem_dups_iff.mpr hn
        exact hd (List.length_pos.mpr (List.ne_nil_of_mem hmem))
      · rw [if_neg hd]
        obtain ⟨s, hsmem, hskind, hsplug⟩ := hconf
        have hconlist : (s.name, pathOf s) ∈ pluginConflicts schemas (mergeDefaults options) :=
          mem_pluginConflicts_iff.mpr ⟨s, hsmem, hskind, hsplug, rfl⟩
        have hlen : (pluginConflicts schemas (mergeDefaults options)).length > 0 :=
          List.length_pos.mpr (List.ne_nil_of_mem hconlist)
        have hcond : ((((mergeDefaults options).pluginEnums.getD []).length > 0) &&
            ((pluginConflicts schemas (mergeDefaults options)).length > 0)) = true := by
          simp only [Bool.and_eq_true, decide_eq_true_eq]
          exact ⟨pluginHas_nonempty hsplug, hlen⟩
        rw [if_pos hcond]
        rfl

set_option maxRecDepth 100000 in
/-- C8 counterexample to the original claim: an extracted inline-enum type
name (`TaskStatus` from `Task.status`) collides with a schema enum of the
same name, yet the run succeeds instead of failing. -/
theorem C8_counterexample :
    "TaskStatus" ∈ inlineEnumNames [exTask, exTaskStatusEnum] (mergeDefaults {}) ∧
    "TaskStatus" ∈ (generateEnums [exTask, exTaskStatusEnum] (mergeDefaults {})).map
      TSEnum.name ∧
    exceptIsError (generateTypeScript [exTask, exTaskStatusEnum] {}) = false := by
  decide

/-- Claim C9 (confirmed): `generateTypeScript` is a pure function of the schema
collection and options: equal inputs give identical output file lists (same
files, same order, byte-identical content), so re-running is idempotent. -/
theorem C9_deterministic {s1 s2 : List Schema} {o1 o2 : GenOptions}
    (hs : s1 = s2) (ho : o1 = o2) :
    generateTypeScript s1 o1 = generateTypeScript s2 o2 := by
  rw [hs, ho]

/-- C9 at a concrete input: two runs on the same one-schema collection agree. -/
theorem C9_deterministic_witness :
    generateTypeScript [exUser] {} = generateTypeScript [exUser] {} :=
  C9_deterministic rfl rfl

/-- Claim C2 (corrected): A morph-to association property whose target list is
nonempty (and whose type is not overridden by a registered custom type)
expands to exactly the three optional fields `<prop>Type` (union of quoted
target names), `<prop>Id` (number) and `<prop>` (union of target type names
or null). The original claim ranged over every morph-to property: an empty or
missing target list instead yields a single `unknown`-typed field (see the
counterexample). -/
theorem C2_morphTo_triple {propertyName : String} {property : Property}
    {allSchemas : List Schema} {options : GenOptions}
    (hnc : (options.customTypes.bind fun cts => lookupAssoc cts property.type) = none)
    (htype : property.type = "Association")
    (hrel : property.relation = some "MorphTo")
    (hts : (property.targets.getD []).length > 0) :
    propertyToTSProperties propertyName property allSchemas options =
      [ { name := propertyName ++ "Type",
          type := String.intercalate " | "
            ((property.targets.getD []).map fun t => "'" ++ t ++ "'"),
          optional := true, readonly := options.readonly.getD true,
          comment := some ("Polymorphic type for " ++ propertyName) },
        { name := propertyName ++ "Id", type := "number", optional := true,
          readonly := options.readonly.getD true,
          comment := some ("Polymorphic ID for " ++ propertyName) },
        { name := propertyName,
          type := String.intercalate " | " (property.targets.getD []) ++ " | null",
          optional := true, readonly := options.readonly.getD true,
          comment := some ((resolveDisplayName property.displayName options).getD
            ("Polymorphic relation to " ++
              String.intercalate ", " (property.targets.getD []))) } ] := by
  have hcond : (property.type == "Association" &&
      property.relation == some "MorphTo" &&
      decide ((property.targets.getD []).length > 0)) = true := by
    simp [htype, hrel, hts]
  simp only [propertyToTSProperties, hnc]
  rw [if_pos hcond]
  rfl

/-- C2 at a concrete input: the `commentable` morph-to property with targets
`Post` and `Video` expands to its three fields. -/
theorem C2_morphTo_triple_witness :
    propertyToTSProperties "commentable" exMorphProp [] {} =
      [ { name := "commentable" ++ "Type",
          type := String.intercalate " | "
            ((exMorphProp.targets.getD []).map fun t => "'" ++ t ++ "'"),
          optional := true, readonly := GenOptions.readonly {} |>.getD true,
          comment := some ("Polymorphic type for " ++ "commentable") },
        { name := "commentable" ++ "Id", type := "number", optional := true,
          readonly := GenOptions.readonly {} |>.getD true,
          comment := some ("Polymorphic ID for " ++ "commentable") },
        { name := "commentable",
          type := String.intercalate " | " (exMorphProp.targets.getD []) ++ " | null",
          optional := true, readonly := GenOptions.readonly {} |>.getD true,
          comment := some ((resolveDisplayName exMorphProp.displayName {}).getD
            ("Polymorphic relation to " ++
              String.intercalate ", " (exMorphProp.targets.getD []))) } ] :=
  C2_morphTo_triple rfl rfl rfl (by decide)

/-- C2 counterexample to the original claim: a morph-to property with an
empty target list yields one field, not three. -/
theorem C2_counterexample :
    exMorphNoTargets.type = "Association" ∧
    exMorphNoTargets.relation = some "MorphTo" ∧
    (propertyToTSProperties "commentable" exMorphNoTargets [] {}).length = 1 := by
  decide

/-- Claim C6 (corrected): A property of a registered compound custom type with
declared expansion entries expands to exactly one field per entry plus one
always-optional field per declared accessor, independent of nullability
overrides — but the field names are `<property>_<toSnakeCase(suffix)>` and
`<property>_<toSnakeCase(accessorName)>`, not the raw suffix and accessor
name the original claim stated (see the counterexample); per-entry
optionality follows the priority chain per-schema field override, then plugin
per-field default, then parent-property nullability, then false. -/
theorem C6_compound_expansion {propertyName : String} {property : Property}
    {allSchemas : List Schema} {options : GenOptions} {ct : CustomType}
    {expandFields : List ExpandField}
    (hct : (options.customTypes.bind fun cts => lookupAssoc cts property.type) = some ct)
    (hcompound : ct.compound = true)
    (hexpand : ct.expand = some expandFields) :
    propertyToTSProperties propertyName property allSchemas options =
      (expandFields.map fun field =>
        { name := propertyName ++ "_" ++ toSnakeCase field.suffix,
          type := field.tsType.getD "string",
          optional := ((((lookupAssoc property.fields field.suffix).bind
            FieldOverride.nullable).orElse fun _ =>
            field.sqlNullable).orElse fun _ => property.nullable).getD false,
          readonly := options.readonly.getD true,
          comment := some (((resolveDisplayName property.displayName options).getD
            propertyName) ++ " (" ++ field.suffix ++ ")") }) ++
      ((ct.accessors.getD []).map fun accessor =>
        { name := propertyName ++ "_" ++ toSnakeCase accessor.name,
          type := "string | null", optional := true,
          readonly := options.readonly.getD true,
          comment := some (((resolveDisplayName property.displayName options).getD
            propertyName) ++ " (computed)") }) ∧
    (propertyToTSProperties propertyName property allSchemas options).length =
      expandFields.length + (ct.accessors.getD []).length := by
  have h1 : propertyToTSProperties propertyName property allSchemas options =
      (expandFields.map fun field =>
        { name := propertyName ++ "_" ++ toSnakeCase field.suffix,
          type := field.tsType.getD "string",
          optional := ((((lookupAssoc property.fields field.suffix).bind
            FieldOverride.nullable).orElse fun _ =>
            field.sqlNullable).orElse fun _ => property.nullable).getD false,
          readonly := options.readonly.getD true,
          comment := some (((resolveDisplayName property.displayName options).getD
            propertyName) ++ " (" ++ field.suffix ++ ")") }) ++
      ((ct.accessors.getD []).map fun accessor =>
        { name := propertyName ++ "_" ++ toSnakeCase accessor.name,
          type := "string | null", optional := true,
          readonly := options.readonly.getD true,
          comment := some (((resolveDisplayName property.displayName options).getD
            propertyName) ++ " (computed)") }) := by
    simp only [propertyToTSProperties, hct, hcompound, hexpand]
  refine ⟨h1, ?_⟩
  rw [h1]
  simp [List.length_append, List.length_map]

/-- C6 at a concrete input: the compound `Address` property `address` with
two expansion entries and one accessor expands to its three fields. -/
theorem C6_compound_expansion_witness :
    propertyToTSProperties "address" exAddrProp [] exAddressOptions =
      ((exAddressType.expand.getD []).map fun field =>
        { name := "address" ++ "_" ++ toSnakeCase field.suffix,
          type := field.tsType.getD "string",
          optional := ((((lookupAssoc exAddrProp.fields field.suffix).bind
            FieldOverride.nullable).orElse fun _ =>
            field.sqlNullable).orElse fun _ => exAddrProp.nullable).getD false,
          readonly := exAddressOptions.readonly.getD true,
          comment := some (((resolveDisplayName exAddrProp.displayName
            exAddressOptions).getD "address") ++ " (" ++ field.suffix ++ ")") }) ++
      ((exAddressType.accessors.getD []).map fun accessor =>
        { name := "address" ++ "_" ++ toSnakeCase accessor.name,
          type := "string | null", optional := true,
          readonly := exAddressOptions.readonly.getD true,
          comment := some (((resolveDisplayName exAddrProp.displayName
            exAddressOptions).getD "address") ++ " (computed)") }) ∧
    (propertyToTSProperties "address" exAddrProp [] exAddressOptions).length =
      (exAddressType.expand.getD []).length + (exAddressType.accessors.getD []).length :=
  C6_compound_expansion rfl rfl rfl

/-- C6 counterexample to the original claim: the expansion entry with suffix
`postalCode` yields the field name `address_postal_code`, not
`address_postalCode`. -/
theorem C6_counterexample :
    (propertyToTSProperties "address" exAddrProp [] exAddressOptions).map
      TSProperty.name = ["address_postal_code", "address_line1", "address_full"] ∧
    "address_postalCode" ∉ (propertyToTSProperties "address" exAddrProp []
      exAddressOptions).map TSProperty.name := by
  decide

/-- Claim C7 (corrected): A nullable property with no top-level `pattern` gets a
validator that (unless empty) ends with the `.optional().nullable()` suffix;
a top-level `pattern` is appended as a trailing `.regex(...)` AFTER the
nullability suffix, so for such properties the suffix is not last (the
original claim said it always is; see the counterexample). -/
theorem C7_nullable_suffix {propDef : Property} {fieldName : String}
    {customTypes : Option (List (String × CustomType))}
    (hnul : propDef.nullable = some true)
    (hpat : strTruthy propDef.pattern = false) :
    getZodSchemaForType propDef fieldName customTypes = "" ∨
    strEndsWith (getZodSchemaForType propDef fieldName customTypes)
      ".optional().nullable()" = true := by
  have htail : zodSwitchTail propDef = "" ∨
      strEndsWith (zodSwitchTail propDef) ".optional().nullable()" = true := by
    unfold zodSwitchTail
    simp only [hnul, Option.getD_some, hpat, Bool.false_and, Bool.true_and]
    rw [if_neg Bool.false_ne_true]
    generalize (if (propDef.rules.isSome && decide (zodBaseSchemaForType propDef ≠ "")) = true
      then applyValidationRules (zodBaseSchemaForType propDef) propDef.rules propDef.type
      else zodBaseSchemaForType propDef) = s1
    by_cases h1 : s1 = ""
    · left
      rw [if_neg]
      · exact h1
      · simp [h1]
    · right
      rw [if_pos]
      · exact strEndsWith_append s1 ".optional().nullable()"
      · simp [h1]
  unfold getZodSchemaForType
  cases hct : customTypes.bind fun cts => lookupAssoc cts propDef.type with
  | none =>
    simp only [hct]
    exact htail
  | some ct =>
    simp only [hct]
    by_cases hcomp : (!ct.compound) = true
    · rw [if_pos hcomp]
      right
      simp only [hnul, Option.getD_some, if_pos]
      exact strEndsWith_append _ ".optional().nullable()"
    · rw [if_neg hcomp]
      exact htail

/-- C7 at a concrete input: a plain nullable string property's validator ends
with the nullability suffix. -/
theorem C7_nullable_suffix_witness :
    getZodSchemaForType exPlainNullableProp "p" none = "" ∨
    strEndsWith (getZodSchemaForType exPlainNullableProp "p" none)
      ".optional().nullable()" = true :=
  C7_nullable_suffix rfl rfl

/-- C7 counterexample to the original claim: a nullable property with a
top-level pattern gets the regex appended after the nullability suffix, so
the validator does not end with it. -/
theorem C7_counterexample :
    getZodSchemaForType exPatternNullableProp "p" none =
      "z.string().optional().nullable().regex(/abc/)" ∧
    strEndsWith (getZodSchemaForType exPatternNullableProp "p" none)
      ".optional().nullable()" = false := by
  decide

/-- Claim C3 (confirmed): In the validator synthesizer, the rules bag is applied
as format base, then string-constraint suffix, then numeric suffix; the five
format rules are tested in the fixed priority order url, uuid, ip, ipv4,
ipv6, the first truthy one replacing the base string validator outright (so
at most one fires, and with both `url` and `uuid` true only the url validator
appears), while the remaining string constraints are appended afterwards
whether or not a format rule fired. -/
theorem C3_format_priority :
    (∀ schema r propType, applyValidationRules schema (some r) propType =
      zodFormatBase schema r ++ zodStringRuleSuffix r propType ++
        zodNumericRuleSuffix r propType) ∧
    (∀ schema : String, ∀ r : RulesBag, r.url = true →
      zodFormatBase schema r = "z.string().url()") ∧
    (∀ schema : String, ∀ r : RulesBag, r.url = false → r.uuid = true →
      zodFormatBase schema r = "z.string().uuid()") ∧
    (∀ schema : String, ∀ r : RulesBag, r.url = false → r.uuid = false →
      r.ip = true → zodFormatBase schema r = "z.string().ip()") ∧
    (∀ schema : String, ∀ r : RulesBag, r.url = false → r.uuid = false →
      r.ip = false → r.ipv4 = true →
      zodFormatBase schema r = "z.string().ip(\x7b version: \"v4\" \x7d)") ∧
    (∀ schema : String, ∀ r : RulesBag, r.url = false → r.uuid = false →
      r.ip = false → r.ipv4 = false → r.ipv6 = true →
      zodFormatBase schema r = "z.string().ip(\x7b version: \"v6\" \x7d)") ∧
    (∀ schema : String, ∀ r : RulesBag, r.url = false → r.uuid = false →
      r.ip = false → r.ipv4 = false → r.ipv6 = false →
      zodFormatBase schema r = schema) ∧
    applyValidationRules "z.string()" (some exUrlUuidRules) "String" =
      "z.string().url()" ++ ".min(5)" := by
  refine ⟨fun schema r propType => rfl, ?_, ?_, ?_, ?_, ?_, ?_, by decide⟩
  · intro schema r h
    unfold zodFormatBase
    rw [if_pos h]
  · intro schema r h1 h2
    unfold zodFormatBase
    rw [if_neg (by simp [h1]), if_pos h2]
  · intro schema r h1 h2 h3
    unfold zodFormatBase
    rw [if_neg (by simp [h1]), if_neg (by simp [h2]), if_pos h3]
  · intro schema r h1 h2 h3 h4
    unfold zodFormatBase
    rw [if_neg (by simp [h1]), if_neg (by simp [h2]), if_neg (by simp [h3]), if_pos h4]
  · intro schema r h1 h2 h3 h4 h5
    unfold zodFormatBase
    rw [if_neg (by simp [h1]), if_neg (by simp [h2]), if_neg (by simp [h3]),
      if_neg (by simp [h4]), if_pos h5]
  · intro schema r h1 h2 h3 h4 h5
    unfold zodFormatBase
    rw [if_neg (by simp [h1]), if_neg (by simp [h2]), if_neg (by simp [h3]),
      if_neg (by simp [h4]), if_neg (by simp [h5])]

/-- C3 at a concrete input: with both `url` and `uuid` set, the format base is
the url validator only. -/
theorem C3_format_priority_witness :
    zodFormatBase "z.string()" exUrlUuidRules = "z.string().url()" :=
  C3_format_priority.2.1 "z.string()" exUrlUuidRules rfl


theorem isAlphanum_jsToUpper (c : Char) : ((jsToUpper c).isAlphanum) = c.isAlphanum := by
  by_cases h1 : c = 'a'
  · subst h1
    decide
  by_cases h2 : c = 'b'
  · subst h2
    decide
  by_cases h3 : c = 'c'
  · subst h3
    decide
  by_cases h4 : c = 'd'
  · subst h4
    decide
  by_cases h5 : c = 'e'
  · subst h5
    decide
  by_cases h6 : c = 'f'
  · subst h6
    decide
  by_cases h7 : c = 'g'
  · subst h7
    decide
  by_cases h8 : c = 'h'
  · subst h8
    decide
  by_cases h9 : c = 'i'
  · subst h9
    decide
  by_cases h10 : c = 'j'
  · subst h10
    decide
  by_cases h11 : c = 'k'
  · subst h11
    decide
  by_cases h12 : c = 'l'
  · subst h12
    decide
  by_cases h13 : c = 'm'
  · subst h13
    decide
  by_cases h14 : c = 'n'
  · subst h14
    decide
  by_cases h15 : c = 'o'
  · subst h15
    decide
  by_cases h16 : c = 'p'
  · subst h16
    decide
  by_cases h17 : c = 'q'
  · subst h17
    decide
  by_cases h18 : c = 'r'
  · subst h18
    decide
  by_cases h19 : c = 's'
  · subst h19
    decide
  by_cases h20 : c = 't'
  · subst h20
    decide
  by_cases h21 : c = 'u'
  · subst h21
    decide
  by_cases h22 : c = 'v'
  · subst h22
    decide
  by_cases h23 : c = 'w'
  · subst h23
    decide
  by_cases h24 : c = 'x'
  · subst h24
    decide
  by_cases h25 : c = 'y'
  · subst h25
    decide
  by_cases h26 : c = 'z'
  · subst h26
    decide
  unfold jsToUpper
  rw [if_neg h1, if_neg h2, if_neg h3, if_neg h4, if_neg h5, if_neg h6, if_neg h7, if_neg h8, if_neg h9, if_neg h10, if_neg h11, if_neg h12, if_neg h13, if_neg h14, if_neg h15, if_neg h16, if_neg h17, if_neg h18, if_neg h19, if_neg h20, if_neg h21, if_neg h22, if_neg h23, if_neg h24, if_neg h25, if_neg h26]

theorem isAlphanum_jsToLower (c : Char) : ((jsToLower c).isAlphanum) = c.isAlphanum := by
  by_cases h1 : c = 'A'
  · subst h1
    decide
  by_cases h2 : c = 'B'
  · subst h2
    decide
  by_cases h3 : c = 'C'
  · subst h3
    decide
  by_cases h4 : c = 'D'
  · subst h4
    decide
  by_cases h5 : c = 'E'
  · subst h5
    decide
  by_cases h6 : c = 'F'
  · subst h6
    decide
  by_cases h7 : c = 'G'
  · subst h7
    decide
  by_cases h8 : c = 'H'
  · subst h8
    decide
  by_cases h9 : c = 'I'
  · subst h9
    decide
  by_cases h10 : c = 'J'
  · subst h10
    decide
  by_cases h11 : c = 'K'
  · subst h11
    decide
  by_cases h12 : c = 'L'
  · subst h12
    decide
  by_cases h13 : c = 'M'
  · subst h13
    decide
  by_cases h14 : c = 'N'
  · subst h14
    decide
  by_cases h15 : c = 'O'
  · subst h15
    decide
  by_cases h16 : c = 'P'
  · subst h16
    decide
  by_cases h17 : c = 'Q'
  · subst h17
    decide
  by_cases h18 : c = 'R'
  · subst h18
    decide
  by_cases h19 : c = 'S'
  · subst h19
    decide
  by_cases h20 : c = 'T'
  · subst h20
    decide
  by_cases h21 : c = 'U'
  · subst h21
    decide
  by_cases h22 : c = 'V'
  · subst h22
    decide
  by_cases h23 : c = 'W'
  · subst h23
    decide
  by_cases h24 : c = 'X'
  · subst h24
    decide
  by_cases h25 : c = 'Y'
  · subst h25
    decide
  by_cases h26 : c = 'Z'
  · subst h26
    decide
  unfold jsToLower
  rw [if_neg h1, if_neg h2, if_neg h3, if_neg h4, if_neg h5, if_neg h6, if_neg h7, if_neg h8, if_neg h9, if_neg h10, if_neg h11, if_neg h12, if_neg h13, if_neg h14, if_neg h15, if_neg h16, if_neg h17, if_neg h18, if_neg h19, if_neg h20, if_neg h21, if_neg h22, if_neg h23, if_neg h24, if_neg h25, if_neg h26]

theorem sep_not_alnum {c : Char} (h : isSepChar c = true) : c.isAlphanum = false := by
  unfold isSepChar at h
  simp only [Bool.or_eq_true, decide_eq_true_eq] at h
  rcases h with ((((((h | h) | h) | h) | h) | h) | h) | h <;> subst h <;> decide

theorem flatten_splitSeps (cs : List Char) :
    (splitSeps cs).flatten = cs.filter fun c => !isSepChar c := by
  induction cs with
  | nil => rfl
  | cons c rest ih =>
    by_cases h : isSepChar c = true
    · rw [show splitSeps (c :: rest) = [] :: splitSeps rest by rw [splitSeps, if_pos h]]
      rw [List.flatten_cons, List.nil_append, ih, List.filter_cons]
      simp [h]
    · cases hs : splitSeps rest with
      | nil => exact absurd hs (splitSeps_ne_nil rest)
      | cons w ws =>
        have hstep : splitSeps (c :: rest) = (c :: w) :: ws := by
          rw [splitSeps, if_neg h, hs]
        rw [hstep, List.flatten_cons, List.filter_cons]
        simp only [h, Bool.not_false, if_pos]
        rw [← ih, hs, List.flatten_cons]
        rfl

theorem countP_capFirstWord (w : List Char) :
    (capFirstWord w).countP Char.isAlphanum = w.countP Char.isAlphanum := by
  cases w with
  | nil => rfl
  | cons c rest =>
    simp only [capFirstWord, List.countP_cons, List.countP_map]
    have h1 : (List.map jsToLower rest).countP Char.isAlphanum =
        rest.countP Char.isAlphanum := by
      rw [List.countP_map]
      refine List.countP_congr ?_
      intro a _
      show (jsToLower a).isAlphanum = true ↔ a.isAlphanum = true
      rw [isAlphanum_jsToLower]
    rw [← List.countP_map, h1, isAlphanum_jsToUpper]

theorem countP_flatten_caps (ws : List (List Char)) :
    ((ws.map capFirstWord).flatten).countP Char.isAlphanum =
      (ws.flatten).countP Char.isAlphanum := by
  induction ws with
  | nil => rfl
  | cons w rest ih =>
    simp only [List.map_cons, List.flatten_cons, List.countP_append,
      countP_capFirstWord, ih]

theorem count_strip (cs : List Char) :
    ((((splitSeps cs).map capFirstWord).flatten).filter Char.isAlphanum).length =
      cs.countP Char.isAlphanum := by
  rw [← List.countP_eq_length_filter]
  rw [countP_flatten_caps, flatten_splitSeps, List.countP_filter]
  refine List.countP_congr ?_
  intro a _
  show (a.isAlphanum && !isSepChar a) = true ↔ a.isAlphanum = true
  by_cases ha : a.isAlphanum = true
  · have hs : isSepChar a = false := by
      by_cases hsep : isSepChar a = true
      · rw [sep_not_alnum hsep] at ha
        cases ha
      · simpa using hsep
    simp [ha, hs]
  · simp only [Bool.not_eq_true] at ha
    simp [ha]

/-- Claim C5 (corrected): For every raw enum value containing at least one
ASCII alphanumeric character, the enum-member-name function (split on `-`,
`_` and whitespace, capitalise each segment's first character and lower-case
the rest, strip remaining non-alphanumerics, prefix `_` before a leading
digit) returns a legal TypeScript identifier: a letter or underscore followed
by alphanumerics only. A raw value with no alphanumeric character — the empty
string for instance — maps to the empty string, which is not a legal
identifier (the original claim ranged over every raw value; see the
counterexample). -/
theorem C5_legal_member_names (value : String) :
    (value.toList.any Char.isAlphanum = true →
      isLegalIdent (toEnumMemberName value) = true) ∧
    (value.toList.any Char.isAlphanum = false → toEnumMemberName value = "") := by
  have hlen := count_strip value.toList
  constructor
  · intro h
    have hpos : 0 < value.toList.countP Char.isAlphanum := by
      obtain ⟨a, ha, hp⟩ := List.any_eq_true.mp h
      exact List.countP_pos_iff.mpr ⟨a, ha, hp⟩
    unfold toEnumMemberName
    simp only []
    cases hstr : (((splitSeps value.toList).map capFirstWord).flatten).filter
        Char.isAlphanum with
    | nil =>
      rw [hstr] at hlen
      simp only [List.length_nil] at hlen
      omega
    | cons c rest =>
      have hallal : ∀ x ∈ c :: rest, x.isAlphanum = true := by
        intro x hx
        rw [← hstr] at hx
        exact List.of_mem_filter hx
      have hcal : c.isAlphanum = true := hallal c (List.mem_cons_self _ _)
      have hrest : rest.all Char.isAlphanum = true :=
        List.all_eq_true.mpr fun x hx => hallal x (List.mem_cons_of_mem _ hx)
      show isLegalIdent (String.mk
        (if c.isDigit = true then '_' :: c :: rest else c :: rest)) = true
      by_cases hd : c.isDigit = true
      · rw [if_pos hd]
        show (('_'.isAlpha || decide ('_' = '_')) && (c :: rest).all Char.isAlphanum) = true
        rw [List.all_cons, hcal, hrest]
        decide
      · rw [if_neg hd]
        show ((c.isAlpha || decide (c = '_')) && rest.all Char.isAlphanum) = true
        have hca : c.isAlpha = true := by
          have h2 := hcal
          unfold Char.isAlphanum at h2
          simp only [Bool.or_eq_true] at h2
          rcases h2 with h2 | h2
          · exact h2
          · exact absurd h2 hd
        rw [hca, hrest]
        simp
  · intro h
    have hzero : value.toList.countP Char.isAlphanum = 0 := by
      rw [List.countP_eq_zero]
      simp only [List.any_eq_false] at h
      intro a ha
      simpa using h a ha
    rw [hzero] at hlen
    have hnil : (((splitSeps value.toList).map capFirstWord).flatten).filter
        Char.isAlphanum = [] := List.length_eq_zero.mp hlen
    unfold toEnumMemberName
    simp only [hnil]

/-- C5 at a concrete input: `active-user` becomes the legal identifier
`ActiveUser`. -/
theorem C5_legal_member_names_witness :
    isLegalIdent (toEnumMemberName "active-user") = true :=
  (C5_legal_member_names "active-user").1 (by decide)

/-- C5 counterexample to the original claim: the empty raw value maps to the
empty string, which is not a legal identifier. -/
theorem C5_counterexample :
    toEnumMemberName "" = "" ∧ isLegalIdent (toEnumMemberName "") = false := by
  decide
